import Mathlib

/-!
jwks-operator: a shallow embedding of the reconciliation core

The Go sources under `pkg/jwks`, `pkg/verification`, `pkg/controller`, `pkg/reconciler`,
`pkg/configmap`, `pkg/nginx`, `pkg/config`, `pkg/errors` and `pkg/utils` are rendered as
Lean functions.  Conventions:

* a Go pointer `*T` is an `Option T` (`none` is `nil`);
* a Go `(T, error)` result is an `Except String T`;
* a Go `string` is a Lean `String`, a `[]byte` is a `List Byte`;
* a Go `map[string]bool` is a function `String → Bool` (an absent key reads `false`);
* `time.Time` and `time.Duration` are integers counting nanoseconds.
-/

namespace JwksOperator

/-! # Part I: the embedding -/

/-- Equality of Go results is decidable when errors and values have decidable equality. -/
instance instDecidableEqExcept {ε α : Type} [DecidableEq ε] [DecidableEq α] :
    DecidableEq (Except ε α) := fun a b =>
  match a, b with
  | .ok x, .ok y => if h : x = y then isTrue (by rw [h]) else isFalse (fun e => h (by cases e; rfl))
  | .error x, .error y =>
    if h : x = y then isTrue (by rw [h]) else isFalse (fun e => h (by cases e; rfl))
  | .ok _, .error _ => isFalse (fun e => by cases e)
  | .error _, .ok _ => isFalse (fun e => by cases e)

/-! ## pkg/jwks/types.go -/

/-- One JSON Web Key, field for field as in `pkg/jwks/types.go`. -/
structure JWK where
  Kty : String
  Use : String
  KeyOps : List String
  Alg : String
  Kid : String
  N : String
  E : String
  X5c : List String
  X5t : String
  X5tS256 : String
  deriving DecidableEq, Repr

/-- A JSON Web Key Set: the ordered sequence of its keys. -/
structure JWKS where
  Keys : List JWK
  deriving DecidableEq, Repr

/-! ## pkg/jwks/generator.go : MergeJWKS -/

/-- The empty Go `map[string]bool`. -/
def emptyKidMap : String → Bool := fun _ => false

/-- The Go statement `m[k] = true`. -/
def setKid (m : String → Bool) (k : String) : String → Bool :=
  fun s => if s = k then true else m s

/-- The first loop of `MergeJWKS`: `existingKids[key.Kid] = true` for every old key. -/
def existingKidsOf (oldKeys : List JWK) : String → Bool :=
  oldKeys.foldl (fun m key => setKid m key.Kid) emptyKidMap

/-- The second loop of `MergeJWKS`: append each new key whose kid is not in `existingKids`. -/
def appendNewKeys (existingKids : String → Bool) (merged : List JWK) (newKeys : List JWK) :
    List JWK :=
  newKeys.foldl (fun acc key => if !existingKids key.Kid then acc ++ [key] else acc) merged

/-- The method `Generator.MergeJWKS` of `pkg/jwks/generator.go`. -/
def MergeJWKS (oldJWKS newJWKS : Option JWKS) : Except String JWKS :=
  match newJWKS with
  | none => .error "new JWKS is empty"
  | some n =>
    if n.Keys.length = 0 then .error "new JWKS is empty"
    else
      match oldJWKS with
      | none => .ok n
      | some o =>
        if o.Keys.length = 0 then .ok n
        else
          let existingKids := existingKidsOf o.Keys
          let merged : List JWK := [] ++ o.Keys
          .ok ⟨appendNewKeys existingKids merged n.Keys⟩

/-- The kids of a key sequence, in order. -/
def kidsOf (keys : List JWK) : List String := keys.map (fun k => k.Kid)

/-- The merge as the specification words it: the old keys, then the new keys whose kid
no old key has. -/
def mergeSpec (oldKeys newKeys : List JWK) : List JWK :=
  oldKeys ++ newKeys.filter (fun k => decide (k.Kid ∉ kidsOf oldKeys))

/-- The keys of a possibly nil key set (none for nil). -/
def keysOrNil (j : Option JWKS) : List JWK :=
  match j with
  | none => []
  | some o => o.Keys

/-- A key that carries only a kid (all other fields empty), for concrete examples. -/
def kidOnly (kid : String) : JWK :=
  ⟨"", "", [], "", kid, "", "", [], "", ""⟩

/-! ## Bytes and the standard-library encoders used by `pkg/jwks` -/

/-- A Go `byte`. -/
abbrev Byte := Fin 256

/-- The Go conversion `byte(x)`: the low eight bits. -/
def toByte (n : Nat) : Byte := ⟨n % 256, Nat.mod_lt _ (by decide)⟩

/-- A Go byte array `[n]byte`, the result type of `sha1.Sum` (n = 20) and
`sha256.Sum256` (n = 32). -/
abbrev Digest (n : Nat) := { l : List Byte // l.length = n }

/-- The two hash functions of the Go standard library that the operator calls.  They are
not part of the repository; only their result types (`[20]byte`, `[32]byte`) matter here. -/
structure Hashes where
  sha1Sum : List Byte → Digest 20
  sha256Sum : List Byte → Digest 32

/-- The digit table of `encoding/hex`. -/
def hextable : List Char := "0123456789abcdef".data

/-- One lowercase hexadecimal digit. -/
def hexDigit (n : Nat) : Char := hextable.getD n '0'

/-- The two digits `hextable[v>>4]`, `hextable[v&0x0f]` of one byte. -/
def hexPair (b : Byte) : List Char := [hexDigit (b.val / 16), hexDigit (b.val % 16)]

/-- The characters written by `hex.EncodeToString`. -/
def hexChars : List Byte → List Char
  | [] => []
  | b :: rest => hexPair b ++ hexChars rest

/-- The function `hex.EncodeToString`. -/
def hexEncodeToString (src : List Byte) : String := String.mk (hexChars src)

/-- A base64 `Encoding` of `encoding/base64`: its alphabet and its padding character
(`none` is `NoPadding`). -/
structure Encoding where
  encode : List Char
  padChar : Option Char

/-- The encoding `base64.StdEncoding`. -/
def StdEncoding : Encoding :=
  ⟨"ABCDEFGHIJKLMNOPQRSTUVWXYZabcdefghijklmnopqrstuvwxyz0123456789+/".data, some '='⟩

/-- The encoding `base64.RawURLEncoding`. -/
def RawURLEncoding : Encoding :=
  ⟨"ABCDEFGHIJKLMNOPQRSTUVWXYZabcdefghijklmnopqrstuvwxyz0123456789-_".data, none⟩

/-- The 6-bit groups of a byte sequence: three bytes give four groups, a final single byte
gives two and a final pair gives three (low bits zero). -/
def sextets : List Byte → List Nat
  | [] => []
  | [a] => [a.val / 4, a.val % 4 * 16]
  | [a, b] => [a.val / 4, a.val % 4 * 16 + b.val / 16, b.val % 16 * 4]
  | a :: b :: c :: rest =>
    [a.val / 4, a.val % 4 * 16 + b.val / 16, b.val % 16 * 4 + c.val / 64, c.val % 64]
      ++ sextets rest

/-- The alphabet character of a 6-bit group. -/
def b64Char (enc : Encoding) (i : Nat) : Char := enc.encode.getD i 'A'

/-- The padding appended after `n` source bytes (nothing for `NoPadding`). -/
def b64Padding (enc : Encoding) (n : Nat) : List Char :=
  match enc.padChar with
  | none => []
  | some p => List.replicate ((3 - n % 3) % 3) p

/-- The method `Encoding.EncodeToString`. -/
def EncodeToString (enc : Encoding) (src : List Byte) : String :=
  String.mk ((sextets src).map (b64Char enc) ++ b64Padding enc src.length)

/-- The decode map of an encoding: the position of a character in the alphabet. -/
def b64Index (enc : Encoding) (c : Char) : Option Nat :=
  let i := enc.encode.indexOf c
  if i < enc.encode.length then some i else none

/-- The decode map applied to every character; `none` when a character is not in the
alphabet. -/
def b64Indices (enc : Encoding) : List Char → Option (List Nat)
  | [] => some []
  | c :: rest =>
    match b64Index enc c, b64Indices enc rest with
    | some i, some is => some (i :: is)
    | _, _ => none

/-- The bytes of a sequence of 6-bit groups, for an encoding without padding: four groups give
three bytes, a final pair one byte, a final triple two bytes; one group left over is corrupt
input. -/
def unsextets : List Nat → Option (List Byte)
  | [] => some []
  | [_] => none
  | [a, b] => some [toByte (a * 4 + b / 16)]
  | [a, b, c] => some [toByte (a * 4 + b / 16), toByte (b % 16 * 16 + c / 4)]
  | a :: b :: c :: d :: rest =>
    match unsextets rest with
    | some bs =>
      some (toByte (a * 4 + b / 16) :: toByte (b % 16 * 16 + c / 4) :: toByte (c % 4 * 64 + d) :: bs)
    | none => none

/-- The method `Encoding.DecodeString` for an encoding without padding
(`base64.RawURLEncoding`): carriage returns and line feeds are skipped, every other character
must be in the alphabet. -/
def DecodeStringRaw (enc : Encoding) (s : String) : Except String (List Byte) :=
  let chars := s.data.filter (fun c => c != '\r' && c != '\n')
  match b64Indices enc chars with
  | none => .error "illegal base64 data"
  | some is =>
    match unsextets is with
    | none => .error "illegal base64 data"
    | some bs => .ok bs

/-! ## math/big -/

/-- The little-endian base-256 digits of `n`, at most `fuel` of them. -/
def bytesLE : Nat → Nat → List Byte
  | 0, _ => []
  | fuel + 1, n => if n = 0 then [] else toByte n :: bytesLE fuel (n / 256)

/-- The method `(*big.Int).Bytes` on a value of absolute value `n`: the big-endian bytes
without leading zeros (no byte at all for zero).  A number has at most as many digits as its
value, so the fuel `n` never runs out. -/
def bigBytes (n : Nat) : List Byte := (bytesLE n n).reverse

/-- The method `(*big.Int).SetBytes`: the bytes read as an unsigned big-endian integer. -/
def SetBytes (buf : List Byte) : Nat := buf.foldl (fun acc b => acc * 256 + b.val) 0

/-! ## crypto/rsa, crypto/x509 values -/

/-- A Go `rsa.PublicKey`; the modulus is a (non-nil) `*big.Int`, the exponent a 64-bit
`int`. -/
structure RSAPublicKey where
  N : Int
  E : Int
  deriving DecidableEq, Repr

/-- The dynamic value of the `interface{}` holding a public key: the nil interface, a
`*rsa.PublicKey` (possibly a nil pointer), or a value of another type, named as `%T`
prints it. -/
inductive AnyKey where
  | nilValue : AnyKey
  | rsa : Option RSAPublicKey → AnyKey
  | other : String → AnyKey
  deriving DecidableEq, Repr

/-- What the operator reads of an `x509.Certificate`: the DER bytes and the public key. -/
structure Certificate where
  Raw : List Byte
  PublicKey : AnyKey
  deriving DecidableEq, Repr

/-! ## pkg/jwks/key_extractor.go -/

/-- The function `ExtractPublicKey`. -/
def ExtractPublicKey (cert : Option Certificate) : Except String AnyKey :=
  match cert with
  | none => .error "certificate is nil"
  | some c => .ok c.PublicKey

/-- The function `certFingerprint`: lowercase hex of the SHA-1 of the DER bytes. -/
def certFingerprint (H : Hashes) (cert : Certificate) : String :=
  hexEncodeToString (H.sha1Sum cert.Raw).val

/-- The function `GenerateKeyID`.  The fingerprint is ASCII, so its Go length (in bytes) is
its number of characters and `fingerprint[:16]` is its first 16 characters. -/
def GenerateKeyID (H : Hashes) (cert : Option Certificate) : Except String String :=
  match cert with
  | none => .error "certificate is nil"
  | some c =>
    let fingerprint := certFingerprint H c
    if fingerprint.length < 16 then .error "fingerprint too short"
    else .ok (String.mk (fingerprint.data.take 16))

/-! ## pkg/jwks/formatter.go -/

/-- The function `calculateX5t`. -/
def calculateX5t (H : Hashes) (certDER : List Byte) : String :=
  EncodeToString RawURLEncoding (H.sha1Sum certDER).val

/-- The function `calculateX5tS256`. -/
def calculateX5tS256 (H : Hashes) (certDER : List Byte) : String :=
  EncodeToString RawURLEncoding (H.sha256Sum certDER).val

/-- The function `FormatRSAKey`. -/
def FormatRSAKey (H : Hashes) (key : Option RSAPublicKey) (kid : String)
    (cert : Option Certificate) : Except String JWK :=
  match key with
  | none => .error "RSA key is nil"
  | some k =>
    let nBytes := bigBytes k.N.natAbs
    let nBase64 := EncodeToString RawURLEncoding nBytes
    let eBytes := bigBytes k.E.natAbs
    let eBase64 := EncodeToString RawURLEncoding eBytes
    let jwk : JWK :=
      { Kty := "RSA", Use := "sig", KeyOps := ["verify"], Alg := "RS512", Kid := kid,
        N := nBase64, E := eBase64, X5c := [], X5t := "", X5tS256 := "" }
    match cert with
    | some c =>
      let certDER := c.Raw
      let certBase64 := EncodeToString StdEncoding certDER
      .ok { jwk with
            X5c := [certBase64], X5t := calculateX5t H certDER,
            X5tS256 := calculateX5tS256 H certDER }
    | none => .ok jwk

/-- The type name that `%T` prints for a key. -/
def AnyKey.typeName : AnyKey → String
  | .nilValue => "<nil>"
  | .rsa _ => "*rsa.PublicKey"
  | .other t => t

/-- The function `FormatJWK`: a type switch on the key. -/
def FormatJWK (H : Hashes) (key : AnyKey) (kid : String) (cert : Option Certificate) :
    Except String JWK :=
  match key with
  | .rsa k => FormatRSAKey H k kid cert
  | other => .error ("unsupported key type: " ++ other.typeName)

/-! ## pkg/verification/verifier.go -/

/-- The struct `verification.JWK`: the four fields the verifier reads from a served key. -/
structure VerifierJWK where
  Kty : String
  Kid : String
  N : String
  E : String
  deriving DecidableEq, Repr

/-- The struct `verification.JWKS`. -/
structure VerifierJWKS where
  Keys : List VerifierJWK
  deriving DecidableEq, Repr

/-- What `json.Unmarshal` into a `verification.JWK` keeps of a key marshalled from a
`jwks.JWK`: the members named kty, kid, n and e. -/
def JWK.served (j : JWK) : VerifierJWK := ⟨j.Kty, j.Kid, j.N, j.E⟩

/-- The function `decodeBase64URL`: unpadded base64url to bytes, bytes to a big integer. -/
def decodeBase64URL (s : String) : Except String Int :=
  match DecodeStringRaw RawURLEncoding s with
  | .error _ => .error "failed to decode base64url"
  | .ok decoded => .ok (Int.ofNat (SetBytes decoded))

/-- One step `expInt = expInt<<8 | int(b)` of the exponent loop, on the 64-bit pattern of
the Go `int`. -/
def expIntStep (expInt : Nat) (b : Byte) : Nat := (expInt <<< 8) % 2 ^ 64 ||| b.val

/-- The signed value of a 64-bit pattern (two's complement). -/
def int64OfBits (u : Nat) : Int := if u < 2 ^ 63 then Int.ofNat u else Int.ofNat u - 2 ^ 64

/-- The exponent loop of `extractPublicKeyFromJWKS`. -/
def expIntOfBytes (eBytes : List Byte) : Int := int64OfBits (eBytes.foldl expIntStep 0)

/-- The method `Verifier.extractPublicKeyFromJWKS`; the argument is the outcome of
`json.Unmarshal` on the served document. -/
def extractPublicKeyFromJWKS (unmarshalled : Except String VerifierJWKS) :
    Except String (RSAPublicKey × String) :=
  match unmarshalled with
  | .error _ => .error "failed to unmarshal JWKS"
  | .ok jwks =>
    match jwks.Keys with
    | [] => .error "JWKS contains no keys"
    | jwk :: _ =>
      if jwk.Kty ≠ "RSA" then .error ("unsupported key type: " ++ jwk.Kty)
      else
        match decodeBase64URL jwk.N with
        | .error _ => .error "failed to decode modulus"
        | .ok n =>
          match DecodeStringRaw RawURLEncoding jwk.E with
          | .error _ => .error "failed to decode exponent"
          | .ok eBytes => .ok (⟨n, expIntOfBytes eBytes⟩, jwk.Kid)

/-! ## pkg/jwks/certificate_parser.go and generator.go : generation from a secret -/

/-- A Go `map[string]V` as an association list; a lookup finds the entry of a key. -/
abbrev GoMap (V : Type) := List (String × V)

/-- A Kubernetes `corev1.Secret`, of which the operator reads `Data`. -/
structure Secret where
  Data : GoMap (List Byte)

/-- A `pem.Block`. -/
structure PEMBlock where
  Type_ : String
  Bytes : List Byte

/-- The two decoders of the Go standard library behind `ParseCertificate`: `pem.Decode`
(`none` when no PEM block is found) and `x509.ParseCertificate`. -/
structure CertDecoders where
  pemDecode : List Byte → Option PEMBlock
  x509ParseCertificate : List Byte → Except String Certificate

/-- The function `ParseCertificate`. -/
def ParseCertificate (D : CertDecoders) (pemData : List Byte) : Except String Certificate :=
  match D.pemDecode pemData with
  | none => .error "failed to decode PEM block"
  | some block =>
    if block.Type_ ≠ "CERTIFICATE" then .error ("expected CERTIFICATE block, got " ++ block.Type_)
    else
      match D.x509ParseCertificate block.Bytes with
      | .error e => .error ("failed to parse certificate: " ++ e)
      | .ok cert => .ok cert

/-- The function `ParseCertificateFromSecret`. -/
def ParseCertificateFromSecret (D : CertDecoders) (secretData : GoMap (List Byte)) :
    Except String Certificate :=
  match secretData.lookup "tls.crt" with
  | none => .error "tls.crt not found in secret"
  | some certData => ParseCertificate D certData

/-- The method `Generator.generateFromCert` (its second argument is unused). -/
def generateFromCert (H : Hashes) (cert : Option Certificate) : Except String JWKS :=
  match ExtractPublicKey cert with
  | .error e => .error ("failed to extract public key: " ++ e)
  | .ok publicKey =>
    match GenerateKeyID H cert with
    | .error e => .error ("failed to generate key ID: " ++ e)
    | .ok kid =>
      match FormatJWK H publicKey kid cert with
      | .error e => .error ("failed to format JWK: " ++ e)
      | .ok jwk => .ok ⟨[jwk]⟩

/-- The method `Generator.GenerateFromSecret`. -/
def GenerateFromSecret (H : Hashes) (D : CertDecoders) (secret : Option Secret) :
    Except String JWKS :=
  match secret with
  | none => .error "secret is nil"
  | some s =>
    match ParseCertificateFromSecret D s.Data with
    | .error e => .error ("failed to parse certificate from secret: " ++ e)
    | .ok cert => generateFromCert H (some cert)

/-! ## pkg/reconciler/phases.go : phase 2, and the key read at the end of `Execute` -/

/-- The method `ReconciliationLoop.phase2GenerateJWKS` (logging and metrics left out). -/
def phase2GenerateJWKS (H : Hashes) (D : CertDecoders) (secret : Option Secret) :
    Except String JWKS :=
  match GenerateFromSecret H D secret with
  | .error e => .error ("failed to generate JWKS: " ++ e)
  | .ok newJWKS =>
    if newJWKS.Keys.length = 0 then .error "generated JWKS has no keys"
    else .ok newJWKS

/-- The Go index expression `keys[i]`; `none` is the run-time panic of an index out of
range. -/
def indexKeys (keys : List JWK) (i : Nat) : Option JWK := keys.get? i

/-- The argument `newJWKS.Keys[0].Kid` that `Execute` passes to `UpdateLastKeyID`. -/
def executeLastKeyID (newJWKS : JWKS) : Option String :=
  (indexKeys newJWKS.Keys 0).map (fun k => k.Kid)

/-! ### Stand-ins for the standard library, to instantiate examples -/

/-- Hash functions with constant digests; they only provide values of the right types. -/
def constHashes : Hashes :=
  ⟨fun _ => ⟨List.replicate 20 0, by simp⟩, fun _ => ⟨List.replicate 32 0, by simp⟩⟩

/-- Decoders that read every input as one CERTIFICATE block whose content is a certificate
with the RSA key N = 3233, E = 17. -/
def plainDecoders : CertDecoders :=
  ⟨fun data => some ⟨"CERTIFICATE", data⟩, fun der => .ok ⟨der, .rsa (some ⟨3233, 17⟩)⟩⟩

/-! ## api/v1alpha1/jwks_types.go and pkg/config/types.go -/

/-- A `time.Duration` or a `time.Time`: a count of nanoseconds. -/
abbrev Nanos := Int

/-- The constant `time.Second`. -/
def Second : Nanos := 1000000000

/-- The constant `time.Minute`. -/
def Minute : Nanos := 60 * Second

/-- The constant `time.Hour`. -/
def Hour : Nanos := 60 * Minute

/-- A `metav1.Condition`, of which the scheduler reads the type and the observed
generation. -/
structure Condition where
  Type_ : String
  Status : String
  ObservedGeneration : Int
  Reason : String
  Message : String
  deriving DecidableEq, Repr

/-- The struct `v1alpha1.JWKSSpec`. -/
structure v1alpha1.JWKSSpec where
  CertificateSecret : String
  ConfigMapName : String
  NginxConfigMapName : String
  Endpoint : String
  UpdateStrategy : String
  KeepOldKeys : Bool
  OldKeysTTL : String
  ReconcileInterval : String
  JWKSUpdateInterval : String
  JWKSVerificationInterval : String
  deriving DecidableEq, Repr

/-- The struct `v1alpha1.JWKSStatus`; a nil `*metav1.Time` is `none`. -/
structure v1alpha1.JWKSStatus where
  Conditions : List Condition
  LastUpdateTime : Option Nanos
  LastKeyID : String
  KeyCount : Int
  NginxConfigUpdated : Option Nanos
  JWKSVerified : Option Nanos
  deriving DecidableEq, Repr

/-- The struct `v1alpha1.JWKS` (the target): the object metadata the operator reads, the
spec and the status.  A nil annotation map is `none`. -/
structure v1alpha1.JWKS where
  Name : String
  Namespace : String
  Generation : Int
  Annotations : Option (GoMap String)
  Spec : v1alpha1.JWKSSpec
  Status : v1alpha1.JWKSStatus
  deriving DecidableEq, Repr

/-- The struct `config.LoggingConfig`, of which the operator logic reads the level. -/
structure LoggingConfig where
  Level : String
  deriving DecidableEq, Repr

/-- The struct `config.NginxResourceRequirements`. -/
structure NginxResourceRequirements where
  CPU : String
  Memory : String
  deriving DecidableEq, Repr

/-- The struct `config.NginxResources`. -/
structure NginxResources where
  Requests : NginxResourceRequirements
  Limits : NginxResourceRequirements
  deriving DecidableEq, Repr

/-- The struct `config.NginxConfig` (without the image name). -/
structure NginxConfig where
  Port : Int
  Replicas : Int
  Resources : NginxResources
  CacheMaxAge : Int
  deriving DecidableEq, Repr

/-- The struct `config.VerificationConfig`. -/
structure VerificationConfig where
  Timeout : Nanos
  RetryCount : Int
  RetryDelay : Nanos
  ContextTimeout : Nanos
  deriving DecidableEq, Repr

/-- The fields of `config.Config` that the scheduler, the reconciler and `Validate` read. -/
structure Config where
  Namespace : String
  ReconcileInterval : Nanos
  JWKSUpdateInterval : Nanos
  JWKSVerificationInterval : Nanos
  MaxOldKeys : Int
  DefaultOldKeysTTL : Nanos
  DefaultUpdateStrategy : String
  DefaultKeepOldKeys : Bool
  Logging : LoggingConfig
  Nginx : NginxConfig
  Verification : VerificationConfig
  deriving DecidableEq, Repr

/-- The function `DefaultConfig` of `pkg/config/defaults.go`, with the constants of
`pkg/config/constants.go`. -/
def DefaultConfig : Config :=
  { Namespace := "",
    ReconcileInterval := 5 * Minute, JWKSUpdateInterval := 6 * Hour,
    JWKSVerificationInterval := 1 * Minute,
    MaxOldKeys := 3, DefaultOldKeysTTL := 720 * Hour,
    DefaultUpdateStrategy := "rolling",
    DefaultKeepOldKeys := true,
    Logging := ⟨"info"⟩,
    Nginx := ⟨80, 1, ⟨⟨"50m", "64Mi"⟩, ⟨"200m", "128Mi"⟩⟩, 3600⟩,
    Verification := ⟨10 * Second, 3, 2 * Second, 30 * Second⟩ }

/-- Reading a Go `map[string]string`: the zero value (the empty string) for an absent key. -/
def GoMap.get (m : GoMap String) (key : String) : String := (m.lookup key).getD ""

/-! ## strconv and time -/

/-- The function `strconv.Atoi`: an optional sign, then one or more decimal digits, and the
value must fit a 64-bit `int`; `none` is a non-nil error. -/
def Atoi (s : String) : Option Int :=
  let cs := s.data
  let signed : Bool × List Char :=
    match cs with
    | '+' :: r => (false, r)
    | '-' :: r => (true, r)
    | _ => (false, cs)
  let ds := signed.2
  if ds.isEmpty || !ds.all Char.isDigit then none
  else
    let v : Nat := ds.foldl (fun a c => a * 10 + (c.toNat - 48)) 0
    let i : Int := if signed.1 then -Int.ofNat v else Int.ofNat v
    if -(2 ^ 63) ≤ i ∧ i < 2 ^ 63 then some i else none

/-- The function `time.ParseDuration` of the Go standard library, as a parameter: `none` is a
non-nil error. -/
abbrev DurationParser := String → Option Nanos

/-- The function `time.Since` at the current time `now`. -/
def Since (now t : Nanos) : Nanos := now - t

/-! ## pkg/controller/jwksconfig_controller.go -/

/-- The method `JWKSReconciler.getReconcileInterval`. -/
def getReconcileInterval (cfg : Config) (parseDuration : DurationParser)
    (jwks : v1alpha1.JWKS) : Nanos :=
  if jwks.Spec.ReconcileInterval ≠ "" then
    match parseDuration jwks.Spec.ReconcileInterval with
    | some d => if d > 0 then d else cfg.ReconcileInterval
    | none => cfg.ReconcileInterval
  else cfg.ReconcileInterval

/-- The method `JWKSReconciler.getVerificationInterval`. -/
def getVerificationInterval (cfg : Config) (parseDuration : DurationParser)
    (jwks : v1alpha1.JWKS) : Nanos :=
  if jwks.Spec.JWKSVerificationInterval ≠ "" then
    match parseDuration jwks.Spec.JWKSVerificationInterval with
    | some d => if d > 0 then d else cfg.JWKSVerificationInterval
    | none => cfg.JWKSVerificationInterval
  else cfg.JWKSVerificationInterval

/-- The key of the metadata entry that holds the persisted counter. -/
def fastReconcileKey : String := "jwks-operator.example.com/fast-reconcile-count"

/-- The constant `firstFastInterval`. -/
def firstFastInterval : Nanos := 10 * Second

/-- The constant `secondFastInterval`. -/
def secondFastInterval : Nanos := 30 * Second

/-- The constant `restartThreshold`. -/
def restartThreshold : Nanos := 30 * Minute

/-- The first block of `getRequeueInterval`: the counter read from the metadata. -/
def readFastCount (jwks : v1alpha1.JWKS) : Int :=
  match jwks.Annotations with
  | none => 0
  | some m =>
    let fastCountStr := m.get fastReconcileKey
    if fastCountStr ≠ "" then
      match Atoi fastCountStr with
      | some count => count
      | none => 0
    else 0

/-- The second block of `getRequeueInterval`: the flag `isRestart`. -/
def readIsRestart (now : Nanos) (jwks : v1alpha1.JWKS) : Bool :=
  match jwks.Status.JWKSVerified with
  | some t => decide (Since now t > restartThreshold)
  | none => true

/-- The method `JWKSReconciler.getRequeueInterval`.  The result is the returned delay and
the counter values passed to `updateFastReconcileCountAsync`, in call order. -/
def getRequeueInterval (cfg : Config) (parseDuration : DurationParser) (now : Nanos)
    (jwks : v1alpha1.JWKS) : Nanos × List Int :=
  let fastCount0 := readFastCount jwks
  let isRestart := readIsRestart now jwks
  let reset : Bool := isRestart && decide (fastCount0 ≥ 2)
  let fastCount : Int := if reset then 0 else fastCount0
  let asked : List Int := if reset then [0] else []
  if fastCount = 0 then (firstFastInterval, asked ++ [1])
  else if fastCount = 1 then (secondFastInterval, asked ++ [2])
  else
    let reconcileInterval := getReconcileInterval cfg parseDuration jwks
    let verificationInterval := getVerificationInterval cfg parseDuration jwks
    let requeueInterval :=
      if verificationInterval < reconcileInterval then verificationInterval
      else reconcileInterval
    match decide (fastCount = 1), jwks.Status.JWKSVerified with
    | true, some t =>
      if Since now t < 5 * Minute then (verificationInterval, asked ++ [2])
      else (requeueInterval, asked)
    | _, _ => (requeueInterval, asked)

/-! ## pkg/reconciler/helpers.go and reconciliation_loop.go : shouldReconcile -/

/-- The kinds of object that `shouldReconcile` looks up. -/
inductive Kind where
  | Deployment : Kind
  | ConfigMap : Kind
  deriving DecidableEq, Repr

/-- The outcome of a `client.Get`: the object, an error for which `apierrors.IsNotFound`
holds, or another error. -/
inductive GetOutcome where
  | found : GetOutcome
  | notFound : GetOutcome
  | otherError : GetOutcome
  deriving DecidableEq, Repr

/-- The read side of the resource store: the outcome of `Get` for a kind, a namespace and a
name. -/
abbrev Client := Kind → String → String → GetOutcome

/-- The method `ReconciliationLoop.getJWKSUpdateInterval`. -/
def getJWKSUpdateInterval (cfg : Config) (parseDuration : DurationParser)
    (jwks : v1alpha1.JWKS) : Nanos :=
  if jwks.Spec.JWKSUpdateInterval ≠ "" then
    match parseDuration jwks.Spec.JWKSUpdateInterval with
    | some d => if d > 0 then d else cfg.JWKSUpdateInterval
    | none => cfg.JWKSUpdateInterval
  else cfg.JWKSUpdateInterval

/-- The first loop of `shouldReconcile`: the observed generation of the first condition of
type Ready, 0 when there is none. -/
def readyObservedGeneration : List Condition → Int
  | [] => 0
  | condition :: rest =>
    if condition.Type_ = "Ready" then condition.ObservedGeneration
    else readyObservedGeneration rest

/-- The method `ReconciliationLoop.shouldReconcile` at the current time `now` (logging left
out). -/
def shouldReconcile (cfg : Config) (parseDuration : DurationParser) (client : Client)
    (now : Nanos) (jwks : v1alpha1.JWKS) : Bool :=
  let observedGeneration := readyObservedGeneration jwks.Status.Conditions
  if jwks.Generation ≠ observedGeneration then true
  else
    match jwks.Status.LastUpdateTime with
    | none => true
    | some lastUpdateTime =>
      let timeCheck : Bool :=
        decide (Since now lastUpdateTime ≥ getJWKSUpdateInterval cfg parseDuration jwks)
      if jwks.Spec.NginxConfigMapName ≠ "" then
        if client Kind.Deployment jwks.Namespace jwks.Name = GetOutcome.notFound then true
        else if client Kind.ConfigMap jwks.Namespace jwks.Spec.NginxConfigMapName
            = GetOutcome.notFound then true
        else if client Kind.ConfigMap jwks.Namespace jwks.Spec.ConfigMapName
            = GetOutcome.notFound then true
        else timeCheck
      else timeCheck

/-! ## Reference definitions, worded as the specification words them -/

/-- The effective interval: the override when it is set and parses to a positive duration,
the configured default otherwise. -/
def effectiveInterval (parseDuration : DurationParser) (override : String) (dflt : Nanos) :
    Nanos :=
  if override = "" then dflt
  else
    match parseDuration override with
    | some d => if 0 < d then d else dflt
    | none => dflt

/-- The persisted counter: 0 when the entry is absent, empty or not an integer. -/
def persistedCounter (jwks : v1alpha1.JWKS) : Int :=
  match jwks.Annotations with
  | none => 0
  | some m =>
    match m.lookup fastReconcileKey with
    | none => 0
    | some s => (Atoi s).getD 0

/-- A restart is inferred when the counter is at least 2 and the target was never verified
or was last verified strictly more than 30 minutes ago. -/
def restartInferred (now : Nanos) (jwks : v1alpha1.JWKS) : Bool :=
  decide (persistedCounter jwks ≥ 2) &&
    (match jwks.Status.JWKSVerified with
     | none => true
     | some t => decide (now - t > 30 * Minute))

/-- The steady-state delay: the smaller of the effective reconcile interval and the
effective verification interval. -/
def steadyInterval (cfg : Config) (parseDuration : DurationParser) (jwks : v1alpha1.JWKS) :
    Nanos :=
  min (effectiveInterval parseDuration jwks.Spec.ReconcileInterval cfg.ReconcileInterval)
    (effectiveInterval parseDuration jwks.Spec.JWKSVerificationInterval
      cfg.JWKSVerificationInterval)

/-- The reference delay of the scheduler. -/
def requeueDelaySpec (cfg : Config) (parseDuration : DurationParser) (now : Nanos)
    (jwks : v1alpha1.JWKS) : Nanos :=
  if persistedCounter jwks = 0 ∨ restartInferred now jwks = true then 10 * Second
  else if persistedCounter jwks = 1 then 30 * Second
  else steadyInterval cfg parseDuration jwks

/-- The reference sequence of counter values that the scheduler asks to persist. -/
def counterRequestsSpec (now : Nanos) (jwks : v1alpha1.JWKS) : List Int :=
  if persistedCounter jwks = 0 then [1]
  else if persistedCounter jwks = 1 then [2]
  else if restartInferred now jwks = true then [0, 1]
  else []

/-- A target with the given name and otherwise empty fields, for concrete examples. -/
def blankTarget (name : String) : v1alpha1.JWKS :=
  { Name := name, Namespace := "default", Generation := 1, Annotations := none,
    Spec := ⟨"tls-secret", "jwks-cm", "", "", "", false, "", "", "", ""⟩,
    Status := ⟨[], none, "", 0, none, none⟩ }

/-- A target with persisted counter 1 that was last verified at minute 99. -/
def stuckTarget : v1alpha1.JWKS :=
  { blankTarget "t" with
    Annotations := some [(fastReconcileKey, "1")],
    Status := ⟨[], none, "", 0, none, some (99 * Minute)⟩ }

/-- The observed generation as the specification words it: that of the Ready condition,
0 when there is no Ready condition. -/
def observedGenerationSpec (jwks : v1alpha1.JWKS) : Int :=
  match jwks.Status.Conditions.find? (fun c => c.Type_ == "Ready") with
  | some c => c.ObservedGeneration
  | none => 0

/-- A store in which no object exists. -/
def emptyStore : Client := fun _ _ _ => GetOutcome.notFound

/-- A store in which every object exists. -/
def fullStore : Client := fun _ _ _ => GetOutcome.found

/-- A target without serving, whose Ready condition observed its generation and which was
last updated at minute 99. -/
def settledTarget : v1alpha1.JWKS :=
  { blankTarget "t" with
    Status := ⟨[⟨"Ready", "True", 1, "Reconciled", ""⟩], some (99 * Minute), "", 1, none,
      some (99 * Minute)⟩ }

/-- The target `settledTarget` with serving configured. -/
def servingTarget : v1alpha1.JWKS :=
  { settledTarget with Spec := { settledTarget.Spec with NginxConfigMapName := "nginx-cm" } }

/-! ## pkg/errors/errors.go -/

/-- The type `ErrorType`, a string. -/
abbrev ErrorType := String

/-- The constant `ErrorTypeSecretNotFound`. -/
def ErrorTypeSecretNotFound : ErrorType := "SecretNotFound"

/-- The constant `ErrorTypeJWKSGenerationFailed`. -/
def ErrorTypeJWKSGenerationFailed : ErrorType := "JWKSGenerationFailed"

/-- The constant `ErrorTypeConfigMapUpdateFailed`. -/
def ErrorTypeConfigMapUpdateFailed : ErrorType := "ConfigMapUpdateFailed"

/-- The constant `ErrorTypeNginxConfigUpdateFailed`. -/
def ErrorTypeNginxConfigUpdateFailed : ErrorType := "NginxConfigUpdateFailed"

/-- The constant `ErrorTypeNginxDeploymentFailed`. -/
def ErrorTypeNginxDeploymentFailed : ErrorType := "NginxDeploymentFailed"

/-- The constant `ErrorTypeNginxServiceFailed`. -/
def ErrorTypeNginxServiceFailed : ErrorType := "NginxServiceFailed"

/-- The constant `ErrorTypeJWKSVerificationFailed`. -/
def ErrorTypeJWKSVerificationFailed : ErrorType := "JWKSVerificationFailed"

/-- The constant `ErrorTypeInvalidConfiguration`. -/
def ErrorTypeInvalidConfiguration : ErrorType := "InvalidConfiguration"

/-- The constant `ErrorTypeResourceNotFound`. -/
def ErrorTypeResourceNotFound : ErrorType := "ResourceNotFound"

/-- A non-nil Go `error` by its dynamic type: an error made by `fmt.Errorf` (wrapping or
not), an error returned by the resource store client, or a `*errors.Error` of this
repository with its type, its message and the text of its cause (`none` for a nil cause). -/
inductive GoError where
  | plain : String → GoError
  | api : String → GoError
  | operator : ErrorType → String → Option String → GoError
  deriving DecidableEq, Repr

/-- The method `Error()` of an error; for a `*errors.Error` as in `errors.go`. -/
def GoError.Error : GoError → String
  | .plain msg => msg
  | .api msg => msg
  | .operator t message (some cause) => t ++ ": " ++ message ++ ": " ++ cause
  | .operator t message none => t ++ ": " ++ message

/-- The kind of an error: the `Type` of a `*errors.Error`, nothing for any other error. -/
def GoError.kind : GoError → Option ErrorType
  | .operator t _ _ => some t
  | _ => none

/-- The function `NewError`; the cause is kept by its text. -/
def NewError (errType : ErrorType) (message : String) (err : Option GoError) : GoError :=
  .operator errType message (err.map GoError.Error)

/-- The function `NewInvalidConfigurationError`. -/
def NewInvalidConfigurationError (message : String) (err : Option GoError) : GoError :=
  NewError ErrorTypeInvalidConfiguration message err

/-- The function `IsRetryable`; a nil error is `none`. -/
def IsRetryable (err : Option GoError) : Bool :=
  match err with
  | none => false
  | some (.operator t _ _) =>
    if t = ErrorTypeSecretNotFound ∨ t = ErrorTypeResourceNotFound then true
    else if t = ErrorTypeJWKSVerificationFailed then true
    else if t = ErrorTypeNginxDeploymentFailed ∨ t = ErrorTypeNginxServiceFailed then true
    else false
  | some _ => false

/-! ## The resource store -/

/-- A Kubernetes `corev1.ConfigMap`, of which the operator reads and writes `Data` and
`BinaryData`; a nil map is `none`. -/
structure ConfigMap where
  Data : Option (GoMap String)
  BinaryData : Option (GoMap (List Byte))
  deriving DecidableEq, Repr

/-- One call on the resource store client. -/
inductive StoreOp where
  | getSecret : String → String → StoreOp
  | getConfigMap : String → String → StoreOp
  | createConfigMap : String → String → ConfigMap → StoreOp
  | updateConfigMap : String → String → ConfigMap → StoreOp
  deriving DecidableEq, Repr

/-- Whether a call writes to the store. -/
def StoreOp.isWrite : StoreOp → Bool
  | .createConfigMap _ _ _ => true
  | .updateConfigMap _ _ _ => true
  | _ => false

/-- The state of the resource store as one pass sees it: the secrets and ConfigMaps by
namespace and name, the calls that the store answers with an error other than NotFound
(and the error text), and the log of the calls issued so far. -/
structure Cluster where
  secrets : List ((String × String) × Secret)
  configMaps : List ((String × String) × ConfigMap)
  faults : StoreOp → Option String
  log : List StoreOp

/-- The outcome of a `client.Get`: the object, an error for which `apierrors.IsNotFound`
holds, or another error. -/
inductive Got (α : Type) where
  | found : α → Got α
  | notFound : Got α
  | failed : String → Got α

/-- The log with one more call. -/
def Cluster.record (c : Cluster) (op : StoreOp) : Cluster :=
  { c with log := c.log ++ [op] }

/-- The Go statement `m[k] = v` on a map: the entry of `k` is replaced, or added. -/
def assocSet {κ V : Type} [DecidableEq κ] : List (κ × V) → κ → V → List (κ × V)
  | [], k, v => [(k, v)]
  | (k0, v0) :: rest, k, v =>
    if k0 = k then (k, v) :: rest else (k0, v0) :: assocSet rest k v

/-- Looking a key up in a map. -/
def assocGet {κ V : Type} [DecidableEq κ] : List (κ × V) → κ → Option V
  | [], _ => none
  | (k0, v0) :: rest, k => if k0 = k then some v0 else assocGet rest k

/-- The call `client.Get` for a Secret. -/
def clientGetSecret (ns name : String) (c : Cluster) : Got Secret × Cluster :=
  let c1 := c.record (.getSecret ns name)
  match c.faults (.getSecret ns name) with
  | some e => (.failed e, c1)
  | none =>
    match assocGet c.secrets (ns, name) with
    | some s => (.found s, c1)
    | none => (.notFound, c1)

/-- The call `client.Get` for a ConfigMap. -/
def clientGetConfigMap (ns name : String) (c : Cluster) : Got ConfigMap × Cluster :=
  let c1 := c.record (.getConfigMap ns name)
  match c.faults (.getConfigMap ns name) with
  | some e => (.failed e, c1)
  | none =>
    match assocGet c.configMaps (ns, name) with
    | some cm => (.found cm, c1)
    | none => (.notFound, c1)

/-- The call `client.Create` for a ConfigMap; creating an object that exists is an error. -/
def clientCreateConfigMap (ns name : String) (obj : ConfigMap) (c : Cluster) :
    Option GoError × Cluster :=
  let c1 := c.record (.createConfigMap ns name obj)
  match c.faults (.createConfigMap ns name obj) with
  | some e => (some (.api e), c1)
  | none =>
    match assocGet c.configMaps (ns, name) with
    | some _ => (some (.api "already exists"), c1)
    | none => (none, { c1 with configMaps := assocSet c.configMaps (ns, name) obj })

/-- The call `client.Update` for a ConfigMap; updating an object that does not exist is an
error. -/
def clientUpdateConfigMap (ns name : String) (obj : ConfigMap) (c : Cluster) :
    Option GoError × Cluster :=
  let c1 := c.record (.updateConfigMap ns name obj)
  match c.faults (.updateConfigMap ns name obj) with
  | some e => (some (.api e), c1)
  | none =>
    match assocGet c.configMaps (ns, name) with
    | none => (some (.api "not found"), c1)
    | some _ => (none, { c1 with configMaps := assocSet c.configMaps (ns, name) obj })

/-- The calls issued between two states of the store. -/
def newOps (before after : Cluster) : List StoreOp := after.log.drop before.log.length

/-- The writes among a list of calls. -/
def writeOps (ops : List StoreOp) : List StoreOp := ops.filter StoreOp.isWrite

/-! ## encoding/json, as used for key sets -/

/-- The functions `json.MarshalIndent` and `json.Unmarshal` of the Go standard library on
key sets, as parameters. -/
structure JsonCodec where
  marshalIndent : JWKS → Except String (List Byte)
  unmarshal : List Byte → Except String JWKS

/-- The function `ToJSON` of `pkg/jwks/formatter.go`. -/
def ToJSON (J : JsonCodec) (jwks : Option JWKS) : Except String (List Byte) :=
  match jwks with
  | none => .error "JWKS is nil"
  | some j => J.marshalIndent j

/-- The Go conversion `[]byte(s)`: the UTF-8 bytes of a string. -/
def stringBytes (s : String) : List Byte :=
  s.data.flatMap (fun ch => (String.utf8EncodeChar ch).map (fun b => toByte b.toNat))

/-! ## pkg/configmap/manager.go -/

/-- The method `Manager.UpdateJWKS`. -/
def UpdateJWKS (J : JsonCodec) (ns configMapName : String) (jwksData : Option JWKS)
    (c : Cluster) : Option GoError × Cluster :=
  match jwksData with
  | none => (some (.plain "JWKS data is nil"), c)
  | some j =>
    match ToJSON J (some j) with
    | .error e => (some (.plain ("failed to convert JWKS to JSON: " ++ e)), c)
    | .ok jsonData =>
      match clientGetConfigMap ns configMapName c with
      | (.notFound, c1) =>
        clientCreateConfigMap ns configMapName ⟨none, some [("jwks.json", jsonData)]⟩ c1
      | (.failed e, c1) => (some (.plain ("failed to get ConfigMap: " ++ e)), c1)
      | (.found configMap, c1) =>
        let binaryData : GoMap (List Byte) :=
          match configMap.BinaryData with
          | none => []
          | some m => m
        clientUpdateConfigMap ns configMapName
          { configMap with BinaryData := some (assocSet binaryData "jwks.json" jsonData) } c1

/-- The bytes that `GetJWKS` takes for the document: the `jwks.json` entry of `BinaryData`
when that map is not nil, else of `Data` when that map is not nil. -/
def jwksJSONOf (configMap : ConfigMap) : List Byte :=
  match configMap.BinaryData with
  | some b => (assocGet b "jwks.json").getD []
  | none =>
    match configMap.Data with
    | some d => stringBytes ((assocGet d "jwks.json").getD "")
    | none => []

/-- The method `Manager.GetJWKS`; a nil key set with a nil error is `.ok none`. -/
def GetJWKS (J : JsonCodec) (ns configMapName : String) (c : Cluster) :
    Except GoError (Option JWKS) × Cluster :=
  match clientGetConfigMap ns configMapName c with
  | (.notFound, c1) => (.ok none, c1)
  | (.failed e, c1) => (.error (.plain ("failed to get ConfigMap: " ++ e)), c1)
  | (.found configMap, c1) =>
    let jsonData := jwksJSONOf configMap
    if jsonData.length = 0 then (.error (.plain "jwks.json not found in ConfigMap"), c1)
    else
      match J.unmarshal jsonData with
      | .error e => (.error (.plain ("failed to parse JWKS JSON: " ++ e)), c1)
      | .ok jwksData => (.ok (some jwksData), c1)

/-- The method `Manager.CreateConfigMap`. -/
def CreateConfigMap (J : JsonCodec) (ns configMapName : String) (jwksData : Option JWKS)
    (c : Cluster) : Option GoError × Cluster :=
  UpdateJWKS J ns configMapName jwksData c

/-! ## pkg/configmap/update_strategy.go -/

/-- The method `UpdateStrategy.applyRollingStrategy`. -/
def applyRollingStrategy (J : JsonCodec) (ns configMapName : String) (newJWKS : JWKS)
    (keepOldKeys : Bool) (c : Cluster) : Option GoError × Cluster :=
  if keepOldKeys then
    match GetJWKS J ns configMapName c with
    | (.error e, c1) => (some (.plain ("failed to get current JWKS: " ++ e.Error)), c1)
    | (.ok none, c1) => UpdateJWKS J ns configMapName (some newJWKS) c1
    | (.ok (some oldJWKS), c1) =>
      match MergeJWKS (some oldJWKS) (some newJWKS) with
      | .error e => (some (.plain ("failed to merge JWKS: " ++ e)), c1)
      | .ok mergedJWKS => UpdateJWKS J ns configMapName (some mergedJWKS) c1
  else UpdateJWKS J ns configMapName (some newJWKS) c

/-- The method `UpdateStrategy.applyImmediateStrategy`. -/
def applyImmediateStrategy (J : JsonCodec) (ns configMapName : String) (newJWKS : JWKS)
    (c : Cluster) : Option GoError × Cluster :=
  UpdateJWKS J ns configMapName (some newJWKS) c

/-- The method `UpdateStrategy.Apply`. -/
def Apply (J : JsonCodec) (ns configMapName : String) (newJWKS : Option JWKS)
    (strategy : String) (keepOldKeys : Bool) (c : Cluster) : Option GoError × Cluster :=
  match newJWKS with
  | none => (some (.plain "new JWKS is nil"), c)
  | some n =>
    if strategy = "rolling" then applyRollingStrategy J ns configMapName n keepOldKeys c
    else if strategy = "immediate" then applyImmediateStrategy J ns configMapName n c
    else (some (.plain ("unknown update strategy: " ++ strategy)), c)

/-- The second loop of `ShouldUpdate`: true at the first new key whose kid is not in
`oldKids`, false when there is none. -/
def anyKidMissing (oldKids : String → Bool) : List JWK → Bool
  | [] => false
  | key :: rest => if !oldKids key.Kid then true else anyKidMissing oldKids rest

/-- The method `UpdateStrategy.ShouldUpdate`. -/
def ShouldUpdate (oldJWKS newJWKS : Option JWKS) : Bool :=
  match oldJWKS with
  | none => true
  | some o =>
    match newJWKS with
    | none => false
    | some n =>
      if n.Keys.length = 0 then false
      else
        let oldKids := existingKidsOf o.Keys
        anyKidMissing oldKids n.Keys

/-! ## pkg/reconciler/helpers.go -/

/-- The method `ReconciliationLoop.getUpdateStrategy`. -/
def getUpdateStrategy (cfg : Config) (jwks : v1alpha1.JWKS) : String :=
  if jwks.Spec.UpdateStrategy ≠ "" then jwks.Spec.UpdateStrategy
  else cfg.DefaultUpdateStrategy

/-- The method `ReconciliationLoop.shouldKeepOldKeys`. -/
def shouldKeepOldKeys (cfg : Config) (jwks : v1alpha1.JWKS) : Bool :=
  if jwks.Spec.KeepOldKeys then true
  else cfg.DefaultKeepOldKeys

/-- The constant `nginx.DefaultEndpoint`. -/
def DefaultEndpoint : String := "/jwks.json"

/-- The method `ReconciliationLoop.getEndpoint`. -/
def getEndpoint (jwks : v1alpha1.JWKS) : String :=
  if jwks.Spec.Endpoint ≠ "" then jwks.Spec.Endpoint
  else DefaultEndpoint

/-- The method `ReconciliationLoop.getJWKSVerificationInterval`. -/
def getJWKSVerificationInterval (cfg : Config) (parseDuration : DurationParser)
    (jwks : v1alpha1.JWKS) : Nanos :=
  if jwks.Spec.JWKSVerificationInterval ≠ "" then
    match parseDuration jwks.Spec.JWKSVerificationInterval with
    | some d => if d > 0 then d else cfg.JWKSVerificationInterval
    | none => cfg.JWKSVerificationInterval
  else cfg.JWKSVerificationInterval

/-- The method `ReconciliationLoop.shouldVerifyJWKS` at the current time `now`. -/
def shouldVerifyJWKS (cfg : Config) (parseDuration : DurationParser) (now : Nanos)
    (jwks : v1alpha1.JWKS) (forceVerification : Bool) : Bool :=
  match jwks.Status.JWKSVerified with
  | none => true
  | some t =>
    if forceVerification then true
    else decide (Since now t ≥ getJWKSVerificationInterval cfg parseDuration jwks)

/-- The flag `forceVerification` as `Reconciler.Reconcile` and `phase7VerifyJWKS` compute it
from the metadata entry of the persisted counter. -/
def computeForceVerification (jwks : v1alpha1.JWKS) : Bool :=
  match jwks.Annotations with
  | some m =>
    let fastCountStr := m.get fastReconcileKey
    if fastCountStr = "" ∨ fastCountStr = "0" then true else false
  | none => true

/-- The value `needsVerification` of `Reconciler.Reconcile`. -/
def reconcileNeedsVerification (cfg : Config) (parseDuration : DurationParser) (now : Nanos)
    (jwks : v1alpha1.JWKS) : Bool :=
  shouldVerifyJWKS cfg parseDuration now jwks (computeForceVerification jwks)

/-! ## pkg/reconciler/status_updater.go (the in-memory part) -/

/-- The loop of `SetCondition`: the first condition of the given type is replaced. -/
def replaceCondition (condition : Condition) : List Condition → Option (List Condition)
  | [] => none
  | c :: rest =>
    if c.Type_ = condition.Type_ then some (condition :: rest)
    else (replaceCondition condition rest).map (fun l => c :: l)

/-- The method `StatusUpdater.SetCondition` on a non-nil target (the transition time is not
part of the embedded `Condition`). -/
def SetCondition (jwks : v1alpha1.JWKS) (conditionType status reason message : String) :
    v1alpha1.JWKS :=
  let condition : Condition :=
    { Type_ := conditionType, Status := status, ObservedGeneration := jwks.Generation,
      Reason := reason, Message := message }
  match replaceCondition condition jwks.Status.Conditions with
  | some conds => { jwks with Status := { jwks.Status with Conditions := conds } }
  | none =>
    { jwks with Status := { jwks.Status with Conditions := jwks.Status.Conditions ++ [condition] } }

/-- The method `StatusUpdater.SetReady` at the current time `now`. -/
def SetReady (now : Nanos) (jwks : v1alpha1.JWKS) (message : String) : v1alpha1.JWKS :=
  let j := SetCondition jwks "Ready" "True" "Reconciled" message
  { j with Status := { j.Status with LastUpdateTime := some now } }

/-- The method `StatusUpdater.SetNotReady`. -/
def SetNotReady (jwks : v1alpha1.JWKS) (reason message : String) : v1alpha1.JWKS :=
  SetCondition jwks "Ready" "False" reason message

/-- The method `StatusUpdater.UpdateLastKeyID`. -/
def UpdateLastKeyID (jwks : v1alpha1.JWKS) (kid : String) : v1alpha1.JWKS :=
  { jwks with Status := { jwks.Status with LastKeyID := kid } }

/-- The method `StatusUpdater.UpdateKeyCount`. -/
def UpdateKeyCount (jwks : v1alpha1.JWKS) (count : Int) : v1alpha1.JWKS :=
  { jwks with Status := { jwks.Status with KeyCount := count } }

/-- The method `StatusUpdater.UpdateNginxConfigUpdated` at the current time `now`. -/
def UpdateNginxConfigUpdated (now : Nanos) (jwks : v1alpha1.JWKS) : v1alpha1.JWKS :=
  { jwks with Status := { jwks.Status with NginxConfigUpdated := some now } }

/-- The method `StatusUpdater.UpdateJWKSVerified` at the current time `now`. -/
def UpdateJWKSVerified (now : Nanos) (jwks : v1alpha1.JWKS) : v1alpha1.JWKS :=
  { jwks with Status := { jwks.Status with JWKSVerified := some now } }

/-- The Ready condition of a target: the first condition of type Ready. -/
def readyConditionOf (jwks : v1alpha1.JWKS) : Option Condition :=
  jwks.Status.Conditions.find? (fun c => c.Type_ == "Ready")

/-! ## pkg/nginx/manager.go : UpdateConfig -/

/-- The constant `config.ConfigMapKeyNginxConfig`. -/
def ConfigMapKeyNginxConfig : String := "default.conf"

/-- The method `ConfigGenerator.GenerateConfig` (for a fixed cache max-age), as a parameter:
a function of the key-set object name and the endpoint. -/
abbrev ConfigGenerator := String → String → Except String String

/-- The method `nginx.Manager.UpdateConfig`. -/
def UpdateConfig (generateConfig : ConfigGenerator) (ns configMapName jwksConfigMapName
    endpoint : String) (c : Cluster) : Option GoError × Cluster :=
  if configMapName = "" then (some (.plain "nginx ConfigMap name cannot be empty"), c)
  else if jwksConfigMapName = "" then (some (.plain "JWKS ConfigMap name cannot be empty"), c)
  else
    match generateConfig jwksConfigMapName endpoint with
    | .error e => (some (.plain ("failed to generate nginx config: " ++ e)), c)
    | .ok nginxConfigContent =>
      match clientGetConfigMap ns configMapName c with
      | (.notFound, c1) =>
        clientCreateConfigMap ns configMapName
          ⟨some [(ConfigMapKeyNginxConfig, nginxConfigContent)], none⟩ c1
      | (.failed e, c1) => (some (.plain ("failed to get nginx ConfigMap: " ++ e)), c1)
      | (.found nginxConfigMap, c1) =>
        let data : GoMap String :=
          match nginxConfigMap.Data with
          | none => []
          | some m => m
        let oldConfig := (assocGet data ConfigMapKeyNginxConfig).getD ""
        if oldConfig ≠ nginxConfigContent then
          match clientUpdateConfigMap ns configMapName
              { nginxConfigMap with
                Data := some (assocSet data ConfigMapKeyNginxConfig nginxConfigContent) } c1 with
          | (some err, c2) =>
            (some (.plain ("failed to update nginx ConfigMap: " ++ err.Error)), c2)
          | (none, c2) => (none, c2)
        else (none, c1)

/-! ### Fixtures for the verification decision -/

/-- A stand-in for `time.ParseDuration` that knows the one input used in examples: the
string 1h is one hour. -/
def hourParser : DurationParser := fun s => if s = "1h" then some Hour else none

/-- A target with persisted counter 2, last verified at minute 60, whose
verification-interval override is one hour. -/
def lateTarget : v1alpha1.JWKS :=
  { blankTarget "t" with
    Annotations := some [(fastReconcileKey, "2")],
    Spec := { (blankTarget "t").Spec with JWKSVerificationInterval := "1h" },
    Status := ⟨[], some (60 * Minute), "", 1, none, some (60 * Minute)⟩ }

/-- A store without objects, without faults and with an empty log. -/
def emptyCluster : Cluster := ⟨[], [], fun _ => none, []⟩

/-! ### Reference definitions for what is written to the key-set object -/

/-- The `jwks.json` entry of `BinaryData` of the object that a write carries. -/
def StoreOp.jwksPayload : StoreOp → Option (List Byte)
  | .createConfigMap _ _ obj => obj.BinaryData.bind (fun m => assocGet m "jwks.json")
  | .updateConfigMap _ _ obj => obj.BinaryData.bind (fun m => assocGet m "jwks.json")
  | _ => none

/-- The namespace and name of the object that a call addresses. -/
def StoreOp.target : StoreOp → String × String
  | .getSecret ns name => (ns, name)
  | .getConfigMap ns name => (ns, name)
  | .createConfigMap ns name _ => (ns, name)
  | .updateConfigMap ns name _ => (ns, name)

/-- The one write that stores the document `b` in the key-set object: a create of a new
object when there is none, an update of the stored object with its `jwks.json` entry
replaced otherwise. -/
def keySetWrite (c : Cluster) (ns name : String) (b : List Byte) : StoreOp :=
  match assocGet c.configMaps (ns, name) with
  | none => .createConfigMap ns name ⟨none, some [("jwks.json", b)]⟩
  | some cm =>
    .updateConfigMap ns name
      { cm with BinaryData := some (assocSet (cm.BinaryData.getD []) "jwks.json" b) }

/-! ### A stand-in codec and store fixtures for examples -/

/-- The pieces of a byte sequence that end in a zero byte. -/
def splitZero : List Byte → List (List Byte)
  | [] => []
  | b :: rest =>
    if b = 0 then [] :: splitZero rest
    else
      match splitZero rest with
      | [] => [[b]]
      | w :: ws => (b :: w) :: ws

/-- A stand-in for the JSON functions that keeps the kids only: a key set is written as its
kids, each followed by a zero byte, and read back as keys that carry only a kid. -/
def kidCodec : JsonCodec :=
  ⟨fun j => .ok (j.Keys.flatMap (fun k => stringBytes k.Kid ++ [0])),
   fun bytes => .ok ⟨(splitZero bytes).map
     (fun w => kidOnly (String.mk (w.map (fun b => Char.ofNat b.val))))⟩⟩

/-- The key-set object of the examples, holding the kid 1. -/
def storedKeySetObject : ConfigMap := ⟨none, some [("jwks.json", [49, 0])]⟩

/-- A store whose key-set object `default/jwks-cm` holds the kid 1. -/
def oneKeyCluster : Cluster :=
  ⟨[], [(("default", "jwks-cm"), storedKeySetObject)], fun _ => none, []⟩

/-- The serving-configuration text stored in an object: the `default.conf` entry of `Data`
(the empty string when there is none). -/
def storedNginxConfig (cm : ConfigMap) : String :=
  (assocGet (cm.Data.getD []) ConfigMapKeyNginxConfig).getD ""

/-- The object with its `default.conf` entry set to a text. -/
def withNginxConfig (cm : ConfigMap) (text : String) : ConfigMap :=
  { cm with Data := some (assocSet (cm.Data.getD []) ConfigMapKeyNginxConfig text) }

/-- A stand-in configuration generator: the text names the key-set object and the
endpoint. -/
def plainGenerator : ConfigGenerator :=
  fun jwksConfigMapName endpoint => .ok ("serve " ++ jwksConfigMapName ++ " at " ++ endpoint)

/-- A store whose serving-configuration object `default/nginx-cm` holds an outdated text. -/
def staleNginxCluster : Cluster :=
  ⟨[], [(("default", "nginx-cm"), ⟨some [("default.conf", "old")], none⟩)], fun _ => none, []⟩

/-! ## pkg/utils/configmap.go and pkg/reconciler/phases.go -/

/-- The function `utils.EnsureConfigMapExists`. -/
def EnsureConfigMapExists (ns name : String) (c : Cluster) : Except GoError Bool × Cluster :=
  match clientGetConfigMap ns name c with
  | (.found _, c1) => (.ok true, c1)
  | (.notFound, c1) => (.ok false, c1)
  | (.failed e, c1) => (.error (.plain ("failed to check ConfigMap: " ++ e)), c1)

/-- The method `ReconciliationLoop.phase1GetSecret` (logging left out); a NotFound answer of
the store is an error like any other. -/
def phase1GetSecret (jwks : v1alpha1.JWKS) (c : Cluster) : Except GoError Secret × Cluster :=
  match clientGetSecret jwks.Namespace jwks.Spec.CertificateSecret c with
  | (.found secret, c1) => (.ok secret, c1)
  | (.notFound, c1) =>
    (.error (.plain ("failed to get secret " ++ jwks.Spec.CertificateSecret ++ ": not found")),
      c1)
  | (.failed e, c1) =>
    (.error (.plain ("failed to get secret " ++ jwks.Spec.CertificateSecret ++ ": " ++ e)), c1)

/-- The method `ReconciliationLoop.ensureJWKSConfigMap`. -/
def ensureJWKSConfigMap (J : JsonCodec) (jwks : v1alpha1.JWKS) (jwksData : JWKS)
    (c : Cluster) : Option GoError × Cluster :=
  match EnsureConfigMapExists jwks.Namespace jwks.Spec.ConfigMapName c with
  | (.error err, c1) => (some err, c1)
  | (.ok true, c1) => (none, c1)
  | (.ok false, c1) =>
    CreateConfigMap J jwks.Namespace jwks.Spec.ConfigMapName (some jwksData) c1

/-- The method `ReconciliationLoop.phase3UpdateConfigMap` (logging and metrics left out). -/
def phase3UpdateConfigMap (cfg : Config) (J : JsonCodec) (jwks : v1alpha1.JWKS)
    (newJWKS : JWKS) (c : Cluster) : Option GoError × Cluster :=
  match ensureJWKSConfigMap J jwks newJWKS c with
  | (some err, c1) => (some (.plain ("failed to ensure ConfigMap: " ++ err.Error)), c1)
  | (none, c1) =>
    let updateStrategy := getUpdateStrategy cfg jwks
    let keepOldKeys := shouldKeepOldKeys cfg jwks
    match Apply J jwks.Namespace jwks.Spec.ConfigMapName (some newJWKS) updateStrategy
        keepOldKeys c1 with
    | (some err, c2) => (some (.plain ("failed to update ConfigMap: " ++ err.Error)), c2)
    | (none, c2) => (none, c2)

/-- The method `ReconciliationLoop.ensureNginxConfigMap`. -/
def ensureNginxConfigMap (G : ConfigGenerator) (jwks : v1alpha1.JWKS) (endpoint : String)
    (c : Cluster) : Option GoError × Cluster :=
  match EnsureConfigMapExists jwks.Namespace jwks.Spec.NginxConfigMapName c with
  | (.error err, c1) =>
    (some (.plain ("failed to check nginx ConfigMap: " ++ err.Error)), c1)
  | (.ok true, c1) => (none, c1)
  | (.ok false, c1) =>
    UpdateConfig G jwks.Namespace jwks.Spec.NginxConfigMapName jwks.Spec.ConfigMapName
      endpoint c1

/-- The method `ReconciliationLoop.phase4UpdateNginxConfig` at the current time `now`; the
result carries the target with its status as the phase leaves it. -/
def phase4UpdateNginxConfig (G : ConfigGenerator) (now : Nanos) (jwks : v1alpha1.JWKS)
    (c : Cluster) : Option GoError × v1alpha1.JWKS × Cluster :=
  if jwks.Spec.NginxConfigMapName = "" then (none, jwks, c)
  else
    let endpoint := getEndpoint jwks
    match ensureNginxConfigMap G jwks endpoint c with
    | (some err, c1) =>
      (some (.plain ("failed to ensure nginx ConfigMap: " ++ err.Error)), jwks, c1)
    | (none, c1) =>
      match UpdateConfig G jwks.Namespace jwks.Spec.NginxConfigMapName
          jwks.Spec.ConfigMapName endpoint c1 with
      | (some err, c2) =>
        (some (.plain ("failed to update nginx config: " ++ err.Error)), jwks, c2)
      | (none, c2) => (none, UpdateNginxConfigUpdated now jwks, c2)

/-- The methods `nginx.Manager.EnsureDeployment` (namespace, target name, serving-configuration
object name, key-set object name, endpoint) and `nginx.Manager.EnsureService` (namespace,
target name), as parameters acting on the store. -/
structure NginxWorkload where
  EnsureDeployment : String → String → String → String → String → Cluster →
    Option GoError × Cluster
  EnsureService : String → String → Cluster → Option GoError × Cluster

/-- The method `ReconciliationLoop.phase5EnsureNginxDeployment`. -/
def phase5EnsureNginxDeployment (W : NginxWorkload) (jwks : v1alpha1.JWKS) (c : Cluster) :
    Option GoError × Cluster :=
  if jwks.Spec.NginxConfigMapName = "" then (none, c)
  else
    let endpoint := getEndpoint jwks
    match W.EnsureDeployment jwks.Namespace jwks.Name jwks.Spec.NginxConfigMapName
        jwks.Spec.ConfigMapName endpoint c with
    | (some err, c1) =>
      (some (.plain ("failed to ensure nginx deployment: " ++ err.Error)), c1)
    | (none, c1) => (none, c1)

/-- The method `ReconciliationLoop.phase6EnsureNginxService`. -/
def phase6EnsureNginxService (W : NginxWorkload) (jwks : v1alpha1.JWKS) (c : Cluster) :
    Option GoError × Cluster :=
  if jwks.Spec.NginxConfigMapName = "" then (none, c)
  else
    match W.EnsureService jwks.Namespace jwks.Name c with
    | (some err, c1) => (some (.plain ("failed to ensure nginx service: " ++ err.Error)), c1)
    | (none, c1) => (none, c1)

/-- What verification needs from outside the store model: the method
`waitForServiceEndpoints` (namespace, service name) and the outcome of
`utils.RetryWithDelay` around `VerifyJWKSFromNginx` (namespace, service name, secret), nil
when an attempt succeeded, the error after all attempts otherwise. -/
structure Verification where
  waitForServiceEndpoints : String → String → Cluster → Option GoError × Cluster
  retryVerify : String → String → Secret → Option GoError

/-- The method `ReconciliationLoop.phase7VerifyJWKS` at the current time `now`; the result
carries the returned error, the target with its status as the phase leaves it, and the
store. -/
def phase7VerifyJWKS (cfg : Config) (parseDuration : DurationParser) (V : Verification)
    (now : Nanos) (jwks : v1alpha1.JWKS) (secret : Secret) (c : Cluster) :
    Option GoError × v1alpha1.JWKS × Cluster :=
  if jwks.Spec.NginxConfigMapName = "" then (none, jwks, c)
  else
    let forceVerification := computeForceVerification jwks
    if !shouldVerifyJWKS cfg parseDuration now jwks forceVerification then (none, jwks, c)
    else
      match V.waitForServiceEndpoints jwks.Namespace jwks.Name c with
      | (some _, c1) => (none, jwks, c1)
      | (none, c1) =>
        match V.retryVerify jwks.Namespace jwks.Name secret with
        | some verifyErr =>
          (none, SetNotReady jwks "JWKSVerificationFailed"
            ("Failed to verify JWKS from nginx: " ++ verifyErr.Error), c1)
        | none => (none, UpdateJWKSVerified now jwks, c1)

/-! ## pkg/reconciler/reconciliation_loop.go : Execute -/

/-- Everything a pass depends on besides the target and the store. -/
structure PassEnv where
  cfg : Config
  parseDuration : DurationParser
  hashes : Hashes
  decoders : CertDecoders
  json : JsonCodec
  generateConfig : ConfigGenerator
  workload : NginxWorkload
  verification : Verification
  now : Nanos

/-- How a Go function ends: it returns an error value (nil is `none`) or it panics. -/
inductive GoReturn where
  | returned : Option GoError → GoReturn
  | panicked : GoReturn
  deriving DecidableEq, Repr

/-- The method `ReconciliationLoop.Execute` (metrics left out).  The result carries how the
call ends, the in-memory target as the call leaves it, and the store. -/
def Execute (E : PassEnv) (jwks : Option v1alpha1.JWKS) (c : Cluster) :
    GoReturn × Option v1alpha1.JWKS × Cluster :=
  match jwks with
  | none => (.returned (some (.plain "JWKS is nil")), none, c)
  | some j =>
    match phase1GetSecret j c with
    | (.error err, c1) =>
      (.returned (some err),
        some (SetNotReady j "SecretNotFound" ("Failed to get secret: " ++ err.Error)), c1)
    | (.ok secret, c1) =>
      match phase2GenerateJWKS E.hashes E.decoders (some secret) with
      | .error e =>
        (.returned (some (.plain e)),
          some (SetNotReady j "JWKSGenerationFailed" ("Failed to generate JWKS: " ++ e)), c1)
      | .ok newJWKS =>
        match phase3UpdateConfigMap E.cfg E.json j newJWKS c1 with
        | (some err, c3) =>
          (.returned (some err),
            some (SetNotReady j "ConfigMapUpdateFailed"
              ("Failed to update ConfigMap: " ++ err.Error)), c3)
        | (none, c3) =>
          match phase4UpdateNginxConfig E.generateConfig E.now j c3 with
          | (some err, j4, c4) =>
            (.returned (some err),
              some (SetNotReady j4 "NginxConfigUpdateFailed"
                ("Failed to update nginx config: " ++ err.Error)), c4)
          | (none, j4, c4) =>
            match phase5EnsureNginxDeployment E.workload j4 c4 with
            | (some err, c5) =>
              (.returned (some err),
                some (SetNotReady j4 "NginxDeploymentFailed"
                  ("Failed to ensure nginx deployment: " ++ err.Error)), c5)
            | (none, c5) =>
              match phase6EnsureNginxService E.workload j4 c5 with
              | (some err, c6) =>
                (.returned (some err),
                  some (SetNotReady j4 "NginxServiceFailed"
                    ("Failed to ensure nginx service: " ++ err.Error)), c6)
              | (none, c6) =>
                match phase7VerifyJWKS E.cfg E.parseDuration E.verification E.now j4 secret
                    c6 with
                | (_, j7, c7) =>
                  match executeLastKeyID newJWKS with
                  | none => (.panicked, some j7, c7)
                  | some kid =>
                    let j8 := UpdateLastKeyID j7 kid
                    let j9 := UpdateKeyCount j8 (Int.ofNat newJWKS.Keys.length)
                    (.returned none, some (SetReady E.now j9 "JWKS successfully updated"), c7)

/-- The result of a pass that fails: the error is returned, the Ready condition of the
target is set to False with a reason and a message that ends in the error text, and the
store is left as the failing phase left it. -/
def failedPass (j : v1alpha1.JWKS) (reason msgStart : String) (err : GoError) (c : Cluster) :
    GoReturn × Option v1alpha1.JWKS × Cluster :=
  (.returned (some err), some (SetNotReady j reason (msgStart ++ err.Error)), c)

/-- The key-set document held by an object: the `jwks.json` entry of its `BinaryData`. -/
def ConfigMap.jwksDocument (obj : ConfigMap) : Option (List Byte) :=
  obj.BinaryData.bind (fun m => assocGet m "jwks.json")

/-- A target whose spec has keepOldKeys false and the rolling strategy. -/
def rollingTarget : v1alpha1.JWKS :=
  { blankTarget "t" with Spec := { (blankTarget "t").Spec with UpdateStrategy := "rolling" } }

/-! ### Fixtures for a full pass -/

/-- A workload manager whose calls succeed without touching the store. -/
def readyWorkload : NginxWorkload :=
  ⟨fun _ _ _ _ _ c => (none, c), fun _ _ c => (none, c)⟩

/-- A verification whose endpoints are ready and whose attempts all fail. -/
def failingVerification : Verification :=
  ⟨fun _ _ c => (none, c), fun _ _ _ => some (.plain "failed after 3 attempts: bad status")⟩

/-- An environment with the default configuration, the stand-ins for the standard library,
a ready workload and a failing verification, at minute 100. -/
def failingVerifyEnv : PassEnv :=
  { cfg := DefaultConfig, parseDuration := fun _ => none, hashes := constHashes,
    decoders := plainDecoders, json := kidCodec, generateConfig := plainGenerator,
    workload := readyWorkload, verification := failingVerification, now := 100 * Minute }

/-- A store that holds the source secret `default/tls-secret` and nothing else. -/
def secretOnlyCluster : Cluster :=
  ⟨[(("default", "tls-secret"), ⟨[("tls.crt", [1, 2, 3])]⟩)], [], fun _ => none, []⟩

/-- The six phases before verification all succeed on a target and a store: each phase
returns a nil error on the store (and target) that the phases before it left. -/
def sixPhasesSucceed (E : PassEnv) (j : v1alpha1.JWKS) (c : Cluster) : Prop :=
  ∃ s c1 n c3 j4 c4 c5 c6,
    phase1GetSecret j c = (.ok s, c1) ∧
    phase2GenerateJWKS E.hashes E.decoders (some s) = .ok n ∧
    phase3UpdateConfigMap E.cfg E.json j n c1 = (none, c3) ∧
    phase4UpdateNginxConfig E.generateConfig E.now j c3 = (none, j4, c4) ∧
    phase5EnsureNginxDeployment E.workload j4 c4 = (none, c5) ∧
    phase6EnsureNginxService E.workload j4 c5 = (none, c6)


/-! ## pkg/utils/retry.go -/

/-- The struct `RetryConfig`; `OnRetry` tells whether a callback is provided (a nil callback
is `false`), its calls are recorded as events. -/
structure RetryConfig where
  MaxAttempts : Int
  Delay : Nanos
  OnRetry : Bool
  deriving DecidableEq, Repr

/-- What `RetryWithDelay` does besides returning, in order: a full wait of
`time.After(config.Delay)`, a call of the callback `OnRetry(attempt, err)`, a call of the
operation `fn`. -/
inductive RetryEvent where
  | slept : Nanos → RetryEvent
  | onRetry : Int → GoError → RetryEvent
  | called : RetryEvent
  deriving DecidableEq, Repr

/-- The text that `%w` prints for the last error (`%!w(<nil>)` for a nil error). -/
def wrappedText (lastErr : Option GoError) : String :=
  match lastErr with
  | some e => e.Error
  | none => "%!w(<nil>)"

/-- The events of iteration `i` before the attempt: none in the first iteration; in a later
one the wait of `time.After(config.Delay)`, then the call of the callback when one is
provided and the last error is not nil. -/
def retryWaited (config : RetryConfig) (i : Nat) (lastErr : Option GoError) :
    List RetryEvent :=
  if i > 0 then
    RetryEvent.slept config.Delay ::
      (match lastErr with
       | some e => if config.OnRetry then [RetryEvent.onRetry (Int.ofNat i) e] else []
       | none => [])
  else []

/-- The loop of `RetryWithDelay` from iteration `i` on, with `remaining` iterations to go
(`MaxAttempts - i`).  The operation has no argument, so its outcome is given per call:
`fn k` is what its call number `k` returns (counting from 0; iteration `i` holds call `i`).
The context is given by what it answers at each of the two checks of an iteration, at
`2 * i` during the wait and at `2 * i + 1` before the attempt: `none` while it is not done,
the text of `ctx.Err()` once it is. -/
def retryLoop (ctxDone : Nat → Option String) (config : RetryConfig)
    (fn : Nat → Option GoError) :
    Nat → Nat → Option GoError → Option GoError × List RetryEvent
  | 0, _, lastErr =>
    (some (.plain ("failed after " ++ toString config.MaxAttempts ++ " attempts: "
      ++ wrappedText lastErr)), [])
  | remaining + 1, i, lastErr =>
    match (if i > 0 then ctxDone (2 * i) else none) with
    | some e => (some (.plain ("context cancelled: " ++ e)), [])
    | none =>
      match ctxDone (2 * i + 1) with
      | some e => (some (.plain ("context cancelled: " ++ e)), retryWaited config i lastErr)
      | none =>
        match fn i with
        | none => (none, retryWaited config i lastErr ++ [RetryEvent.called])
        | some err =>
          let rest := retryLoop ctxDone config fn remaining (i + 1) (some err)
          (rest.1, retryWaited config i lastErr ++ [RetryEvent.called] ++ rest.2)

/-- The function `RetryWithDelay`: the returned error and the events in order. -/
def RetryWithDelay (ctxDone : Nat → Option String) (config : RetryConfig)
    (fn : Nat → Option GoError) : Option GoError × List RetryEvent :=
  retryLoop ctxDone config fn config.MaxAttempts.toNat 0 none

/-- The number of calls of the operation among the events. -/
def callCount (events : List RetryEvent) : Nat :=
  (events.filter (fun e => decide (e = RetryEvent.called))).length

/-- The events without the calls of the callback. -/
def withoutCallbacks (events : List RetryEvent) : List RetryEvent :=
  events.filter (fun e =>
    match e with
    | .onRetry _ _ => false
    | _ => true)

/-- The number of calls that a loop of at most `remaining` iterations makes from call `i`
on: up to and with the first call that returns nil. -/
def attemptsFrom (fn : Nat → Option GoError) : Nat → Nat → Nat
  | _, 0 => 0
  | i, remaining + 1 =>
    match fn i with
    | none => 1
    | some _ => 1 + attemptsFrom fn (i + 1) remaining

/-- An operation that fails twice and then succeeds. -/
def thirdTimeLucky : Nat → Option GoError :=
  fun k => if k < 2 then some (.plain "bad status") else none

/-- A context that is never cancelled. -/
def neverDone : Nat → Option String := fun _ => none

/-! ## pkg/config/loader.go : Validate -/

/-- The function `validateNginxConfig` on the (never nil) nginx configuration. -/
def validateNginxConfig (nginxConfig : NginxConfig) : Option GoError :=
  if nginxConfig.Port > 0 ∧ (nginxConfig.Port < 1 ∨ nginxConfig.Port > 65535) then
    some (.plain ("nginx port must be between 1 and 65535, got " ++ toString nginxConfig.Port))
  else if nginxConfig.Replicas < 0 then
    some (.plain ("nginx replicas must be non-negative, got " ++ toString nginxConfig.Replicas))
  else if nginxConfig.CacheMaxAge < 0 then
    some (.plain ("nginx cache max age must be non-negative, got "
      ++ toString nginxConfig.CacheMaxAge))
  else none

/-- The function `validateVerificationConfig` on the (never nil) verification
configuration. -/
def validateVerificationConfig (verificationConfig : VerificationConfig) : Option GoError :=
  if verificationConfig.RetryCount < 0 then
    some (.plain ("verification retry count must be non-negative, got "
      ++ toString verificationConfig.RetryCount))
  else none

/-- The function `Validate`; `strings.ToLower` of the Go standard library is the parameter
`toLower`.  A nil error is `none`. -/
def Validate (toLower : String → String) (cfg : Config) : Option GoError :=
  if cfg.Namespace = "" then
    some (.plain "namespace is required and must be provided from Kubernetes environment")
  else if cfg.ReconcileInterval ≤ 0 then
    some (.plain "reconcileInterval is required and must be positive")
  else if cfg.JWKSUpdateInterval ≤ 0 then
    some (.plain "jwksUpdateInterval is required and must be positive")
  else if cfg.MaxOldKeys < 0 then
    some (.plain "maxOldKeys must be non-negative")
  else if cfg.DefaultOldKeysTTL ≤ 0 then
    some (.plain "defaultOldKeysTTL is required and must be positive")
  else if cfg.DefaultUpdateStrategy ≠ "rolling" ∧ cfg.DefaultUpdateStrategy ≠ "immediate" then
    some (.plain "defaultUpdateStrategy is required and must be 'rolling' or 'immediate'")
  else if ¬ (toLower cfg.Logging.Level ∈ ["debug", "info", "warn", "error"]) then
    some (.plain "logging level must be one of: debug, info, warn, error")
  else
    match validateNginxConfig cfg.Nginx with
    | some err =>
      some (.plain ("nginx configuration validation failed: " ++ err.Error))
    | none =>
      match validateVerificationConfig cfg.Verification with
      | some err =>
        some (.plain ("verification configuration validation failed: " ++ err.Error))
      | none => none

/-- A stand-in for `strings.ToLower` on ASCII text. -/
def asciiToLower (s : String) : String := String.mk (s.data.map Char.toLower)

/-- The default configuration as `Load` completes it in the namespace `operators`, with the
verification interval of a configuration file that sets `jwksVerificationInterval: 0s`. -/
def zeroVerificationConfig : Config :=
  { DefaultConfig with Namespace := "operators", JWKSVerificationInterval := 0 }

/-- A target in normal mode: persisted counter 2, last verified at minute 99. -/
def normalModeTarget : v1alpha1.JWKS :=
  { blankTarget "t" with
    Annotations := some [(fastReconcileKey, "2")],
    Status := ⟨[], some (99 * Minute), "", 1, none, some (99 * Minute)⟩ }

/-! ## Keys for the verifier examples -/

/-- An RSA key as `FormatRSAKey` writes it for N = 3233, E = 17 (without certificate
members), under the given kid. -/
def rsaKeyWithKid (kid : String) : JWK :=
  { Kty := "RSA", Use := "sig", KeyOps := ["verify"], Alg := "RS512", Kid := kid,
    N := "DKE", E := "EQ", X5c := [], X5t := "", X5tS256 := "" }

/-! ## Fixtures for a pass that rotates a key -/

/-- A verification whose endpoints are ready and whose first attempt succeeds. -/
def succeedingVerification : Verification :=
  ⟨fun _ _ c => (none, c), fun _ _ _ => none⟩

/-- An environment with the default configuration (rolling strategy, keep-old-keys), the
stand-ins for the standard library, a ready workload and a succeeding verification, at
minute 100. -/
def readyEnv : PassEnv :=
  { cfg := DefaultConfig, parseDuration := fun _ => none, hashes := constHashes,
    decoders := plainDecoders, json := kidCodec, generateConfig := plainGenerator,
    workload := readyWorkload, verification := succeedingVerification, now := 100 * Minute }

/-- A store that holds the source secret `default/tls-secret` and the key-set object
`default/jwks-cm` with the one kid 1 of an earlier certificate. -/
def rotationCluster : Cluster :=
  ⟨[(("default", "tls-secret"), ⟨[("tls.crt", [1, 2, 3])]⟩)],
   [(("default", "jwks-cm"), storedKeySetObject)], fun _ => none, []⟩

/-- The kids of the key set that an object holds, as the stand-in codec reads them. -/
def storedKids (c : Cluster) (ns name : String) : Option (Except String (List String)) :=
  ((assocGet c.configMaps (ns, name)).bind ConfigMap.jwksDocument).map
    (fun b => (kidCodec.unmarshal b).map (fun j => kidsOf j.Keys))

/-! ## Workload objects: `appsv1.Deployment` and `corev1.Service` -/

/-- A `resource.Quantity` by its numeric value, counted in the smallest unit a quantity can
express; `Equal` compares values. -/
abbrev Quantity := Int

/-- A `corev1.ResourceList`, of which the operator reads the cpu and the memory entry; an
absent entry is `none`. -/
structure ResourceList where
  cpu : Option Quantity
  memory : Option Quantity
  deriving DecidableEq, Repr

/-- The method `ResourceList.Cpu`: the entry, the zero quantity when it is absent. -/
def ResourceList.Cpu (l : ResourceList) : Quantity := l.cpu.getD 0

/-- The method `ResourceList.Memory`: the entry, the zero quantity when it is absent. -/
def ResourceList.Memory (l : ResourceList) : Quantity := l.memory.getD 0

/-- The struct `corev1.ResourceRequirements`. -/
structure ResourceRequirements where
  Requests : ResourceList
  Limits : ResourceList
  deriving DecidableEq, Repr

/-- A `corev1.Container`, of which the operator compares the resources. -/
structure Container where
  Resources : ResourceRequirements
  deriving DecidableEq, Repr

/-- The struct `corev1.ConfigMapVolumeSource`: the name of the referenced object. -/
structure ConfigMapVolumeSource where
  Name : String
  deriving DecidableEq, Repr

/-- A `corev1.Volume`; a nil `ConfigMap` source is `none`. -/
structure Volume where
  Name : String
  ConfigMap : Option ConfigMapVolumeSource
  deriving DecidableEq, Repr

/-- The struct `corev1.PodSpec`. -/
structure PodSpec where
  Volumes : List Volume
  Containers : List Container
  deriving DecidableEq, Repr

/-- The struct `corev1.PodTemplateSpec`; nil maps are `none`. -/
structure PodTemplateSpec where
  Labels : Option (GoMap String)
  Annotations : Option (GoMap String)
  Spec : PodSpec
  deriving DecidableEq, Repr

/-- The struct `appsv1.DeploymentSpec`. -/
structure DeploymentSpec where
  Template : PodTemplateSpec
  deriving DecidableEq, Repr

/-- An `appsv1.Deployment`. -/
structure Deployment where
  Name : String
  Namespace : String
  Spec : DeploymentSpec
  deriving DecidableEq, Repr

/-- A `corev1.ServicePort`. -/
structure ServicePort where
  Name : String
  Port : Int
  TargetPort : Int
  Protocol : String
  deriving DecidableEq, Repr

/-- The struct `corev1.ServiceSpec`; a nil selector is `none`. -/
structure ServiceSpec where
  Type_ : String
  Selector : Option (GoMap String)
  Ports : List ServicePort
  deriving DecidableEq, Repr

/-- A `corev1.Service`. -/
structure Service where
  Name : String
  Namespace : String
  Labels : Option (GoMap String)
  Spec : ServiceSpec
  deriving DecidableEq, Repr

/-! ## pkg/config/constants.go -/

/-- The constant `LabelApp`. -/
def LabelApp : String := "app"

/-- The constant `LabelJWKSConfig`. -/
def LabelJWKSConfig : String := "jwks-config"

/-- The constant `LabelManagedBy`. -/
def LabelManagedBy : String := "managed-by"

/-- The constant `LabelManagedByValue`. -/
def LabelManagedByValue : String := "jwks-operator"

/-- The constant `VolumeNameNginxConfig`. -/
def VolumeNameNginxConfig : String := "nginx-config"

/-- The constant `VolumeNameJWKSData`. -/
def VolumeNameJWKSData : String := "jwks-data"

/-- The constant `AnnotationNginxConfigMapHash`. -/
def AnnotationNginxConfigMapHash : String := "jwks-operator.example.com/nginx-configmap-hash"

/-- The constant `AnnotationJWKSConfigMapHash`. -/
def AnnotationJWKSConfigMapHash : String := "jwks-operator.example.com/jwks-configmap-hash"

/-- The key of the restart marker that `updateDeploymentIfNeeded` stamps. -/
def restartedAtKey : String := "kubectl.kubernetes.io/restartedAt"

/-- The constant `DefaultNginxCPURequest`. -/
def DefaultNginxCPURequest : String := "50m"

/-- The constant `DefaultNginxMemoryRequest`. -/
def DefaultNginxMemoryRequest : String := "64Mi"

/-- The constant `DefaultNginxCPULimit`. -/
def DefaultNginxCPULimit : String := "200m"

/-- The constant `DefaultNginxMemoryLimit`. -/
def DefaultNginxMemoryLimit : String := "128Mi"

/-! ## The resource store for workload objects and targets -/

/-- One call on the resource store client for an object that is not a Secret or a
ConfigMap: a read or a write of a Deployment or a Service, or the status update of a
target (`client.Status().Update`) with the status it carries. -/
inductive ApiOp where
  | getDeployment : String → String → ApiOp
  | updateDeployment : Deployment → ApiOp
  | getService : String → String → ApiOp
  | createService : Service → ApiOp
  | updateService : Service → ApiOp
  | updateStatus : String → String → v1alpha1.JWKSStatus → ApiOp
  deriving DecidableEq, Repr

/-- The resource store with its workload objects and targets: the store of Secrets and
ConfigMaps, the Deployments, Services and targets by namespace and name, the calls that the
store answers with an error other than NotFound, and the log of the calls issued so far
(the calls for Secrets and ConfigMaps are logged in `cluster`). -/
structure ApiServer where
  cluster : Cluster
  deployments : List ((String × String) × Deployment)
  services : List ((String × String) × Service)
  targets : List ((String × String) × v1alpha1.JWKS)
  apiFaults : ApiOp → Option String
  apiLog : List ApiOp

/-- The log with one more call. -/
def ApiServer.record (s : ApiServer) (op : ApiOp) : ApiServer :=
  { s with apiLog := s.apiLog ++ [op] }

/-- The call `client.Get` for a Deployment. -/
def apiGetDeployment (ns name : String) (s : ApiServer) : Got Deployment × ApiServer :=
  let s1 := s.record (.getDeployment ns name)
  match s.apiFaults (.getDeployment ns name) with
  | some e => (.failed e, s1)
  | none =>
    match assocGet s.deployments (ns, name) with
    | some d => (.found d, s1)
    | none => (.notFound, s1)

/-- The call `client.Update` for a Deployment; updating an object that does not exist is an
error. -/
def apiUpdateDeployment (d : Deployment) (s : ApiServer) : Option GoError × ApiServer :=
  let s1 := s.record (.updateDeployment d)
  match s.apiFaults (.updateDeployment d) with
  | some e => (some (.api e), s1)
  | none =>
    match assocGet s.deployments (d.Namespace, d.Name) with
    | none => (some (.api "not found"), s1)
    | some _ =>
      (none, { s1 with deployments := assocSet s.deployments (d.Namespace, d.Name) d })

/-- The call `client.Get` for a Service. -/
def apiGetService (ns name : String) (s : ApiServer) : Got Service × ApiServer :=
  let s1 := s.record (.getService ns name)
  match s.apiFaults (.getService ns name) with
  | some e => (.failed e, s1)
  | none =>
    match assocGet s.services (ns, name) with
    | some svc => (.found svc, s1)
    | none => (.notFound, s1)

/-- The call `client.Create` for a Service; creating an object that exists is an error. -/
def apiCreateService (svc : Service) (s : ApiServer) : Option GoError × ApiServer :=
  let s1 := s.record (.createService svc)
  match s.apiFaults (.createService svc) with
  | some e => (some (.api e), s1)
  | none =>
    match assocGet s.services (svc.Namespace, svc.Name) with
    | some _ => (some (.api "already exists"), s1)
    | none =>
      (none, { s1 with services := assocSet s.services (svc.Namespace, svc.Name) svc })

/-- The call `client.Update` for a Service; updating an object that does not exist is an
error. -/
def apiUpdateService (svc : Service) (s : ApiServer) : Option GoError × ApiServer :=
  let s1 := s.record (.updateService svc)
  match s.apiFaults (.updateService svc) with
  | some e => (some (.api e), s1)
  | none =>
    match assocGet s.services (svc.Namespace, svc.Name) with
    | none => (some (.api "not found"), s1)
    | some _ =>
      (none, { s1 with services := assocSet s.services (svc.Namespace, svc.Name) svc })

/-- The call `client.Status().Update` for a target: the stored status of the target is
replaced by the one the in-memory target carries. -/
def apiUpdateStatus (jwks : v1alpha1.JWKS) (s : ApiServer) : Option GoError × ApiServer :=
  let s1 := s.record (.updateStatus jwks.Namespace jwks.Name jwks.Status)
  match s.apiFaults (.updateStatus jwks.Namespace jwks.Name jwks.Status) with
  | some e => (some (.api e), s1)
  | none =>
    match assocGet s.targets (jwks.Namespace, jwks.Name) with
    | none => (some (.api "not found"), s1)
    | some stored =>
      (none, { s1 with
        targets := assocSet s.targets (jwks.Namespace, jwks.Name)
          { stored with Status := jwks.Status } })

/-- The calls issued on workload objects and targets between two states of the store. -/
def newApiOps (before after : ApiServer) : List ApiOp := after.apiLog.drop before.apiLog.length

/-! ## pkg/nginx/deployment.go -/

/-- The string `dataStr` that `computeConfigMapHash` builds, as bytes: a line `k=v` and a
newline for each entry of `Data`, then for each entry of `BinaryData`.  The order of an
association list stands for the order in which `range` visits the entries of the map, which
Go leaves unspecified. -/
def configMapDataStr (configMap : ConfigMap) : List Byte :=
  (match configMap.Data with
   | none => []
   | some data =>
     data.flatMap (fun kv => stringBytes kv.1 ++ stringBytes "=" ++ stringBytes kv.2
       ++ stringBytes "\n")) ++
  (match configMap.BinaryData with
   | none => []
   | some data =>
     data.flatMap (fun kv => stringBytes kv.1 ++ stringBytes "=" ++ kv.2 ++ stringBytes "\n"))

/-- The function `computeConfigMapHash`. -/
def computeConfigMapHash (H : Hashes) (configMap : Option ConfigMap) : String :=
  match configMap with
  | none => ""
  | some cm => hexEncodeToString (H.sha256Sum (configMapDataStr cm)).val

/-- The method `DeploymentManager.buildResourceRequirements`; `resource.MustParse` of the
Kubernetes library is the parameter `mustParse`, with `none` for a panic.  The result is
`none` when one of the four calls of `MustParse` panics. -/
def buildResourceRequirements (mconfig : Option NginxConfig)
    (mustParse : String → Option Quantity) (nginxResources : Option NginxResources) :
    Option ResourceRequirements :=
  let pick (dflt : String) (fromConfig : NginxConfig → String)
      (fromResources : NginxResources → String) : String :=
    let afterConfig :=
      match mconfig with
      | some cfg => if fromConfig cfg ≠ "" then fromConfig cfg else dflt
      | none => dflt
    match nginxResources with
    | some r => if fromResources r ≠ "" then fromResources r else afterConfig
    | none => afterConfig
  let cpuRequest := pick DefaultNginxCPURequest (fun c => c.Resources.Requests.CPU)
    (fun r => r.Requests.CPU)
  let memoryRequest := pick DefaultNginxMemoryRequest (fun c => c.Resources.Requests.Memory)
    (fun r => r.Requests.Memory)
  let cpuLimit := pick DefaultNginxCPULimit (fun c => c.Resources.Limits.CPU)
    (fun r => r.Limits.CPU)
  let memoryLimit := pick DefaultNginxMemoryLimit (fun c => c.Resources.Limits.Memory)
    (fun r => r.Limits.Memory)
  match mustParse cpuRequest, mustParse memoryRequest, mustParse cpuLimit,
      mustParse memoryLimit with
  | some a, some b, some c, some d => some ⟨⟨some a, some b⟩, ⟨some c, some d⟩⟩
  | _, _, _, _ => none

/-- The function `resourcesEqual`. -/
def resourcesEqual (a b : ResourceRequirements) : Bool :=
  decide (a.Requests.Cpu = b.Requests.Cpu) && decide (a.Requests.Memory = b.Requests.Memory) &&
    decide (a.Limits.Cpu = b.Limits.Cpu) && decide (a.Limits.Memory = b.Limits.Memory)

/-- One iteration of the volume loop of `updateDeploymentIfNeeded`: the volume as the
iteration leaves it, and whether it set `needsUpdate`. -/
def fixVolume (nginxConfigMapName jwksConfigMapName : String) (vol : Volume) : Volume × Bool :=
  let first : Volume × Bool :=
    match vol.ConfigMap with
    | some src =>
      if vol.Name = VolumeNameNginxConfig ∧ src.Name ≠ nginxConfigMapName then
        ({ vol with ConfigMap := some { src with Name := nginxConfigMapName } }, true)
      else (vol, false)
    | none => (vol, false)
  match first.1.ConfigMap with
  | some src =>
    if vol.Name = VolumeNameJWKSData ∧ src.Name ≠ jwksConfigMapName then
      ({ first.1 with ConfigMap := some { src with Name := jwksConfigMapName } }, true)
    else first
  | none => first

/-- The resource block of `updateDeploymentIfNeeded`: the containers as the block leaves
them and whether it set `needsUpdate`; `none` when the block panics (no first container, or
a panic of `MustParse`). -/
def updateContainerResources (mconfig : Option NginxConfig)
    (mustParse : String → Option Quantity) (nginxResources : Option NginxResources)
    (containers : List Container) : Option (List Container × Bool) :=
  match nginxResources with
  | none => some (containers, false)
  | some r =>
    match containers with
    | [] => none
    | container :: rest =>
      match buildResourceRequirements mconfig mustParse (some r) with
      | none => none
      | some newResources =>
        if !resourcesEqual container.Resources newResources then
          some ({ container with Resources := newResources } :: rest, true)
        else some (containers, false)

/-- A Deployment with its pod-template annotations, volumes and containers replaced. -/
def Deployment.withTemplate (d : Deployment) (annotations : Option (GoMap String))
    (volumes : List Volume) (containers : List Container) : Deployment :=
  { d with
    Spec := { d.Spec with
      Template := { d.Spec.Template with
        Annotations := annotations,
        Spec := { d.Spec.Template.Spec with Volumes := volumes, Containers := containers } } } }

/-- The Go expression `deployment.Spec.Template.Annotations[key]`: the recorded value, the
empty string when the map is nil or has no such key. -/
def Deployment.recordedEntry (d : Deployment) (key : String) : String :=
  GoMap.get (d.Spec.Template.Annotations.getD []) key

/-- The method `DeploymentManager.updateDeploymentIfNeeded`.  `stamp` is the text of
`metav1.Now().Format(...)`; a nil annotation map is first replaced by an empty one.  The
result carries how the call ends, the in-memory Deployment
as the call leaves it, and the store. -/
def updateDeploymentIfNeeded (H : Hashes) (mustParse : String → Option Quantity)
    (stamp : String) (mconfig : Option NginxConfig) (deployment : Deployment)
    (nginxConfigMapName jwksConfigMapName : String) (nginxResources : Option NginxResources)
    (s : ApiServer) : GoReturn × Deployment × ApiServer :=
  match clientGetConfigMap deployment.Namespace nginxConfigMapName s.cluster with
  | (.notFound, c1) =>
    (.returned (some (.plain "failed to get nginx ConfigMap: not found")), deployment,
      { s with cluster := c1 })
  | (.failed e, c1) =>
    (.returned (some (.plain ("failed to get nginx ConfigMap: " ++ e))), deployment,
      { s with cluster := c1 })
  | (.found nginxConfigMap, c1) =>
    match clientGetConfigMap deployment.Namespace jwksConfigMapName c1 with
    | (.notFound, c2) =>
      (.returned (some (.plain "failed to get JWKS ConfigMap: not found")), deployment,
        { s with cluster := c2 })
    | (.failed e, c2) =>
      (.returned (some (.plain ("failed to get JWKS ConfigMap: " ++ e))), deployment,
        { s with cluster := c2 })
    | (.found jwksConfigMap, c2) =>
      let s2 : ApiServer := { s with cluster := c2 }
      let nginxHash := computeConfigMapHash H (some nginxConfigMap)
      let jwksHash := computeConfigMapHash H (some jwksConfigMap)
      let annotations0 : GoMap String := deployment.Spec.Template.Annotations.getD []
      let nginxChanged : Bool :=
        decide (GoMap.get annotations0 AnnotationNginxConfigMapHash ≠ nginxHash)
      let annotations1 : GoMap String :=
        if nginxChanged then assocSet annotations0 AnnotationNginxConfigMapHash nginxHash
        else annotations0
      let jwksChanged : Bool :=
        decide (GoMap.get annotations1 AnnotationJWKSConfigMapHash ≠ jwksHash)
      let annotations2 : GoMap String :=
        if jwksChanged then assocSet annotations1 AnnotationJWKSConfigMapHash jwksHash
        else annotations1
      let fixed := deployment.Spec.Template.Spec.Volumes.map
        (fixVolume nginxConfigMapName jwksConfigMapName)
      let volumes := fixed.map Prod.fst
      let volumesChanged := fixed.any Prod.snd
      match updateContainerResources mconfig mustParse nginxResources
          deployment.Spec.Template.Spec.Containers with
      | none =>
        (.panicked,
          deployment.withTemplate (some annotations2) volumes
            deployment.Spec.Template.Spec.Containers, s2)
      | some (containers, resourcesChanged) =>
        let needsUpdate := nginxChanged || jwksChanged || volumesChanged || resourcesChanged
        if needsUpdate then
          let updated := deployment.withTemplate
            (some (assocSet annotations2 restartedAtKey stamp)) volumes containers
          match apiUpdateDeployment updated s2 with
          | (err, s3) => (.returned err, updated, s3)
        else
          (.returned none, deployment.withTemplate (some annotations2) volumes containers, s2)

/-! ### Fixtures for the content hash -/

/-- An object whose `Data` has the one entry `a` with a two-line value. -/
def joinedEntryMap : ConfigMap := ⟨some [("a", "1\nb=2")], none⟩

/-- An object whose `Data` has the two entries `a` and `b`, visited in this order. -/
def splitEntryMap : ConfigMap := ⟨some [("a", "1"), ("b", "2")], none⟩

/-- The object of `splitEntryMap` with its entries visited in the other order. -/
def swappedEntryMap : ConfigMap := ⟨some [("b", "2"), ("a", "1")], none⟩

/-- An object that holds the entry `k` with the text `v` in `Data`. -/
def textEntryMap : ConfigMap := ⟨some [("k", "v")], none⟩

/-- An object that holds the entry `k` with the byte of `v` in `BinaryData`. -/
def binaryEntryMap : ConfigMap := ⟨none, some [("k", [118])]⟩

/-! ### Fixtures for the workload -/

/-- A Deployment `default/t` whose pod template has the app label `t`, no annotations, the
two ConfigMap volumes and one container without resources. -/
def bareDeployment : Deployment :=
  { Name := "t", Namespace := "default",
    Spec := ⟨{ Labels := some [("app", "t")], Annotations := none,
               Spec := ⟨[⟨"nginx-config", some ⟨"nginx-cm"⟩⟩, ⟨"jwks-data", some ⟨"jwks-cm"⟩⟩],
                        [⟨⟨⟨none, none⟩, ⟨none, none⟩⟩⟩]⟩ }⟩ }

/-- A store that holds the two ConfigMaps `default/nginx-cm` and `default/jwks-cm` and the
Deployment `default/t`. -/
def workloadServer : ApiServer :=
  { cluster :=
      ⟨[], [(("default", "nginx-cm"), ⟨some [("default.conf", "old")], none⟩),
            (("default", "jwks-cm"), storedKeySetObject)], fun _ => none, []⟩,
    deployments := [(("default", "t"), bareDeployment)],
    services := [], targets := [], apiFaults := fun _ => none, apiLog := [] }

/-! ## pkg/nginx/service.go -/

/-- The function `selectorsEqual`; a nil map has length 0 and reads every key as the empty
string. -/
def selectorsEqual (s1 s2 : Option (GoMap String)) : Bool :=
  let m1 := s1.getD []
  let m2 := s2.getD []
  if m1.length ≠ m2.length then false
  else m1.all (fun kv => decide (GoMap.get m2 kv.1 = kv.2))

/-- The method `ServiceManager.createService`. -/
def createService (name ns jwksConfigName : String) : Service :=
  { Name := name, Namespace := ns,
    Labels := some [(LabelApp, jwksConfigName), (LabelJWKSConfig, jwksConfigName),
      (LabelManagedBy, LabelManagedByValue)],
    Spec := { Type_ := "ClusterIP", Selector := some [(LabelApp, jwksConfigName)],
              Ports := [⟨"http", 80, 80, "TCP"⟩] } }

/-- The lookup of the workload in `EnsureService`: under the name of the target first, under
the name with the `nginx-` start when the first read returns any error; `none` when the
second read returns an error too. -/
def findDeployment (ns jwksConfigName : String) (s : ApiServer) :
    Option Deployment × ApiServer :=
  match apiGetDeployment ns jwksConfigName s with
  | (.found d, s1) => (some d, s1)
  | (_, s1) =>
    match apiGetDeployment ns ("nginx-" ++ jwksConfigName) s1 with
    | (.found d, s2) => (some d, s2)
    | (_, s2) => (none, s2)

/-- The selector that `EnsureService` expects: the app label of the pod template of the
workload when one is found and the label is not empty, the name of the target otherwise. -/
def expectedSelector (jwksConfigName : String) (deployment : Option Deployment) :
    GoMap String :=
  match deployment with
  | some d =>
    let actualApp := GoMap.get (d.Spec.Template.Labels.getD []) LabelApp
    if actualApp ≠ "" then [(LabelApp, actualApp)] else [(LabelApp, jwksConfigName)]
  | none => [(LabelApp, jwksConfigName)]

/-- The method `ServiceManager.EnsureService`. -/
def EnsureService (ns jwksConfigName : String) (s : ApiServer) : Option GoError × ApiServer :=
  match apiGetService ns jwksConfigName s with
  | (.found service, s1) =>
    match findDeployment ns jwksConfigName s1 with
    | (deployment, s2) =>
      let expected := expectedSelector jwksConfigName deployment
      if !selectorsEqual service.Spec.Selector (some expected) then
        apiUpdateService { service with Spec := { service.Spec with Selector := some expected } }
          s2
      else (none, s2)
  | (.failed e, s1) => (some (.plain ("failed to get service: " ++ e)), s1)
  | (.notFound, s1) => apiCreateService (createService jwksConfigName ns jwksConfigName) s1

/-- The selector of a stored Service. -/
def storedSelector (s : ApiServer) (ns name : String) : Option (Option (GoMap String)) :=
  (assocGet s.services (ns, name)).map (fun svc => svc.Spec.Selector)

/-- A store that holds the Deployment `default/t` (app label `t`) and a Service `default/t`
whose selector is the one entry `tier` with an empty value. -/
def driftedServer : ApiServer :=
  { workloadServer with
    services := [(("default", "t"),
      { createService "t" "default" "t" with
        Spec := { (createService "t" "default" "t").Spec with
          Selector := some [("tier", "")] } })] }

/-! ## pkg/reconciler/reconciler.go and status_updater.go : Reconcile -/

/-- The read side of the store as `shouldReconcile` sees it. -/
def ApiServer.reads (s : ApiServer) : Client := fun kind ns name =>
  match kind with
  | .Deployment =>
    match s.apiFaults (.getDeployment ns name) with
    | some _ => GetOutcome.otherError
    | none =>
      match assocGet s.deployments (ns, name) with
      | some _ => GetOutcome.found
      | none => GetOutcome.notFound
  | .ConfigMap =>
    match s.cluster.faults (.getConfigMap ns name) with
    | some _ => GetOutcome.otherError
    | none =>
      match assocGet s.cluster.configMaps (ns, name) with
      | some _ => GetOutcome.found
      | none => GetOutcome.notFound

/-- The method `StatusUpdater.UpdateStatus`. -/
def UpdateStatus (jwks : Option v1alpha1.JWKS) (status : v1alpha1.JWKSStatus)
    (s : ApiServer) : Option GoError × ApiServer :=
  match jwks with
  | none => (some (.plain "JWKS is nil"), s)
  | some j => apiUpdateStatus { j with Status := status } s

/-- The method `Reconciler.performVerificationOnly`; the result carries the returned error,
the target with its status as the call leaves it, and the store. -/
def performVerificationOnly (E : PassEnv) (jwks : v1alpha1.JWKS) (secret : Secret)
    (c : Cluster) : Option GoError × v1alpha1.JWKS × Cluster :=
  if jwks.Spec.NginxConfigMapName = "" then (none, jwks, c)
  else
    match E.workload.EnsureService jwks.Namespace jwks.Name c with
    | (some _, c1) => (none, jwks, c1)
    | (none, c1) => phase7VerifyJWKS E.cfg E.parseDuration E.verification E.now jwks secret c1

/-- The method `Reconciler.Reconcile` (logging left out).  The reads of `shouldReconcile`
are answered from the store without being logged.  The result carries how the call ends,
the in-memory target as the call leaves it, and the store. -/
def Reconcile (E : PassEnv) (jwks : Option v1alpha1.JWKS) (s : ApiServer) :
    GoReturn × Option v1alpha1.JWKS × ApiServer :=
  match jwks with
  | none => (.returned (some (.plain "JWKS is nil")), none, s)
  | some j =>
    let needsReconciliation := shouldReconcile E.cfg E.parseDuration s.reads E.now j
    let forceVerification := computeForceVerification j
    let needsVerification := shouldVerifyJWKS E.cfg E.parseDuration E.now j forceVerification
    if !needsReconciliation && !needsVerification then (.returned none, some j, s)
    else if !needsReconciliation && needsVerification then
      match phase1GetSecret j s.cluster with
      | (.error _, c1) => (.returned none, some j, { s with cluster := c1 })
      | (.ok secret, c1) =>
        match performVerificationOnly E j secret c1 with
        | (_, j2, c2) =>
          match UpdateStatus (some j2) j2.Status { s with cluster := c2 } with
          | (_, s3) => (.returned none, some j2, s3)
    else
      match Execute E (some j) s.cluster with
      | (.panicked, j2, c2) => (.panicked, j2, { s with cluster := c2 })
      | (.returned (some err), j2, c2) =>
        (.returned (some err), j2, { s with cluster := c2 })
      | (.returned none, j2, c2) =>
        match j2 with
        | none => (.panicked, none, { s with cluster := c2 })
        | some t =>
          match UpdateStatus (some t) t.Status { s with cluster := c2 } with
          | (some err, s3) =>
            (.returned (some (.plain ("failed to update status: " ++ err.Error))), some t, s3)
          | (none, s3) => (.returned none, some t, s3)

/-- Whether a call is a status update. -/
def ApiOp.isStatusWrite : ApiOp → Bool
  | .updateStatus _ _ _ => true
  | _ => false

/-- A store without the source secret, in which the target `default/t` is stored with an
empty status. -/
def targetOnlyServer : ApiServer :=
  { cluster := emptyCluster, deployments := [], services := [],
    targets := [(("default", "t"), blankTarget "t")],
    apiFaults := fun _ => none, apiLog := [] }

/-! ### Fixtures for the prior states of the key-set object -/

/-- A store whose key-set object `default/jwks-cm` exists without any entry. -/
def bareObjectCluster : Cluster :=
  ⟨[], [(("default", "jwks-cm"), ⟨none, none⟩)], fun _ => none, []⟩

/-- A store whose key-set object holds `jwks.json` under `Data` only, while `BinaryData`
holds another entry. -/
def dataOnlyCluster : Cluster :=
  ⟨[], [(("default", "jwks-cm"), ⟨some [("jwks.json", "1")], some [("other", [1])]⟩)],
    fun _ => none, []⟩

/-- A store whose key-set object holds an empty `jwks.json` entry. -/
def emptyDocumentCluster : Cluster :=
  ⟨[], [(("default", "jwks-cm"), ⟨none, some [("jwks.json", [])]⟩)], fun _ => none, []⟩

/-- The stand-in codec, reading only documents that end in a zero byte; any other document
is a parse error. -/
def strictKidCodec : JsonCodec :=
  ⟨kidCodec.marshalIndent,
   fun bytes =>
     if bytes.getLast? = some 0 then kidCodec.unmarshal bytes
     else .error "unexpected end of JSON input"⟩

/-- A store whose key-set object holds a `jwks.json` entry that the strict codec cannot
read. -/
def garbledCluster : Cluster :=
  ⟨[], [(("default", "jwks-cm"), ⟨none, some [("jwks.json", [49])]⟩)], fun _ => none, []⟩

/-! ### Fixtures for a store that rejects writes, and for keys that share a kid -/

/-- A store whose serving-configuration object `default/nginx-cm` holds an outdated text and
which rejects every write with a conflict. -/
def rejectingNginxCluster : Cluster :=
  ⟨[], [(("default", "nginx-cm"), ⟨some [("default.conf", "old")], none⟩)],
    fun op => if op.isWrite then some "conflict" else none, []⟩

/-- A key that carries a kid and a modulus text (all other fields empty). -/
def keyWith (kid n : String) : JWK := { kidOnly kid with N := n }

/-- The text of a byte sequence, one character per byte. -/
def textOf (w : List Byte) : String := String.mk (w.map (fun b => Char.ofNat b.val))

/-- Consecutive pieces taken two by two, as keys with a kid and a modulus text. -/
def keysOfPieces : List (List Byte) → List JWK
  | kid :: n :: rest => keyWith (textOf kid) (textOf n) :: keysOfPieces rest
  | _ => []

/-- A stand-in for the JSON functions that keeps the kid and the modulus text of each key:
a key is written as its kid and its modulus text, each followed by a zero byte. -/
def kidModulusCodec : JsonCodec :=
  ⟨fun j => .ok (j.Keys.flatMap (fun k => stringBytes k.Kid ++ [0] ++ stringBytes k.N ++ [0])),
   fun bytes => .ok ⟨keysOfPieces (splitZero bytes)⟩⟩

/-- A store whose key-set object `default/jwks-cm` holds one key with kid 1 and the modulus
text `old`. -/
def sameKidCluster : Cluster :=
  ⟨[], [(("default", "jwks-cm"), ⟨none, some [("jwks.json", [49, 0, 111, 108, 100, 0])]⟩)],
    fun _ => none, []⟩

/-- The keys of the key set that an object holds, as a codec reads them. -/
def storedKeys (J : JsonCodec) (c : Cluster) (ns name : String) :
    Option (Except String (List JWK)) :=
  ((assocGet c.configMaps (ns, name)).bind ConfigMap.jwksDocument).map
    (fun b => (J.unmarshal b).map (fun j => j.Keys))
/-! # Part II: lemmas and theorems -/

/-! ### Lemmas on the merge loops -/

theorem foldl_setKid_apply (keys : List JWK) (m : String → Bool) (s : String) :
    (keys.foldl (fun m key => setKid m key.Kid) m) s = (m s || decide (s ∈ kidsOf keys)) := by
  induction keys generalizing m with
  | nil => simp [kidsOf]
  | cons k ks ih =>
    simp only [List.foldl_cons, ih, kidsOf, List.map_cons, List.mem_cons, setKid]
    by_cases h : s = k.Kid <;> simp [h]

theorem existingKidsOf_apply (keys : List JWK) (s : String) :
    existingKidsOf keys s = decide (s ∈ kidsOf keys) := by
  simp [existingKidsOf, foldl_setKid_apply, emptyKidMap]

theorem appendNewKeys_eq (ex : String → Bool) (merged newKeys : List JWK) :
    appendNewKeys ex merged newKeys = merged ++ newKeys.filter (fun k => !ex k.Kid) := by
  induction newKeys generalizing merged with
  | nil => simp [appendNewKeys]
  | cons k ks ih =>
    have ih2 := ih (if !ex k.Kid then merged ++ [k] else merged)
    simp only [appendNewKeys, List.foldl_cons] at ih2 ⊢
    rw [ih2]
    by_cases h : ex k.Kid <;> simp [h, List.filter_cons]

/-- On a non-empty old key set and a non-empty new one the code computes `mergeSpec`. -/
theorem MergeJWKS_cons (o n : JWKS) (ho : o.Keys ≠ []) (hn : n.Keys ≠ []) :
    MergeJWKS (some o) (some n) = .ok ⟨mergeSpec o.Keys n.Keys⟩ := by
  have h1 : ¬ n.Keys.length = 0 := by simpa using hn
  have h2 : ¬ o.Keys.length = 0 := by simpa using ho
  simp only [MergeJWKS, h1, h2, if_false, appendNewKeys_eq, mergeSpec, List.nil_append]
  congr 3
  apply List.filter_congr
  intro k _
  simp [existingKidsOf_apply]

/-- With a nil or empty old key set the code returns the new key set. -/
theorem MergeJWKS_old_empty (old : Option JWKS) (n : JWKS) (hn : n.Keys ≠ [])
    (ho : old = none ∨ ∃ o, old = some o ∧ o.Keys = []) :
    MergeJWKS old (some n) = .ok n := by
  have h1 : ¬ n.Keys.length = 0 := by simpa using hn
  rcases ho with rfl | ⟨o, rfl, ho⟩
  · simp [MergeJWKS, h1]
  · simp [MergeJWKS, h1, ho]

/-- For every input with a non-empty new key set the result keys are the old keys (none for a
nil old set) followed by the filtered new keys. -/
theorem MergeJWKS_keys (old : Option JWKS) (n : JWKS) (hn : n.Keys ≠ []) :
    ∃ r, MergeJWKS old (some n) = .ok r ∧
      r.Keys = mergeSpec (keysOrNil old) n.Keys := by
  cases old with
  | none =>
    exact ⟨n, MergeJWKS_old_empty none n hn (Or.inl rfl), by simp [mergeSpec, kidsOf, keysOrNil]⟩
  | some o =>
    by_cases ho : o.Keys = []
    · exact ⟨n, MergeJWKS_old_empty _ n hn (Or.inr ⟨o, rfl, ho⟩), by simp [mergeSpec, kidsOf, keysOrNil, ho]⟩
    · exact ⟨_, MergeJWKS_cons o n ho hn, rfl⟩

/-! ## Claims C1, C2 -/

/-- C1: for every old key set and every new key set with at least one key, `MergeJWKS`
succeeds; it returns the new set itself when the old set is nil or has no keys, and otherwise
the old keys in order followed by exactly the new keys, in order, whose kid no old key has.
In particular merging kids 1, 2 with kids 2, 3 gives kids 1, 2, 3. -/
theorem C1_MergeJWKS_spec (old : Option JWKS) (new : JWKS) (hnew : new.Keys ≠ []) :
    (old = none → MergeJWKS old (some new) = .ok new) ∧
    (∀ o, old = some o → o.Keys = [] → MergeJWKS old (some new) = .ok new) ∧
    (∀ o, old = some o → o.Keys ≠ [] →
      MergeJWKS old (some new) =
        .ok ⟨o.Keys ++ new.Keys.filter (fun k => decide (∀ j ∈ o.Keys, j.Kid ≠ k.Kid))⟩) ∧
    (MergeJWKS (some ⟨[kidOnly "1", kidOnly "2"]⟩) (some ⟨[kidOnly "2", kidOnly "3"]⟩)).map
        (fun r => kidsOf r.Keys) = .ok ["1", "2", "3"] := by
  refine ⟨?_, ?_, ?_, ?_⟩
  · intro h
    exact MergeJWKS_old_empty old new hnew (Or.inl h)
  · intro o h ho
    exact MergeJWKS_old_empty old new hnew (Or.inr ⟨o, h, ho⟩)
  · intro o h ho
    subst h
    rw [MergeJWKS_cons o new ho hnew, mergeSpec]
    congr 3
    apply List.filter_congr
    intro k _
    simp only [kidsOf, List.mem_map, not_exists, not_and, decide_eq_decide]
  · decide

/-- Witness for C1: old kids 1, 2 and new kids 2, 3. -/
theorem C1_MergeJWKS_spec_witness :
    MergeJWKS (some ⟨[kidOnly "1", kidOnly "2"]⟩) (some ⟨[kidOnly "2", kidOnly "3"]⟩) =
      .ok ⟨[kidOnly "1", kidOnly "2", kidOnly "3"]⟩ := by
  have h := (C1_MergeJWKS_spec (some ⟨[kidOnly "1", kidOnly "2"]⟩)
    ⟨[kidOnly "2", kidOnly "3"]⟩ (by decide)).2.2.1 ⟨[kidOnly "1", kidOnly "2"]⟩ rfl (by decide)
  rw [h]
  decide

/-- C2 (counterexample): with old kids 1, 1 and new kid 2 the merge returns kids 1, 1, 2, and
with old kid 1 and new kids 2, 2 it returns kids 1, 2, 2: a kid is duplicated. -/
theorem C2_MergeJWKS_duplicates :
    MergeJWKS (some ⟨[kidOnly "1", kidOnly "1"]⟩) (some ⟨[kidOnly "2"]⟩) =
        .ok ⟨[kidOnly "1", kidOnly "1", kidOnly "2"]⟩ ∧
      ¬ ([kidOnly "1", kidOnly "1", kidOnly "2"].Pairwise (fun a b => a.Kid ≠ b.Kid)) ∧
    MergeJWKS (some ⟨[kidOnly "1"]⟩) (some ⟨[kidOnly "2", kidOnly "2"]⟩) =
        .ok ⟨[kidOnly "1", kidOnly "2", kidOnly "2"]⟩ ∧
      ¬ ([kidOnly "1", kidOnly "2", kidOnly "2"].Pairwise (fun a b => a.Kid ≠ b.Kid)) := by
  refine ⟨by decide, ?_, by decide, ?_⟩
  · simp [kidOnly]
  · simp [kidOnly]

theorem kidsOf_mergeSpec_nodup (oldKeys newKeys : List JWK) (ho : (kidsOf oldKeys).Nodup)
    (hn : (kidsOf newKeys).Nodup) : (kidsOf (mergeSpec oldKeys newKeys)).Nodup := by
  unfold mergeSpec kidsOf
  rw [List.map_append]
  refine List.Nodup.append ho ?_ ?_
  · exact List.Nodup.sublist (List.Sublist.map _ (List.filter_sublist _)) hn
  · intro s hs1 hs2
    rw [List.mem_map] at hs2
    obtain ⟨k, hk, rfl⟩ := hs2
    rw [List.mem_filter] at hk
    have := hk.2
    simp only [decide_eq_true_eq] at this
    exact this hs1

/-- C2 (amended): for every old key set whose kids are pairwise distinct and every new key set
with at least one key whose kids are pairwise distinct, `MergeJWKS` succeeds and no two
entries of the returned key sequence have the same kid. -/
theorem C2_MergeJWKS_no_duplicate_kid (old : Option JWKS) (new : JWKS) (hnew : new.Keys ≠ [])
    (hold : ∀ o, old = some o → o.Keys.Pairwise (fun a b => a.Kid ≠ b.Kid))
    (hdistinct : new.Keys.Pairwise (fun a b => a.Kid ≠ b.Kid)) :
    ∃ r, MergeJWKS old (some new) = .ok r ∧ r.Keys.Pairwise (fun a b => a.Kid ≠ b.Kid) := by
  obtain ⟨r, hr, hkeys⟩ := MergeJWKS_keys old new hnew
  refine ⟨r, hr, ?_⟩
  have hn : (kidsOf new.Keys).Nodup := by
    unfold kidsOf List.Nodup
    rw [List.pairwise_map]
    exact hdistinct
  have ho : (kidsOf (keysOrNil old)).Nodup := by
    cases old with
    | none => simp [kidsOf, keysOrNil]
    | some o =>
      have := hold o rfl
      unfold kidsOf List.Nodup keysOrNil
      rw [List.pairwise_map]
      exact this
  have h := kidsOf_mergeSpec_nodup _ _ ho hn
  rw [← hkeys] at h
  unfold kidsOf List.Nodup at h
  rw [List.pairwise_map] at h
  exact h

/-- Witness for C2 (amended): old kids 1, 2 and new kids 2, 3. -/
theorem C2_MergeJWKS_no_duplicate_kid_witness :
    ∃ r, MergeJWKS (some ⟨[kidOnly "1", kidOnly "2"]⟩) (some ⟨[kidOnly "2", kidOnly "3"]⟩) = .ok r ∧
      r.Keys.Pairwise (fun a b => a.Kid ≠ b.Kid) :=
  C2_MergeJWKS_no_duplicate_kid (some ⟨[kidOnly "1", kidOnly "2"]⟩)
    ⟨[kidOnly "2", kidOnly "3"]⟩ (by decide)
    (by intro o ho; cases ho; simp [kidOnly]) (by simp [kidOnly])

/-! ## Claim C3: the key id -/

theorem hexDigit_mem (n : Nat) (h : n < 16) : hexDigit n ∈ hextable := by
  interval_cases n <;> decide

theorem hexChars_length (l : List Byte) : (hexChars l).length = 2 * l.length := by
  induction l with
  | nil => rfl
  | cons b rest ih => simp [hexChars, hexPair, ih]; omega

theorem hexChars_all (l : List Byte) : ∀ c ∈ hexChars l, c ∈ hextable := by
  induction l with
  | nil => simp [hexChars]
  | cons b rest ih =>
    intro c hc
    simp only [hexChars, hexPair, List.cons_append, List.nil_append, List.mem_cons] at hc
    rcases hc with rfl | rfl | hc
    · exact hexDigit_mem _ (by have := b.isLt; omega)
    · exact hexDigit_mem _ (by omega)
    · exact ih c hc

theorem certFingerprint_length (H : Hashes) (cert : Certificate) :
    (certFingerprint H cert).length = 40 := by
  simp [certFingerprint, hexEncodeToString, String.length, hexChars_length, (H.sha1Sum cert.Raw).2]

/-- C3: for every certificate `GenerateKeyID` succeeds with the first 16 characters of the
lowercase hex encoding of the SHA-1 digest of the DER bytes; the kid has 16 characters, each
one of 0-9a-f; the error of a too short fingerprint is never returned; and the kid depends
on the DER bytes only.  (The hex encoder writes the bytes 222, 173 as dead.) -/
theorem C3_GenerateKeyID_spec (H : Hashes) (cert : Certificate) :
    ∃ kid, GenerateKeyID H (some cert) = .ok kid ∧
      kid = String.mk ((hexEncodeToString (H.sha1Sum cert.Raw).val).data.take 16) ∧
      kid.length = 16 ∧
      kid.data.all (fun c => "0123456789abcdef".data.contains c) = true ∧
      GenerateKeyID H (some cert) ≠ .error "fingerprint too short" ∧
      (∀ publicKey : AnyKey, GenerateKeyID H (some ⟨cert.Raw, publicKey⟩) = .ok kid) ∧
      hexEncodeToString [222, 173] = "dead" := by
  have hlen := certFingerprint_length H cert
  have hgen : ∀ pk : AnyKey, GenerateKeyID H (some ⟨cert.Raw, pk⟩) =
      .ok (String.mk ((hexEncodeToString (H.sha1Sum cert.Raw).val).data.take 16)) := by
    intro pk
    have hl := certFingerprint_length H ⟨cert.Raw, pk⟩
    simp only [GenerateKeyID, hl]
    simp [certFingerprint]
  have h0 : GenerateKeyID H (some cert) =
      .ok (String.mk ((hexEncodeToString (H.sha1Sum cert.Raw).val).data.take 16)) :=
    hgen cert.PublicKey
  refine ⟨_, h0, rfl, ?_, ?_, ?_, hgen, by decide⟩
  · have : (hexChars (H.sha1Sum cert.Raw).val).length = 40 := by
      rw [hexChars_length, (H.sha1Sum cert.Raw).2]
    simp [String.length, hexEncodeToString, this]
  · rw [List.all_eq_true]
    intro c hc
    have hc2 : c ∈ hexChars (H.sha1Sum cert.Raw).val := List.mem_of_mem_take hc
    have := hexChars_all _ c hc2
    simpa [hextable] using this
  · rw [h0]
    intro h
    cases h

/-! ## Claim C4: round trip of the RSA parameters -/

theorem b64Index_b64Char (i : Nat) (h : i < 64) :
    b64Index RawURLEncoding (b64Char RawURLEncoding i) = some i := by
  interval_cases i <;> decide

theorem b64Char_not_newline (i : Nat) (h : i < 64) :
    ((b64Char RawURLEncoding i != '\r') && (b64Char RawURLEncoding i != '\n')) = true := by
  interval_cases i <;> decide

theorem sextets_lt (bs : List Byte) : ∀ s ∈ sextets bs, s < 64 := by
  induction bs using sextets.induct with
  | case1 => simp [sextets]
  | case2 a =>
    intro s hs
    have := a.isLt
    simp only [sextets, List.mem_cons, List.mem_singleton, List.not_mem_nil, or_false] at hs
    rcases hs with rfl | rfl <;> omega
  | case3 a b =>
    intro s hs
    have := a.isLt
    have := b.isLt
    simp only [sextets, List.mem_cons, List.mem_singleton, List.not_mem_nil, or_false] at hs
    rcases hs with rfl | rfl | rfl <;> omega
  | case4 a b c rest ih =>
    intro s hs
    have := a.isLt
    have := b.isLt
    have := c.isLt
    simp only [sextets, List.cons_append, List.nil_append, List.mem_cons] at hs
    rcases hs with rfl | rfl | rfl | rfl | hs
    · omega
    · omega
    · omega
    · omega
    · exact ih s hs

theorem b64Indices_map (l : List Nat) (h : ∀ s ∈ l, s < 64) :
    b64Indices RawURLEncoding (l.map (b64Char RawURLEncoding)) = some l := by
  induction l with
  | nil => rfl
  | cons s rest ih =>
    have h1 := b64Index_b64Char s (h s (List.mem_cons_self _ _))
    have h2 := ih (fun t ht => h t (List.mem_cons_of_mem _ ht))
    simp only [List.map_cons, b64Indices, h1, h2]

theorem filter_newline_map (l : List Nat) (h : ∀ s ∈ l, s < 64) :
    (l.map (b64Char RawURLEncoding)).filter (fun c => c != '\r' && c != '\n') =
      l.map (b64Char RawURLEncoding) := by
  rw [List.filter_eq_self]
  intro c hc
  rw [List.mem_map] at hc
  obtain ⟨s, hs, rfl⟩ := hc
  exact b64Char_not_newline s (h s hs)

theorem toByte_val (b : Byte) : toByte b.val = b := by
  apply Fin.ext
  simp only [toByte]
  exact Nat.mod_eq_of_lt b.isLt

theorem unsextets_sextets (bs : List Byte) : unsextets (sextets bs) = some bs := by
  induction bs using sextets.induct with
  | case1 => rfl
  | case2 a =>
    have := a.isLt
    simp only [sextets, unsextets, Option.some.injEq, List.cons.injEq, and_true]
    apply Fin.ext
    simp only [toByte]
    omega
  | case3 a b =>
    have := a.isLt
    have := b.isLt
    simp only [sextets, unsextets, Option.some.injEq, List.cons.injEq, and_true]
    constructor <;> (apply Fin.ext; simp only [toByte]; omega)
  | case4 a b c rest ih =>
    have := a.isLt
    have := b.isLt
    have := c.isLt
    simp only [sextets, List.cons_append, List.nil_append, unsextets, List.append_eq, ih,
      Option.some.injEq, List.cons.injEq, and_true]
    refine ⟨?_, ?_, ?_⟩ <;> (apply Fin.ext; simp only [toByte]; omega)

/-- Decoding with `RawURLEncoding` undoes encoding with it. -/
theorem DecodeStringRaw_EncodeToString (bs : List Byte) :
    DecodeStringRaw RawURLEncoding (EncodeToString RawURLEncoding bs) = .ok bs := by
  have hpad : b64Padding RawURLEncoding bs.length = [] := rfl
  simp only [DecodeStringRaw, EncodeToString, hpad, List.append_nil,
    filter_newline_map _ (sextets_lt bs), b64Indices_map _ (sextets_lt bs), unsextets_sextets]

theorem SetBytes_append (l : List Byte) (b : Byte) :
    SetBytes (l ++ [b]) = SetBytes l * 256 + b.val := by
  simp [SetBytes, List.foldl_append]

theorem SetBytes_reverse_bytesLE (fuel n : Nat) (h : n ≤ fuel) :
    SetBytes (bytesLE fuel n).reverse = n := by
  induction fuel generalizing n with
  | zero =>
    have : n = 0 := by omega
    subst this
    rfl
  | succ fuel ih =>
    by_cases hn : n = 0
    · subst hn
      simp [bytesLE, SetBytes]
    · have hle : n / 256 ≤ fuel := by
        have : n / 256 < n := Nat.div_lt_self (by omega) (by decide)
        omega
      simp only [bytesLE, hn, if_false, List.reverse_cons, SetBytes_append, ih _ hle, toByte]
      omega

/-- Reading the bytes of a number back gives the number. -/
theorem SetBytes_bigBytes (n : Nat) : SetBytes (bigBytes n) = n :=
  SetBytes_reverse_bytesLE n n (Nat.le_refl n)

theorem foldl_SetBytes_ge (l : List Byte) (acc : Nat) :
    acc ≤ l.foldl (fun acc b => acc * 256 + b.val) acc := by
  induction l generalizing acc with
  | nil => simp
  | cons b rest ih =>
    have := ih (acc * 256 + b.val)
    simp only [List.foldl_cons]
    omega

theorem expIntStep_eq (x : Nat) (b : Byte) (h : x * 256 + b.val < 2 ^ 64) :
    expIntStep x b = x * 256 + b.val := by
  have hb : b.val < 2 ^ 8 := b.isLt
  have h1 : x <<< 8 = 2 ^ 8 * x := by rw [Nat.shiftLeft_eq, Nat.mul_comm]
  have h2 : (2 ^ 8 * x) % 2 ^ 64 = 2 ^ 8 * x := Nat.mod_eq_of_lt (by omega)
  unfold expIntStep
  rw [h1, h2, ← Nat.mul_add_lt_is_or hb]
  omega

theorem foldl_expIntStep_eq (l : List Byte) (acc : Nat)
    (h : l.foldl (fun acc b => acc * 256 + b.val) acc < 2 ^ 64) :
    l.foldl expIntStep acc = l.foldl (fun acc b => acc * 256 + b.val) acc := by
  induction l generalizing acc with
  | nil => rfl
  | cons b rest ih =>
    simp only [List.foldl_cons] at h ⊢
    have hge := foldl_SetBytes_ge rest (acc * 256 + b.val)
    rw [expIntStep_eq acc b (by omega)]
    exact ih _ h

/-- The exponent loop recovers every exponent below 2^63 from its bytes. -/
theorem expIntOfBytes_bigBytes (e : Nat) (h : e < 2 ^ 63) :
    expIntOfBytes (bigBytes e) = Int.ofNat e := by
  have hs := SetBytes_bigBytes e
  unfold SetBytes at hs
  have hf := foldl_expIntStep_eq (bigBytes e) 0 (by rw [hs]; omega)
  unfold expIntOfBytes int64OfBits
  rw [hf, hs, if_pos h]

/-- C4: for every RSA public key with modulus N > 0 and exponent E > 0 (a 64-bit `int`),
`FormatRSAKey` succeeds and decoding the n and e members of its JWK as the verifier does
(unpadded base64url to bytes, bytes as an unsigned big-endian integer) gives N and E again;
`extractPublicKeyFromJWKS` on a document whose first key is that JWK returns the key and
the kid that was written. -/
theorem C4_rsa_parameters_round_trip (H : Hashes) (key : RSAPublicKey) (kid : String)
    (cert : Option Certificate) (hN : 0 < key.N) (hE : 0 < key.E) (hE64 : key.E < 2 ^ 63) :
    ∃ jwk, FormatRSAKey H (some key) kid cert = .ok jwk ∧
      decodeBase64URL jwk.N = .ok key.N ∧
      (DecodeStringRaw RawURLEncoding jwk.E).map expIntOfBytes = .ok key.E ∧
      ∀ rest : List VerifierJWK,
        extractPublicKeyFromJWKS (.ok ⟨jwk.served :: rest⟩) = .ok (key, kid) := by
  obtain ⟨N, E⟩ := key
  simp only at hN hE hE64
  have hNn : Int.ofNat N.natAbs = N := by
    simp only [Int.ofNat_eq_coe, Int.natCast_natAbs]
    exact abs_of_pos hN
  have hEn : Int.ofNat E.natAbs = E := by
    simp only [Int.ofNat_eq_coe, Int.natCast_natAbs]
    exact abs_of_pos hE
  have hE63 : E.natAbs < 2 ^ 63 := by omega
  have hdecN : decodeBase64URL (EncodeToString RawURLEncoding (bigBytes N.natAbs)) = .ok N := by
    simp only [decodeBase64URL, DecodeStringRaw_EncodeToString, SetBytes_bigBytes, hNn]
  have hdecE : (DecodeStringRaw RawURLEncoding
      (EncodeToString RawURLEncoding (bigBytes E.natAbs))).map expIntOfBytes = .ok E := by
    simp only [DecodeStringRaw_EncodeToString, Except.map, expIntOfBytes_bigBytes _ hE63, hEn]
  cases cert with
  | none =>
    refine ⟨_, rfl, hdecN, hdecE, ?_⟩
    intro rest
    simp only [extractPublicKeyFromJWKS, JWK.served, ne_eq, not_true_eq_false, if_false, hdecN,
      DecodeStringRaw_EncodeToString, expIntOfBytes_bigBytes _ hE63, hEn]
  | some c =>
    refine ⟨_, rfl, hdecN, hdecE, ?_⟩
    intro rest
    simp only [extractPublicKeyFromJWKS, JWK.served, ne_eq, not_true_eq_false, if_false, hdecN,
      DecodeStringRaw_EncodeToString, expIntOfBytes_bigBytes _ hE63, hEn]

/-- Witness for C4: the key N = 3233, E = 65537 without a certificate. -/
theorem C4_rsa_parameters_round_trip_witness :
    ∃ jwk, FormatRSAKey constHashes (some ⟨3233, 65537⟩) "kid" none = .ok jwk ∧
      decodeBase64URL jwk.N = .ok 3233 ∧
      (DecodeStringRaw RawURLEncoding jwk.E).map expIntOfBytes = .ok 65537 ∧
      ∀ rest : List VerifierJWK,
        extractPublicKeyFromJWKS (.ok ⟨jwk.served :: rest⟩) = .ok (⟨3233, 65537⟩, "kid") :=
  C4_rsa_parameters_round_trip constHashes ⟨3233, 65537⟩ "kid" none (by decide) (by decide)
    (by decide)

/-! ## Claim C5: the JWK written by `FormatJWK` -/

theorem bytesLE_zero (fuel : Nat) : bytesLE fuel 0 = [] := by
  cases fuel <;> simp [bytesLE]

theorem bytesLE_eq_nil (fuel n : Nat) (h : n ≤ fuel) (hnil : bytesLE fuel n = []) : n = 0 := by
  cases fuel with
  | zero => omega
  | succ fuel =>
    by_cases hn : n = 0
    · exact hn
    · simp [bytesLE, hn] at hnil

theorem bytesLE_getLast (fuel n : Nat) (h : n ≤ fuel) :
    (bytesLE fuel n).getLast? ≠ some 0 := by
  induction fuel generalizing n with
  | zero => simp [bytesLE]
  | succ fuel ih =>
    by_cases hn : n = 0
    · simp [bytesLE, hn]
    · have hle : n / 256 ≤ fuel := by
        have : n / 256 < n := Nat.div_lt_self (by omega) (by decide)
        omega
      simp only [bytesLE, hn, if_false]
      cases htail : bytesLE fuel (n / 256) with
      | nil =>
        have hq := bytesLE_eq_nil fuel (n / 256) hle htail
        simp only [List.getLast?_singleton, ne_eq, Option.some.injEq]
        intro h0
        have hv := congrArg Fin.val h0
        simp only [toByte, Fin.val_zero] at hv
        omega
      | cons b rest =>
        rw [List.getLast?_cons_cons, ← htail]
        exact ih _ hle

/-- The bytes of a number have no leading zero byte. -/
theorem bigBytes_head (n : Nat) : (bigBytes n).head? ≠ some 0 := by
  unfold bigBytes
  rw [List.head?_reverse]
  exact bytesLE_getLast n n (Nat.le_refl n)

/-- C5: `FormatJWK` fails exactly when the key is not a non-nil RSA public key; for every RSA
public key it returns the JWK with kty RSA, use sig, key_ops verify, alg RS512, the given
kid, n and e the unpadded base64url of the unsigned big-endian bytes of modulus and exponent,
and, with a certificate, x5c the standard base64 of the DER, x5t and x5t#S256 the unpadded
base64url of its SHA-1 and SHA-256; without a certificate these three stay empty.  The
exponent 65537 is written as AQAB, and the standard base64 of the bytes 77, 97 is TWE=. -/
theorem C5_FormatJWK_spec (H : Hashes) (key : AnyKey) (kid : String)
    (cert : Option Certificate) :
    ((∃ e, FormatJWK H key kid cert = .error e) ↔ ¬ ∃ k, key = AnyKey.rsa (some k)) ∧
    (∀ k : RSAPublicKey, FormatJWK H (AnyKey.rsa (some k)) kid cert = .ok
      { Kty := "RSA", Use := "sig", KeyOps := ["verify"], Alg := "RS512", Kid := kid,
        N := EncodeToString RawURLEncoding (bigBytes k.N.natAbs),
        E := EncodeToString RawURLEncoding (bigBytes k.E.natAbs),
        X5c := (match cert with
          | some c => [EncodeToString StdEncoding c.Raw]
          | none => []),
        X5t := (match cert with
          | some c => EncodeToString RawURLEncoding (H.sha1Sum c.Raw).val
          | none => ""),
        X5tS256 := (match cert with
          | some c => EncodeToString RawURLEncoding (H.sha256Sum c.Raw).val
          | none => "") }) ∧
    (∀ n : Nat, SetBytes (bigBytes n) = n ∧ (bigBytes n).head? ≠ some 0) ∧
    (FormatJWK H (AnyKey.rsa (some ⟨3233, 65537⟩)) kid none).map (fun j => (j.N, j.E))
      = .ok ("DKE", "AQAB") ∧
    EncodeToString StdEncoding [77, 97] = "TWE=" := by
  refine ⟨?_, ?_, ?_, ?_, by decide⟩
  · cases key with
    | nilValue => simp [FormatJWK]
    | other t => simp [FormatJWK]
    | rsa k =>
      cases k with
      | none => simp [FormatJWK, FormatRSAKey]
      | some k => cases cert <;> simp [FormatJWK, FormatRSAKey]
  · intro k
    cases cert <;> simp [FormatJWK, FormatRSAKey, calculateX5t, calculateX5tS256]
  · intro n
    exact ⟨SetBytes_bigBytes n, bigBytes_head n⟩
  · have hn : EncodeToString RawURLEncoding (bigBytes (3233 : Int).natAbs) = "DKE" := by decide
    have he : EncodeToString RawURLEncoding (bigBytes (65537 : Int).natAbs) = "AQAB" := by decide
    simp only [FormatJWK, FormatRSAKey, hn, he, Except.map]

/-- The key id exists for every certificate and is the kid of C3. -/
theorem GenerateKeyID_ok (H : Hashes) (cert : Certificate) :
    ∃ kid, GenerateKeyID H (some cert) = .ok kid ∧ kid.length = 16 := by
  have hl := certFingerprint_length H cert
  refine ⟨String.mk ((certFingerprint H cert).data.take 16), ?_, ?_⟩
  · simp [GenerateKeyID, hl]
  · have : (certFingerprint H cert).data.length = 40 := hl
    simp [String.length, this]

/-- On a non-nil RSA key `FormatJWK` succeeds and keeps the kid. -/
theorem FormatJWK_rsa_ok (H : Hashes) (k : RSAPublicKey) (kid : String)
    (cert : Option Certificate) :
    ∃ jwk, FormatJWK H (AnyKey.rsa (some k)) kid cert = .ok jwk ∧ jwk.Kid = kid := by
  cases cert <;> exact ⟨_, rfl, rfl⟩

/-! ## Claim C6: generation from a secret yields exactly one key -/

theorem generateFromCert_ok (H : Hashes) (c : Certificate) (j : JWKS)
    (h : generateFromCert H (some c) = .ok j) : j.Keys.length = 1 := by
  unfold generateFromCert at h
  simp only [ExtractPublicKey] at h
  cases hk : GenerateKeyID H (some c) with
  | error e => simp [hk] at h
  | ok kid =>
    simp only [hk] at h
    cases hf : FormatJWK H c.PublicKey kid (some c) with
    | error e => simp [hf] at h
    | ok jwk =>
      simp only [hf, Except.ok.injEq] at h
      rw [← h]
      rfl

theorem GenerateFromSecret_ok (H : Hashes) (D : CertDecoders) (s : Option Secret) (j : JWKS)
    (h : GenerateFromSecret H D s = .ok j) : j.Keys.length = 1 := by
  unfold GenerateFromSecret at h
  cases s with
  | none => simp at h
  | some s =>
    simp only at h
    cases hp : ParseCertificateFromSecret D s.Data with
    | error e => simp [hp] at h
    | ok c =>
      simp only [hp] at h
      exact generateFromCert_ok H c j h

/-- C6: for every secret whose tls.crt parses to a certificate with an RSA public key,
`GenerateFromSecret` succeeds with exactly one key, whose kid is `GenerateKeyID` of that
certificate, and phase 2 returns that key set.  For every secret at all, a key set returned
by `GenerateFromSecret` has exactly one key, so phase 2 never takes its no-keys branch, and
the read of `Keys[0]` at the end of `Execute` is in bounds on whatever phase 2 returns. -/
theorem C6_GenerateFromSecret_one_key (H : Hashes) (D : CertDecoders) (secret : Secret)
    (cert : Certificate) (k : RSAPublicKey)
    (hparse : ParseCertificateFromSecret D secret.Data = .ok cert)
    (hrsa : cert.PublicKey = AnyKey.rsa (some k)) :
    (∃ jwk kid, GenerateFromSecret H D (some secret) = .ok ⟨[jwk]⟩ ∧
      GenerateKeyID H (some cert) = .ok kid ∧ jwk.Kid = kid ∧
      phase2GenerateJWKS H D (some secret) = .ok ⟨[jwk]⟩ ∧
      executeLastKeyID ⟨[jwk]⟩ = some kid) ∧
    (∀ (s : Option Secret) (j : JWKS), GenerateFromSecret H D s = .ok j → j.Keys.length = 1) ∧
    (∀ (s : Option Secret), phase2GenerateJWKS H D s ≠ .error "generated JWKS has no keys") ∧
    (∀ (s : Option Secret) (j : JWKS), phase2GenerateJWKS H D s = .ok j →
      ∃ key, indexKeys j.Keys 0 = some key ∧ executeLastKeyID j = some key.Kid) := by
  refine ⟨?_, fun s j h => GenerateFromSecret_ok H D s j h, ?_, ?_⟩
  · obtain ⟨kid, hkid, -⟩ := GenerateKeyID_ok H cert
    have hfmt := (FormatJWK_rsa_ok H k kid (some cert))
    obtain ⟨jwk, hjwk, hjk⟩ := hfmt
    have hgen : GenerateFromSecret H D (some secret) = .ok ⟨[jwk]⟩ := by
      simp only [GenerateFromSecret, hparse, generateFromCert, ExtractPublicKey, hkid, hrsa, hjwk]
    refine ⟨jwk, kid, hgen, hkid, hjk, ?_, ?_⟩
    · simp [phase2GenerateJWKS, hgen]
    · simp [executeLastKeyID, indexKeys, hjk]
  · intro s
    unfold phase2GenerateJWKS
    cases hg : GenerateFromSecret H D s with
    | error e =>
      simp only [ne_eq, Except.error.injEq]
      intro hcontra
      have := congrArg String.data hcontra
      simp only [String.data_append] at this
      have h2 := congrArg List.head? this
      simp at h2
    | ok j =>
      have hlen := GenerateFromSecret_ok H D s j hg
      simp [hlen]
  · intro s j h
    unfold phase2GenerateJWKS at h
    cases hg : GenerateFromSecret H D s with
    | error e => simp [hg] at h
    | ok j2 =>
      have hlen := GenerateFromSecret_ok H D s j2 hg
      simp only [hg, hlen, Nat.succ_ne_zero, if_false, Except.ok.injEq] at h
      subst h
      obtain ⟨keys⟩ := j2
      simp only at hlen
      match keys, hlen with
      | [key], _ => exact ⟨key, rfl, rfl⟩

/-- Witness for C6: a secret whose tls.crt is read by the stand-in decoders. -/
theorem C6_GenerateFromSecret_one_key_witness :
    ∃ jwk kid, GenerateFromSecret constHashes plainDecoders (some ⟨[("tls.crt", [1, 2, 3])]⟩)
        = .ok ⟨[jwk]⟩ ∧
      GenerateKeyID constHashes (some ⟨[1, 2, 3], AnyKey.rsa (some ⟨3233, 17⟩)⟩) = .ok kid ∧
      jwk.Kid = kid ∧
      phase2GenerateJWKS constHashes plainDecoders (some ⟨[("tls.crt", [1, 2, 3])]⟩)
        = .ok ⟨[jwk]⟩ ∧
      executeLastKeyID ⟨[jwk]⟩ = some kid :=
  (C6_GenerateFromSecret_one_key constHashes plainDecoders ⟨[("tls.crt", [1, 2, 3])]⟩
    ⟨[1, 2, 3], AnyKey.rsa (some ⟨3233, 17⟩)⟩ ⟨3233, 17⟩ (by decide) rfl).1

/-! ## Claims C7, C8: the requeue delay -/

theorem getReconcileInterval_eq (cfg : Config) (parseDuration : DurationParser)
    (jwks : v1alpha1.JWKS) :
    getReconcileInterval cfg parseDuration jwks =
      effectiveInterval parseDuration jwks.Spec.ReconcileInterval cfg.ReconcileInterval := by
  unfold getReconcileInterval effectiveInterval
  by_cases h : jwks.Spec.ReconcileInterval = "" <;> simp [h]

theorem getVerificationInterval_eq (cfg : Config) (parseDuration : DurationParser)
    (jwks : v1alpha1.JWKS) :
    getVerificationInterval cfg parseDuration jwks =
      effectiveInterval parseDuration jwks.Spec.JWKSVerificationInterval
        cfg.JWKSVerificationInterval := by
  unfold getVerificationInterval effectiveInterval
  by_cases h : jwks.Spec.JWKSVerificationInterval = "" <;> simp [h]

theorem getJWKSUpdateInterval_eq (cfg : Config) (parseDuration : DurationParser)
    (jwks : v1alpha1.JWKS) :
    getJWKSUpdateInterval cfg parseDuration jwks =
      effectiveInterval parseDuration jwks.Spec.JWKSUpdateInterval cfg.JWKSUpdateInterval := by
  unfold getJWKSUpdateInterval effectiveInterval
  by_cases h : jwks.Spec.JWKSUpdateInterval = "" <;> simp [h]

theorem Atoi_empty : Atoi "" = none := by decide

theorem readFastCount_eq (jwks : v1alpha1.JWKS) : readFastCount jwks = persistedCounter jwks := by
  unfold readFastCount persistedCounter
  cases jwks.Annotations with
  | none => rfl
  | some m =>
    simp only [GoMap.get]
    cases hl : List.lookup fastReconcileKey m with
    | none => simp
    | some s =>
      by_cases hs : s = ""
      · subst hs
        simp [Atoi_empty]
      · simp only [Option.getD_some, ne_eq, hs, not_false_eq_true, if_true]
        cases Atoi s <;> rfl

theorem reset_eq (now : Nanos) (jwks : v1alpha1.JWKS) :
    (readIsRestart now jwks && decide (readFastCount jwks ≥ 2)) = restartInferred now jwks := by
  unfold readIsRestart restartInferred
  rw [readFastCount_eq, Bool.and_comm]
  cases jwks.Status.JWKSVerified with
  | none => rfl
  | some t => simp [Since, restartThreshold]

/-- C7: for every configuration, target and current time, the delay returned by
`getRequeueInterval` is the reference delay (10s when the counter is 0 or a restart is
inferred, 30s when the counter is 1, the smaller effective interval otherwise) and the counter
values it asks to persist are the reference ones (1 from counter 0, 2 from counter 1, 0 and
then 1 on a restart, none otherwise). -/
theorem C7_getRequeueInterval_spec (cfg : Config) (parseDuration : DurationParser)
    (now : Nanos) (jwks : v1alpha1.JWKS) :
    getRequeueInterval cfg parseDuration now jwks =
      (requeueDelaySpec cfg parseDuration now jwks, counterRequestsSpec now jwks) := by
  unfold getRequeueInterval requeueDelaySpec counterRequestsSpec steadyInterval
  simp only [reset_eq, getReconcileInterval_eq, getVerificationInterval_eq]
  rw [readFastCount_eq]
  have hres : restartInferred now jwks = true → persistedCounter jwks ≥ 2 := by
    intro h
    unfold restartInferred at h
    simp only [Bool.and_eq_true, decide_eq_true_eq] at h
    exact h.1
  cases hr : restartInferred now jwks with
  | true =>
    have h2 := hres hr
    have h0 : persistedCounter jwks ≠ 0 := by omega
    have h1 : persistedCounter jwks ≠ 1 := by omega
    simp [h0, h1, firstFastInterval]
  | false =>
    by_cases h0 : persistedCounter jwks = 0
    · simp [h0, firstFastInterval]
    · by_cases h1 : persistedCounter jwks = 1
      · simp [h1, secondFastInterval]
      · simp only [Bool.false_eq_true, if_false, h0, h1, or_self, decide_False, List.nil_append]
        rw [min_def]
        by_cases hlt : effectiveInterval parseDuration jwks.Spec.JWKSVerificationInterval
            cfg.JWKSVerificationInterval <
            effectiveInterval parseDuration jwks.Spec.ReconcileInterval cfg.ReconcileInterval
        · have : ¬ (effectiveInterval parseDuration jwks.Spec.ReconcileInterval
              cfg.ReconcileInterval ≤ effectiveInterval parseDuration
              jwks.Spec.JWKSVerificationInterval cfg.JWKSVerificationInterval) :=
            not_le.mpr hlt
          simp [hlt, this]
        · have : effectiveInterval parseDuration jwks.Spec.ReconcileInterval
              cfg.ReconcileInterval ≤ effectiveInterval parseDuration
              jwks.Spec.JWKSVerificationInterval cfg.JWKSVerificationInterval :=
            not_lt.mp hlt
          simp [hlt, this]

/-- With the persisted counter at 1 the delay is always the 30s fast interval and the counter
asked for is 2, whatever the time of the last verification. -/
theorem getRequeueInterval_counter_one (cfg : Config) (parseDuration : DurationParser)
    (now : Nanos) (jwks : v1alpha1.JWKS) (h : persistedCounter jwks = 1) :
    getRequeueInterval cfg parseDuration now jwks = (30 * Second, [2]) := by
  have hr : restartInferred now jwks = false := by
    unfold restartInferred
    rw [h]
    rfl
  unfold getRequeueInterval
  simp only [reset_eq, hr]
  rw [readFastCount_eq, h]
  simp [secondFastInterval]

/-- C8 (the code at the failing input): the target `stuckTarget` has counter 1 and was
verified one minute before the current time (less than 5 minutes); under the default
configuration the steady-state interval is one minute, yet `getRequeueInterval` returns the
30s fast interval (and asks for the counter 2). -/
theorem C8_getRequeueInterval_counter_one_recent :
    persistedCounter stuckTarget = 1 ∧
      stuckTarget.Status.JWKSVerified = some (99 * Minute) ∧
      Since (100 * Minute) (99 * Minute) < 5 * Minute ∧
      getRequeueInterval DefaultConfig (fun _ => none) (100 * Minute) stuckTarget
        = (30 * Second, [2]) ∧
      steadyInterval DefaultConfig (fun _ => none) stuckTarget = 1 * Minute ∧
      getVerificationInterval DefaultConfig (fun _ => none) stuckTarget = 1 * Minute := by
  decide

/-! ## Claims C9, C10: when a full pass is due -/

theorem readyObservedGeneration_eq (conds : List Condition) :
    readyObservedGeneration conds =
      (match conds.find? (fun c => c.Type_ == "Ready") with
       | some c => c.ObservedGeneration
       | none => 0) := by
  induction conds with
  | nil => rfl
  | cons c rest ih =>
    by_cases h : c.Type_ = "Ready"
    · simp [readyObservedGeneration, List.find?_cons, h]
    · simp [readyObservedGeneration, List.find?_cons, h, ih]

/-- C9: for every target all of whose derived artifacts exist in the store (the key-set
object and, when serving is configured, the serving-configuration object and the workload),
`shouldReconcile` returns true if and only if the generation differs from the observed
generation of the Ready condition (0 without one), or no last-update time is recorded, or the
time since the last update is at least the effective key-update interval. -/
theorem C9_shouldReconcile_iff (cfg : Config) (parseDuration : DurationParser)
    (client : Client) (now : Nanos) (jwks : v1alpha1.JWKS)
    (hkeyset : client Kind.ConfigMap jwks.Namespace jwks.Spec.ConfigMapName = GetOutcome.found)
    (hserving : jwks.Spec.NginxConfigMapName ≠ "" →
      client Kind.ConfigMap jwks.Namespace jwks.Spec.NginxConfigMapName = GetOutcome.found ∧
      client Kind.Deployment jwks.Namespace jwks.Name = GetOutcome.found) :
    shouldReconcile cfg parseDuration client now jwks = true ↔
      (jwks.Generation ≠ observedGenerationSpec jwks ∨
       jwks.Status.LastUpdateTime = none ∨
       ∃ t, jwks.Status.LastUpdateTime = some t ∧
         now - t ≥ effectiveInterval parseDuration jwks.Spec.JWKSUpdateInterval
           cfg.JWKSUpdateInterval) := by
  unfold shouldReconcile observedGenerationSpec
  rw [← readyObservedGeneration_eq, getJWKSUpdateInterval_eq]
  by_cases hg : jwks.Generation = readyObservedGeneration jwks.Status.Conditions
  · cases hl : jwks.Status.LastUpdateTime with
    | none => simp [hg]
    | some t =>
      by_cases hn : jwks.Spec.NginxConfigMapName = ""
      · simp [hg, hn, Since]
      · obtain ⟨h1, h2⟩ := hserving hn
        simp [hg, hn, h1, h2, hkeyset, Since]
  · simp [hg]

/-- Witness for C9: the serving target in a store where every object exists. -/
theorem C9_shouldReconcile_iff_witness :
    shouldReconcile DefaultConfig (fun _ => none) fullStore (100 * Minute) servingTarget = true ↔
      (servingTarget.Generation ≠ observedGenerationSpec servingTarget ∨
       servingTarget.Status.LastUpdateTime = none ∨
       ∃ t, servingTarget.Status.LastUpdateTime = some t ∧
         100 * Minute - t ≥ effectiveInterval (fun _ => none)
           servingTarget.Spec.JWKSUpdateInterval DefaultConfig.JWKSUpdateInterval) :=
  C9_shouldReconcile_iff DefaultConfig (fun _ => none) fullStore (100 * Minute) servingTarget
    rfl (fun _ => ⟨rfl, rfl⟩)

/-- C10 (counterexample): a target without serving whose key-set object does not exist (no
object exists in the store), with the generation observed and the last update one minute
old, is not due for a full pass. -/
theorem C10_missing_keyset_not_due :
    settledTarget.Spec.NginxConfigMapName = "" ∧
      emptyStore Kind.ConfigMap settledTarget.Namespace settledTarget.Spec.ConfigMapName
        = GetOutcome.notFound ∧
      shouldReconcile DefaultConfig (fun _ => none) emptyStore (100 * Minute) settledTarget
        = false := by
  decide

/-- C10 (amended): for every serving-enabled target whose key-set object, serving-configuration
object or serving workload does not exist, `shouldReconcile` returns true, regardless of
generation, last-update time and elapsed time; for a target without serving the result does
not depend on the store. -/
theorem C10_shouldReconcile_missing_artifact (cfg : Config) (parseDuration : DurationParser)
    (client : Client) (now : Nanos) (jwks : v1alpha1.JWKS) :
    (jwks.Spec.NginxConfigMapName ≠ "" →
      (client Kind.ConfigMap jwks.Namespace jwks.Spec.ConfigMapName = GetOutcome.notFound ∨
       client Kind.ConfigMap jwks.Namespace jwks.Spec.NginxConfigMapName = GetOutcome.notFound ∨
       client Kind.Deployment jwks.Namespace jwks.Name = GetOutcome.notFound) →
      shouldReconcile cfg parseDuration client now jwks = true) ∧
    (jwks.Spec.NginxConfigMapName = "" →
      ∀ other : Client, shouldReconcile cfg parseDuration client now jwks =
        shouldReconcile cfg parseDuration other now jwks) := by
  constructor
  · intro hs hmiss
    unfold shouldReconcile
    by_cases hg : jwks.Generation = readyObservedGeneration jwks.Status.Conditions
    · cases hl : jwks.Status.LastUpdateTime with
      | none => simp [hg]
      | some t =>
        simp only [hg, ne_eq, not_true_eq_false, if_false, hs, not_false_eq_true, if_true]
        rcases hmiss with h | h | h
        · simp [h]
        · simp [h]
        · simp [h]
    · simp [hg]
  · intro hs other
    unfold shouldReconcile
    simp [hs]

/-- Witness for C10 (amended): the serving target in a store where no object exists. -/
theorem C10_shouldReconcile_missing_artifact_witness :
    shouldReconcile DefaultConfig (fun _ => none) emptyStore (100 * Minute) servingTarget
      = true :=
  (C10_shouldReconcile_missing_artifact DefaultConfig (fun _ => none) emptyStore (100 * Minute)
    servingTarget).1 (by decide) (Or.inl rfl)

/-! ## Claim C11: when verification is due -/

theorem getJWKSVerificationInterval_eq (cfg : Config) (parseDuration : DurationParser)
    (jwks : v1alpha1.JWKS) :
    getJWKSVerificationInterval cfg parseDuration jwks =
      effectiveInterval parseDuration jwks.Spec.JWKSVerificationInterval
        cfg.JWKSVerificationInterval := by
  unfold getJWKSVerificationInterval effectiveInterval
  by_cases h : jwks.Spec.JWKSVerificationInterval = "" <;> simp [h]

/-- C11 (counterexample): the target `lateTarget` has counter 2 and was verified 40 minutes
before the current time, so a restart is inferred in the scheduler's sense; its
verification-interval override is one hour, and the Reconciler does not treat verification
as due. -/
theorem C11_restart_not_due :
    persistedCounter lateTarget = 2 ∧
      restartInferred (100 * Minute) lateTarget = true ∧
      effectiveInterval hourParser lateTarget.Spec.JWKSVerificationInterval
        DefaultConfig.JWKSVerificationInterval = 60 * Minute ∧
      computeForceVerification lateTarget = false ∧
      reconcileNeedsVerification DefaultConfig hourParser (100 * Minute) lateTarget = false := by
  decide

/-- C11 (amended): the Reconciler treats verification as due exactly when the target was
never verified, or the force flag is set (the counter entry is absent, empty or 0), or the
time since last-verified is at least the effective verification interval; hence a restart
inferred in the scheduler's sense makes verification due whenever the effective verification
interval is at most 30 minutes. -/
theorem C11_verification_due (cfg : Config) (parseDuration : DurationParser) (now : Nanos)
    (jwks : v1alpha1.JWKS) :
    (reconcileNeedsVerification cfg parseDuration now jwks = true ↔
      (jwks.Status.JWKSVerified = none ∨
       computeForceVerification jwks = true ∨
       ∃ t, jwks.Status.JWKSVerified = some t ∧
         now - t ≥ effectiveInterval parseDuration jwks.Spec.JWKSVerificationInterval
           cfg.JWKSVerificationInterval)) ∧
    (computeForceVerification jwks = true ↔
      (jwks.Annotations = none ∨
       ∃ m, jwks.Annotations = some m ∧
         (m.lookup fastReconcileKey = none ∨ m.lookup fastReconcileKey = some "" ∨
          m.lookup fastReconcileKey = some "0"))) ∧
    (restartInferred now jwks = true →
      effectiveInterval parseDuration jwks.Spec.JWKSVerificationInterval
        cfg.JWKSVerificationInterval ≤ 30 * Minute →
      reconcileNeedsVerification cfg parseDuration now jwks = true) := by
  have hiff : reconcileNeedsVerification cfg parseDuration now jwks = true ↔
      (jwks.Status.JWKSVerified = none ∨
       computeForceVerification jwks = true ∨
       ∃ t, jwks.Status.JWKSVerified = some t ∧
         now - t ≥ effectiveInterval parseDuration jwks.Spec.JWKSVerificationInterval
           cfg.JWKSVerificationInterval) := by
    unfold reconcileNeedsVerification shouldVerifyJWKS
    rw [getJWKSVerificationInterval_eq]
    cases hv : jwks.Status.JWKSVerified with
    | none => simp
    | some t =>
      cases hf : computeForceVerification jwks <;> simp [Since]
  refine ⟨hiff, ?_, ?_⟩
  · unfold computeForceVerification
    cases ha : jwks.Annotations with
    | none => simp
    | some m =>
      simp only [GoMap.get, reduceCtorEq, Option.some.injEq, exists_eq_left', false_or]
      have key : ∀ x : Option String,
          ((if x.getD "" = "" ∨ x.getD "" = "0" then true else false) = true ↔
            x = none ∨ x = some "" ∨ x = some "0") := by
        intro x
        cases x <;> simp
      exact key _
  · intro hr hle
    rw [hiff]
    unfold restartInferred at hr
    simp only [Bool.and_eq_true, decide_eq_true_eq] at hr
    cases hv : jwks.Status.JWKSVerified with
    | none => exact Or.inl rfl
    | some t =>
      right
      right
      refine ⟨t, rfl, ?_⟩
      have h2 := hr.2
      rw [hv] at h2
      simp only [decide_eq_true_eq] at h2
      exact le_of_lt (lt_of_le_of_lt hle h2)

/-- Witness for C11 (amended): the target with counter 2 verified 40 minutes ago, under the
default configuration (verification interval one minute) and without override. -/
theorem C11_verification_due_witness :
    reconcileNeedsVerification DefaultConfig (fun _ => none) (100 * Minute)
      { lateTarget with Spec := (blankTarget "t").Spec } = true :=
  (C11_verification_due DefaultConfig (fun _ => none) (100 * Minute)
    { lateTarget with Spec := (blankTarget "t").Spec }).2.2 (by decide) (by decide)

/-! ## Claim C14: unknown strategy, nil key set -/

/-- C14 (counterexample): for the empty strategy string `Apply` fails with an error made by
`fmt.Errorf`; it is not a typed error, so its kind is not InvalidConfiguration (the kind of
the error that `NewInvalidConfigurationError` would build). -/
theorem C14_unknown_strategy_error_untyped :
    (Apply ⟨fun _ => .ok [], fun _ => .ok ⟨[]⟩⟩ "default" "jwks-cm" (some ⟨[kidOnly "1"]⟩) ""
        true emptyCluster).1 = some (GoError.plain "unknown update strategy: ") ∧
      (GoError.plain "unknown update strategy: ").kind ≠ some ErrorTypeInvalidConfiguration ∧
      (NewInvalidConfigurationError "unknown update strategy: " none).kind
        = some ErrorTypeInvalidConfiguration := by
  refine ⟨rfl, by decide, rfl⟩

/-- C14 (amended): for every strategy string other than rolling and immediate (the empty
string included) `Apply` fails with the untyped error `unknown update strategy: <strategy>`
and leaves the store as it was, issuing no call; with a nil key set it fails with the untyped
error `new JWKS is nil`, again without a call on the store.  Neither error has a kind. -/
theorem C14_Apply_invalid_input (J : JsonCodec) (ns configMapName strategy : String)
    (newJWKS : Option JWKS) (keepOldKeys : Bool) (c : Cluster) :
    (strategy ≠ "rolling" → strategy ≠ "immediate" →
      ∃ e, (Apply J ns configMapName newJWKS strategy keepOldKeys c) = (some e, c) ∧
        e.kind = none ∧
        (newJWKS ≠ none → e = GoError.plain ("unknown update strategy: " ++ strategy))) ∧
    (Apply J ns configMapName none strategy keepOldKeys c
      = (some (GoError.plain "new JWKS is nil"), c)) ∧
    newOps c (Apply J ns configMapName none strategy keepOldKeys c).2 = [] := by
  refine ⟨?_, rfl, ?_⟩
  · intro h1 h2
    cases newJWKS with
    | none => exact ⟨_, rfl, rfl, fun h => absurd rfl h⟩
    | some n =>
      refine ⟨GoError.plain ("unknown update strategy: " ++ strategy), ?_, rfl, fun _ => rfl⟩
      simp [Apply, h1, h2]
  · simp [Apply, newOps]

/-- Witness for C14 (amended): the strategy string `canary`. -/
theorem C14_Apply_invalid_input_witness :
    ∃ e, (Apply ⟨fun _ => .ok [], fun _ => .ok ⟨[]⟩⟩ "default" "jwks-cm" (some ⟨[kidOnly "1"]⟩)
        "canary" true emptyCluster) = (some e, emptyCluster) ∧
      e.kind = none ∧
      ((some (⟨[kidOnly "1"]⟩ : JWKS)) ≠ none →
        e = GoError.plain ("unknown update strategy: " ++ "canary")) :=
  (C14_Apply_invalid_input ⟨fun _ => .ok [], fun _ => .ok ⟨[]⟩⟩ "default" "jwks-cm" "canary"
    (some ⟨[kidOnly "1"]⟩) true emptyCluster).1 (by decide) (by decide)

/-! ## Claim C17: retryable errors -/

/-- C17 (counterexample): typed errors of kind NginxDeploymentFailed and NginxServiceFailed
are retryable. -/
theorem C17_nginx_failures_retryable :
    IsRetryable (some (NewError ErrorTypeNginxDeploymentFailed
        "Failed to ensure nginx deployment" none)) = true ∧
      IsRetryable (some (NewError ErrorTypeNginxServiceFailed
        "Failed to ensure nginx service" none)) = true := by
  decide

/-- C17 (amended): `IsRetryable` is true exactly for a typed operator error whose kind is
SecretNotFound, ResourceNotFound, JWKSVerificationFailed, NginxDeploymentFailed or
NginxServiceFailed; it is false for the kinds JWKSGenerationFailed, ConfigMapUpdateFailed,
NginxConfigUpdateFailed and InvalidConfiguration, for nil and for untyped errors. -/
theorem C17_IsRetryable_iff (err : Option GoError) :
    (IsRetryable err = true ↔
      ∃ t message cause, err = some (GoError.operator t message cause) ∧
        (t = "SecretNotFound" ∨ t = "ResourceNotFound" ∨ t = "JWKSVerificationFailed" ∨
         t = "NginxDeploymentFailed" ∨ t = "NginxServiceFailed")) ∧
    IsRetryable none = false ∧
    (∀ msg, IsRetryable (some (GoError.plain msg)) = false ∧
      IsRetryable (some (GoError.api msg)) = false) ∧
    (∀ message cause, IsRetryable (some (NewError "JWKSGenerationFailed" message cause)) = false ∧
      IsRetryable (some (NewError "ConfigMapUpdateFailed" message cause)) = false ∧
      IsRetryable (some (NewError "NginxConfigUpdateFailed" message cause)) = false ∧
      IsRetryable (some (NewError "InvalidConfiguration" message cause)) = false) := by
  refine ⟨?_, rfl, fun _ => ⟨rfl, rfl⟩, ?_⟩
  · cases err with
    | none => simp [IsRetryable]
    | some e =>
      cases e with
      | plain m => simp [IsRetryable]
      | api m => simp [IsRetryable]
      | operator t m cause =>
        simp only [IsRetryable, ErrorTypeSecretNotFound, ErrorTypeResourceNotFound,
          ErrorTypeJWKSVerificationFailed, ErrorTypeNginxDeploymentFailed,
          ErrorTypeNginxServiceFailed, Option.some.injEq, GoError.operator.injEq]
        constructor
        · intro h
          refine ⟨t, m, cause, ⟨rfl, rfl, rfl⟩, ?_⟩
          by_cases h1 : t = "SecretNotFound"
          · exact Or.inl h1
          by_cases h2 : t = "ResourceNotFound"
          · exact Or.inr (Or.inl h2)
          by_cases h3 : t = "JWKSVerificationFailed"
          · exact Or.inr (Or.inr (Or.inl h3))
          by_cases h4 : t = "NginxDeploymentFailed"
          · exact Or.inr (Or.inr (Or.inr (Or.inl h4)))
          by_cases h5 : t = "NginxServiceFailed"
          · exact Or.inr (Or.inr (Or.inr (Or.inr h5)))
          simp [h1, h2, h3, h4, h5] at h
        · rintro ⟨t2, m2, c2, ⟨rfl, rfl, rfl⟩, h⟩
          rcases h with h | h | h | h | h <;> simp [h]
  · intro message cause
    refine ⟨?_, ?_, ?_, ?_⟩ <;> simp [IsRetryable, NewError, ErrorTypeSecretNotFound,
      ErrorTypeResourceNotFound, ErrorTypeJWKSVerificationFailed,
      ErrorTypeNginxDeploymentFailed, ErrorTypeNginxServiceFailed]

/-! ## Claims C18, C19: `ShouldUpdate` -/

theorem anyKidMissing_iff (oldKids : String → Bool) (keys : List JWK) :
    anyKidMissing oldKids keys = true ↔ ∃ k ∈ keys, oldKids k.Kid = false := by
  induction keys with
  | nil => simp [anyKidMissing]
  | cons k rest ih =>
    simp only [anyKidMissing, List.mem_cons, exists_eq_or_imp]
    cases h : oldKids k.Kid <;> simp [ih]

/-- C18 (the code at the failing input): with a nil old key set `ShouldUpdate` is true
although the new key set is nil, or has no keys; with an old key set that is not nil it is
false for such a new key set. -/
theorem C18_ShouldUpdate_nil_old :
    ShouldUpdate none none = true ∧ ShouldUpdate none (some ⟨[]⟩) = true ∧
      ShouldUpdate (some ⟨[]⟩) none = false ∧ ShouldUpdate (some ⟨[]⟩) (some ⟨[]⟩) = false := by
  decide

/-- The method `ShouldUpdate` is false whenever new is empty (nil or without keys) and old is
not nil, an old key set without keys included; when old is nil it is true for every new, an
empty one included. -/
theorem ShouldUpdate_empty_new (o : JWKS) (new : Option JWKS) :
    ShouldUpdate (some o) none = false ∧
    ShouldUpdate (some o) (some ⟨[]⟩) = false ∧
    ShouldUpdate (some ⟨[]⟩) (some ⟨[]⟩) = false ∧
    ShouldUpdate none new = true := by
  refine ⟨rfl, rfl, rfl, rfl⟩

/-- C19: for every new key set with at least one key, `ShouldUpdate` is true when old is nil
or has no keys, and for an old key set with at least one key it is true if and only if some
new key has a kid that no old key has; kids 1, 2 against 1, 2 give false and against 1, 3
give true. -/
theorem C19_ShouldUpdate_spec (old : Option JWKS) (new : JWKS) (hnew : new.Keys ≠ []) :
    (old = none → ShouldUpdate old (some new) = true) ∧
    (∀ o, old = some o → o.Keys = [] → ShouldUpdate old (some new) = true) ∧
    (∀ o, old = some o → o.Keys ≠ [] →
      (ShouldUpdate old (some new) = true ↔
        ∃ k ∈ new.Keys, ∀ j ∈ o.Keys, j.Kid ≠ k.Kid)) ∧
    ShouldUpdate (some ⟨[kidOnly "1", kidOnly "2"]⟩) (some ⟨[kidOnly "1", kidOnly "2"]⟩)
      = false ∧
    ShouldUpdate (some ⟨[kidOnly "1", kidOnly "2"]⟩) (some ⟨[kidOnly "1", kidOnly "3"]⟩)
      = true := by
  have hlen : ¬ new.Keys.length = 0 := by simpa using hnew
  have hmain : ∀ o : JWKS, (ShouldUpdate (some o) (some new) = true ↔
      ∃ k ∈ new.Keys, ∀ j ∈ o.Keys, j.Kid ≠ k.Kid) := by
    intro o
    simp only [ShouldUpdate, hlen, if_false, anyKidMissing_iff, existingKidsOf_apply,
      decide_eq_false_iff_not, kidsOf, List.mem_map, not_exists, not_and]
  refine ⟨?_, ?_, ?_, by decide, by decide⟩
  · intro h
    subst h
    rfl
  · intro o h ho
    subst h
    rw [hmain o]
    obtain ⟨k, hk⟩ := List.exists_mem_of_ne_nil _ hnew
    exact ⟨k, hk, by simp [ho]⟩
  · intro o h _
    subst h
    exact hmain o

/-- Witness for C19: old kids 1, 2 and new kids 1, 3. -/
theorem C19_ShouldUpdate_spec_witness :
    ShouldUpdate (some ⟨[kidOnly "1", kidOnly "2"]⟩) (some ⟨[kidOnly "1", kidOnly "3"]⟩) = true ↔
      ∃ k ∈ [kidOnly "1", kidOnly "3"], ∀ j ∈ [kidOnly "1", kidOnly "2"], j.Kid ≠ k.Kid :=
  (C19_ShouldUpdate_spec (some ⟨[kidOnly "1", kidOnly "2"]⟩) ⟨[kidOnly "1", kidOnly "3"]⟩
    (by decide)).2.2.1 ⟨[kidOnly "1", kidOnly "2"]⟩ rfl (by decide)

/-! ## Claim C12: what `Apply` writes -/

theorem assocGet_assocSet {κ V : Type} [DecidableEq κ] (l : List (κ × V)) (k : κ) (v : V) :
    assocGet (assocSet l k v) k = some v := by
  induction l with
  | nil => simp [assocSet, assocGet]
  | cons p rest ih =>
    obtain ⟨k0, v0⟩ := p
    by_cases h : k0 = k
    · simp [assocSet, assocGet, h]
    · simp [assocSet, assocGet, h, ih]

theorem newOps_append (c c2 : Cluster) (ops : List StoreOp) (h : c2.log = c.log ++ ops) :
    newOps c c2 = ops := by
  simp [newOps, h]

theorem clientGetConfigMap_snd (ns name : String) (c : Cluster) :
    (clientGetConfigMap ns name c).2 = c.record (.getConfigMap ns name) := by
  unfold clientGetConfigMap
  cases c.faults (.getConfigMap ns name) with
  | some e => rfl
  | none => cases assocGet c.configMaps (ns, name) <;> rfl

theorem clientGetConfigMap_fst (ns name : String) (c : Cluster)
    (hget : c.faults (.getConfigMap ns name) = none) :
    (clientGetConfigMap ns name c).1 =
      (match assocGet c.configMaps (ns, name) with
       | some cm => Got.found cm
       | none => Got.notFound) := by
  unfold clientGetConfigMap
  rw [hget]
  cases assocGet c.configMaps (ns, name) <;> rfl

theorem clientCreateConfigMap_log (ns name : String) (obj : ConfigMap) (c : Cluster) :
    (clientCreateConfigMap ns name obj c).2.log = c.log ++ [.createConfigMap ns name obj] := by
  unfold clientCreateConfigMap
  cases c.faults (.createConfigMap ns name obj) with
  | some e => rfl
  | none => cases assocGet c.configMaps (ns, name) <;> rfl

theorem clientUpdateConfigMap_log (ns name : String) (obj : ConfigMap) (c : Cluster) :
    (clientUpdateConfigMap ns name obj c).2.log = c.log ++ [.updateConfigMap ns name obj] := by
  unfold clientUpdateConfigMap
  cases c.faults (.updateConfigMap ns name obj) with
  | some e => rfl
  | none => cases assocGet c.configMaps (ns, name) <;> rfl

/-- With a readable store and a key set that marshals to `b`, `UpdateJWKS` issues one read
and then the one write `keySetWrite`. -/
theorem UpdateJWKS_log (J : JsonCodec) (ns name : String) (X : JWKS) (b : List Byte)
    (c : Cluster) (hget : c.faults (.getConfigMap ns name) = none)
    (hb : J.marshalIndent X = .ok b) :
    (UpdateJWKS J ns name (some X) c).2.log =
      c.log ++ [.getConfigMap ns name, keySetWrite c ns name b] := by
  have h1 := clientGetConfigMap_fst ns name c hget
  have h2 := clientGetConfigMap_snd ns name c
  unfold UpdateJWKS
  simp only [ToJSON, hb]
  rcases hg : clientGetConfigMap ns name c with ⟨g, c1⟩
  rw [hg] at h1 h2
  simp only at h1 h2
  subst h2
  unfold keySetWrite
  cases hl : assocGet c.configMaps (ns, name) with
  | none =>
    rw [hl] at h1
    subst h1
    simp [clientCreateConfigMap_log, Cluster.record]
  | some cm =>
    rw [hl] at h1
    subst h1
    simp only [clientUpdateConfigMap_log, Cluster.record, List.append_assoc, List.cons_append,
      List.nil_append]
    cases cm.BinaryData <;> rfl

theorem keySetWrite_record (c : Cluster) (op : StoreOp) (ns name : String) (b : List Byte) :
    keySetWrite (c.record op) ns name b = keySetWrite c ns name b := rfl

theorem keySetWrite_payload (c : Cluster) (ns name : String) (b : List Byte) :
    (keySetWrite c ns name b).jwksPayload = some b ∧
      (keySetWrite c ns name b).target = (ns, name) ∧
      (keySetWrite c ns name b).isWrite = true := by
  unfold keySetWrite
  cases assocGet c.configMaps (ns, name) with
  | none => simp [StoreOp.jwksPayload, StoreOp.target, StoreOp.isWrite, assocGet]
  | some cm => simp [StoreOp.jwksPayload, StoreOp.target, StoreOp.isWrite, assocGet_assocSet]

theorem GetJWKS_snd (J : JsonCodec) (ns name : String) (c : Cluster) :
    (GetJWKS J ns name c).2 = c.record (.getConfigMap ns name) := by
  have h2 := clientGetConfigMap_snd ns name c
  unfold GetJWKS
  rcases hg : clientGetConfigMap ns name c with ⟨g, c1⟩
  rw [hg] at h2
  simp only at h2
  subst h2
  cases g with
  | notFound => rfl
  | failed e => rfl
  | found cm =>
    simp only
    split
    · rfl
    · cases J.unmarshal (jwksJSONOf cm) <;> rfl

theorem GetJWKS_fst (J : JsonCodec) (ns name : String) (c : Cluster)
    (hget : c.faults (.getConfigMap ns name) = none) :
    (GetJWKS J ns name c).1 =
      (match assocGet c.configMaps (ns, name) with
       | none => .ok none
       | some cm =>
         if (jwksJSONOf cm).length = 0 then
           .error (GoError.plain "jwks.json not found in ConfigMap")
         else
           match J.unmarshal (jwksJSONOf cm) with
           | .error e => .error (GoError.plain ("failed to parse JWKS JSON: " ++ e))
           | .ok jwksData => .ok (some jwksData)) := by
  have h1 := clientGetConfigMap_fst ns name c hget
  unfold GetJWKS
  rcases hg : clientGetConfigMap ns name c with ⟨g, c1⟩
  rw [hg] at h1
  simp only at h1
  subst h1
  cases hl : assocGet c.configMaps (ns, name) with
  | none => rfl
  | some cm =>
    simp only
    split
    · rfl
    · cases J.unmarshal (jwksJSONOf cm) <;> rfl

theorem record_faults (c : Cluster) (op : StoreOp) : (c.record op).faults = c.faults := rfl

theorem record_log (c : Cluster) (op : StoreOp) : (c.record op).log = c.log ++ [op] := rfl

theorem writeOps_get_write (ns name : String) (w : StoreOp) (hw : w.isWrite = true) :
    writeOps [StoreOp.getConfigMap ns name, w] = [w] := by
  have hg : (StoreOp.getConfigMap ns name).isWrite = false := rfl
  simp [writeOps, List.filter_cons, hg, hw]

theorem writeOps_get_get_write (ns name : String) (w : StoreOp) (hw : w.isWrite = true) :
    writeOps [StoreOp.getConfigMap ns name, StoreOp.getConfigMap ns name, w] = [w] := by
  have hg : (StoreOp.getConfigMap ns name).isWrite = false := rfl
  simp [writeOps, List.filter_cons, hg, hw]

/-- The rolling strategy with keep-old-keys on a readable store: one read by `GetJWKS`, then
`UpdateJWKS` of the key set `W` to write. -/
theorem applyRolling_keep_log (J : JsonCodec) (ns name : String) (N W : JWKS) (b : List Byte)
    (c : Cluster) (hget : c.faults (.getConfigMap ns name) = none)
    (hb : J.marshalIndent W = .ok b)
    (hW : (GetJWKS J ns name c).1 = .ok none ∧ W = N ∨
      ∃ S, (GetJWKS J ns name c).1 = .ok (some S) ∧ MergeJWKS (some S) (some N) = .ok W) :
    (applyRollingStrategy J ns name N true c).2.log =
      c.log ++ [.getConfigMap ns name, .getConfigMap ns name, keySetWrite c ns name b] := by
  have h2 := GetJWKS_snd J ns name c
  have hlog := UpdateJWKS_log J ns name W b (c.record (.getConfigMap ns name))
    (by rw [record_faults]; exact hget) hb
  rw [keySetWrite_record, record_log] at hlog
  unfold applyRollingStrategy
  rcases hg : GetJWKS J ns name c with ⟨r, c1⟩
  rw [hg] at h2 hW
  simp only at h2 hW
  subst h2
  rcases hW with ⟨hr, rfl⟩ | ⟨S, hr, hm⟩
  · subst hr
    simp only [if_true, hlog, List.append_assoc, List.cons_append, List.nil_append]
  · subst hr
    simp only [if_true, hm, hlog, List.append_assoc, List.cons_append, List.nil_append]

/-- C12: on a store that answers the read of the key-set object, `Apply` with a non-nil new
key set N issues exactly one write, to that object: under immediate it carries the document
of N; rolling with keepOldKeys false is the same computation as immediate; under rolling
with keepOldKeys true it carries the document of N when the object does not exist (then the
write is a create), and the document of `MergeJWKS(S, N)` when the object stores a key set
S. -/
theorem C12_Apply_writes (J : JsonCodec) (ns name : String) (N : JWKS) (keepOldKeys : Bool)
    (c : Cluster) (hget : c.faults (.getConfigMap ns name) = none) :
    (∀ b, J.marshalIndent N = .ok b →
      writeOps (newOps c (Apply J ns name (some N) "immediate" keepOldKeys c).2)
        = [keySetWrite c ns name b]) ∧
    (Apply J ns name (some N) "rolling" false c
      = Apply J ns name (some N) "immediate" keepOldKeys c) ∧
    (assocGet c.configMaps (ns, name) = none → ∀ b, J.marshalIndent N = .ok b →
      writeOps (newOps c (Apply J ns name (some N) "rolling" true c).2)
        = [.createConfigMap ns name ⟨none, some [("jwks.json", b)]⟩]) ∧
    (∀ cm S M b, assocGet c.configMaps (ns, name) = some cm →
      jwksJSONOf cm ≠ [] → J.unmarshal (jwksJSONOf cm) = .ok S →
      MergeJWKS (some S) (some N) = .ok M → J.marshalIndent M = .ok b →
      writeOps (newOps c (Apply J ns name (some N) "rolling" true c).2)
        = [keySetWrite c ns name b]) ∧
    (∀ b, (keySetWrite c ns name b).jwksPayload = some b ∧
      (keySetWrite c ns name b).target = (ns, name) ∧
      (keySetWrite c ns name b).isWrite = true) := by
  refine ⟨?_, ?_, ?_, ?_, fun b => keySetWrite_payload c ns name b⟩
  · intro b hb
    have hlog := UpdateJWKS_log J ns name N b c hget hb
    have : Apply J ns name (some N) "immediate" keepOldKeys c
        = UpdateJWKS J ns name (some N) c := by
      simp [Apply, applyImmediateStrategy]
    rw [this, newOps_append c _ _ hlog]
    exact writeOps_get_write ns name _ (keySetWrite_payload c ns name b).2.2
  · simp [Apply, applyImmediateStrategy, applyRollingStrategy]
  · intro hnone b hb
    have hfst := GetJWKS_fst J ns name c hget
    rw [hnone] at hfst
    have hlog := applyRolling_keep_log J ns name N N b c hget hb (Or.inl ⟨hfst, rfl⟩)
    have : Apply J ns name (some N) "rolling" true c
        = applyRollingStrategy J ns name N true c := by
      simp [Apply]
    rw [this, newOps_append c _ _ hlog]
    have hk : keySetWrite c ns name b
        = .createConfigMap ns name ⟨none, some [("jwks.json", b)]⟩ := by
      simp [keySetWrite, hnone]
    rw [hk]
    exact writeOps_get_get_write ns name _ rfl
  · intro cm S M b hcm hne hS hM hb
    have hfst := GetJWKS_fst J ns name c hget
    rw [hcm] at hfst
    have hlen : ¬ (jwksJSONOf cm).length = 0 := by simpa using hne
    simp only [hlen, if_false, hS] at hfst
    have hlog := applyRolling_keep_log J ns name N M b c hget hb (Or.inr ⟨S, hfst, hM⟩)
    have : Apply J ns name (some N) "rolling" true c
        = applyRollingStrategy J ns name N true c := by
      simp [Apply]
    rw [this, newOps_append c _ _ hlog]
    exact writeOps_get_get_write ns name _ (keySetWrite_payload c ns name b).2.2

/-- Witness for C12: the object stores kid 1, the new key set is kid 2, the strategy is
rolling with keepOldKeys; the one write carries the document of kids 1, 2. -/
theorem C12_Apply_writes_witness :
    writeOps (newOps oneKeyCluster
        (Apply kidCodec "default" "jwks-cm" (some ⟨[kidOnly "2"]⟩) "rolling" true
          oneKeyCluster).2)
      = [keySetWrite oneKeyCluster "default" "jwks-cm" [49, 0, 50, 0]] :=
  (C12_Apply_writes kidCodec "default" "jwks-cm" ⟨[kidOnly "2"]⟩ true oneKeyCluster rfl).2.2.2.1
    storedKeySetObject ⟨[kidOnly "1"]⟩ ⟨[kidOnly "1", kidOnly "2"]⟩ [49, 0, 50, 0]
    (by decide) (by decide) (by decide) (by decide) (by decide)

/-! ## Claim C20: content-equality gating of the serving configuration -/

theorem clientUpdateConfigMap_ok (ns name : String) (obj : ConfigMap) (c c2 : Cluster)
    (h : clientUpdateConfigMap ns name obj c = (none, c2)) :
    c2.configMaps = assocSet c.configMaps (ns, name) obj ∧ c2.faults = c.faults := by
  unfold clientUpdateConfigMap at h
  cases hf : c.faults (.updateConfigMap ns name obj) with
  | some e => simp [hf] at h
  | none =>
    cases hl : assocGet c.configMaps (ns, name) with
    | none => simp [hf, hl] at h
    | some cm =>
      simp only [hf, hl, Prod.mk.injEq, true_and] at h
      subst h
      exact ⟨rfl, rfl⟩

theorem storedNginxConfig_with (cm : ConfigMap) (text : String) :
    storedNginxConfig (withNginxConfig cm text) = text := by
  simp [storedNginxConfig, withNginxConfig, assocGet_assocSet]

/-- On an existing, readable serving-configuration object `UpdateConfig` reads it once, and
then either returns (equal text) or issues one update (different text). -/
theorem UpdateConfig_existing (G : ConfigGenerator) (ns name jwksName endpoint text : String)
    (c : Cluster) (cm : ConfigMap) (hname : name ≠ "") (hjwks : jwksName ≠ "")
    (hgen : G jwksName endpoint = .ok text)
    (hget : c.faults (.getConfigMap ns name) = none)
    (hexists : assocGet c.configMaps (ns, name) = some cm) :
    UpdateConfig G ns name jwksName endpoint c =
      if storedNginxConfig cm ≠ text then
        match clientUpdateConfigMap ns name (withNginxConfig cm text)
            (c.record (.getConfigMap ns name)) with
        | (some err, c2) =>
          (some (GoError.plain ("failed to update nginx ConfigMap: " ++ err.Error)), c2)
        | (none, c2) => (none, c2)
      else (none, c.record (.getConfigMap ns name)) := by
  have h1 := clientGetConfigMap_fst ns name c hget
  have h2 := clientGetConfigMap_snd ns name c
  rw [hexists] at h1
  unfold UpdateConfig
  simp only [hname, hjwks, if_false, hgen]
  rcases hg : clientGetConfigMap ns name c with ⟨g, c1⟩
  rw [hg] at h1 h2
  simp only at h1 h2
  subst h1 h2
  simp only [storedNginxConfig, withNginxConfig]
  cases cm.Data <;> rfl

theorem clientUpdateConfigMap_rejected (ns name : String) (obj : ConfigMap) (c c2 : Cluster)
    (err : GoError) (h : clientUpdateConfigMap ns name obj c = (some err, c2)) :
    c2.configMaps = c.configMaps ∧ c2.faults = c.faults := by
  unfold clientUpdateConfigMap at h
  cases hf : c.faults (.updateConfigMap ns name obj) with
  | some e =>
    simp only [hf, Prod.mk.injEq] at h
    obtain ⟨_, rfl⟩ := h
    exact ⟨rfl, rfl⟩
  | none =>
    cases hl : assocGet c.configMaps (ns, name) with
    | none =>
      simp only [hf, hl, Prod.mk.injEq] at h
      obtain ⟨_, rfl⟩ := h
      exact ⟨rfl, rfl⟩
    | some cm => simp [hf, hl] at h

/-- On an existing, readable serving-configuration object whose text differs from the
generated one, the writes of `UpdateConfig` are the one update that carries the generated
text. -/
theorem UpdateConfig_writes_update (G : ConfigGenerator)
    (ns name jwksName endpoint text : String) (c : Cluster) (cm : ConfigMap)
    (hname : name ≠ "") (hjwks : jwksName ≠ "") (hgen : G jwksName endpoint = .ok text)
    (hget : c.faults (.getConfigMap ns name) = none)
    (hexists : assocGet c.configMaps (ns, name) = some cm)
    (hne : storedNginxConfig cm ≠ text) :
    writeOps (newOps c (UpdateConfig G ns name jwksName endpoint c).2)
      = [.updateConfigMap ns name (withNginxConfig cm text)] := by
  have hU := UpdateConfig_existing G ns name jwksName endpoint text c cm hname hjwks hgen hget
    hexists
  have hg : (StoreOp.getConfigMap ns name).isWrite = false := rfl
  have hl := clientUpdateConfigMap_log ns name (withNginxConfig cm text)
    (c.record (.getConfigMap ns name))
  have hlog : (UpdateConfig G ns name jwksName endpoint c).2.log =
      c.log ++ [.getConfigMap ns name, .updateConfigMap ns name (withNginxConfig cm text)] := by
    rw [hU, if_pos hne]
    rcases hu : clientUpdateConfigMap ns name (withNginxConfig cm text)
      (c.record (.getConfigMap ns name)) with ⟨r, c2⟩
    rw [hu] at hl
    simp only [record_log, List.append_assoc, List.cons_append, List.nil_append] at hl
    cases r <;> exact hl
  rw [newOps_append c _ _ hlog]
  simp [writeOps, List.filter_cons, hg, StoreOp.isWrite]

/-- C20 (counterexample): the stored text is outdated and the store rejects every write.
The first call issues one update and returns its error; the second call, with the same
arguments on the store the first one left, issues the update again: two writes in total. -/
theorem C20_rejected_update_issued_again :
    (UpdateConfig plainGenerator "default" "nginx-cm" "jwks-cm" "/jwks.json"
        rejectingNginxCluster).1
      = some (.plain "failed to update nginx ConfigMap: conflict") ∧
    writeOps (newOps rejectingNginxCluster
        (UpdateConfig plainGenerator "default" "nginx-cm" "jwks-cm" "/jwks.json"
          rejectingNginxCluster).2)
      = [.updateConfigMap "default" "nginx-cm"
          (withNginxConfig ⟨some [("default.conf", "old")], none⟩
            "serve jwks-cm at /jwks.json")] ∧
    writeOps (newOps
        (UpdateConfig plainGenerator "default" "nginx-cm" "jwks-cm" "/jwks.json"
          rejectingNginxCluster).2
        (UpdateConfig plainGenerator "default" "nginx-cm" "jwks-cm" "/jwks.json"
          (UpdateConfig plainGenerator "default" "nginx-cm" "jwks-cm" "/jwks.json"
            rejectingNginxCluster).2).2)
      = [.updateConfigMap "default" "nginx-cm"
          (withNginxConfig ⟨some [("default.conf", "old")], none⟩
            "serve jwks-cm at /jwks.json")] ∧
    (writeOps (newOps rejectingNginxCluster
        (UpdateConfig plainGenerator "default" "nginx-cm" "jwks-cm" "/jwks.json"
          (UpdateConfig plainGenerator "default" "nginx-cm" "jwks-cm" "/jwks.json"
            rejectingNginxCluster).2).2)).length = 2 := by
  decide

/-- C20 (amended): when the serving-configuration object exists (and the store answers its
read), `UpdateConfig` issues no write at all and returns nil if the stored default.conf text
equals the freshly generated text, and issues exactly one write, an update of that object
carrying the generated text, otherwise; after a first call that returned nil, a second call
with the same arguments issues no write, so the two calls issue at most one write in total;
after a first call that returned an error, the objects are what they were, the first call
issued that one update, and a second call with the same arguments issues it again. -/
theorem C20_UpdateConfig_gating (G : ConfigGenerator) (ns name jwksName endpoint text : String)
    (c : Cluster) (cm : ConfigMap) (hname : name ≠ "") (hjwks : jwksName ≠ "")
    (hgen : G jwksName endpoint = .ok text)
    (hget : c.faults (.getConfigMap ns name) = none)
    (hexists : assocGet c.configMaps (ns, name) = some cm) :
    (storedNginxConfig cm = text →
      UpdateConfig G ns name jwksName endpoint c = (none, c.record (.getConfigMap ns name)) ∧
      writeOps (newOps c (UpdateConfig G ns name jwksName endpoint c).2) = []) ∧
    (storedNginxConfig cm ≠ text →
      writeOps (newOps c (UpdateConfig G ns name jwksName endpoint c).2)
        = [.updateConfigMap ns name (withNginxConfig cm text)]) ∧
    (∀ c1, UpdateConfig G ns name jwksName endpoint c = (none, c1) →
      writeOps (newOps c1 (UpdateConfig G ns name jwksName endpoint c1).2) = [] ∧
      (writeOps (newOps c c1)).length ≤ 1) ∧
    (∀ err c1, UpdateConfig G ns name jwksName endpoint c = (some err, c1) →
      c1.configMaps = c.configMaps ∧
      writeOps (newOps c c1) = [.updateConfigMap ns name (withNginxConfig cm text)] ∧
      writeOps (newOps c1 (UpdateConfig G ns name jwksName endpoint c1).2)
        = [.updateConfigMap ns name (withNginxConfig cm text)]) := by
  have hU := UpdateConfig_existing G ns name jwksName endpoint text c cm hname hjwks hgen hget
    hexists
  have hg : (StoreOp.getConfigMap ns name).isWrite = false := rfl
  have hdiff : storedNginxConfig cm ≠ text →
      (UpdateConfig G ns name jwksName endpoint c).2.log =
        c.log ++ [.getConfigMap ns name, .updateConfigMap ns name (withNginxConfig cm text)] := by
    intro hne
    have hl := clientUpdateConfigMap_log ns name (withNginxConfig cm text)
      (c.record (.getConfigMap ns name))
    rw [hU, if_pos hne]
    rcases hu : clientUpdateConfigMap ns name (withNginxConfig cm text)
      (c.record (.getConfigMap ns name)) with ⟨r, c2⟩
    rw [hu] at hl
    simp only [record_log, List.append_assoc, List.cons_append, List.nil_append] at hl
    cases r <;> exact hl
  refine ⟨?_, ?_, ?_, ?_⟩
  rotate_left 3
  · intro err c1 hc1
    by_cases heq : storedNginxConfig cm = text
    · rw [hU] at hc1
      simp [heq] at hc1
    · have hw := UpdateConfig_writes_update G ns name jwksName endpoint text c cm hname hjwks
        hgen hget hexists heq
      rw [hc1] at hw
      rw [hU, if_pos heq] at hc1
      rcases hu : clientUpdateConfigMap ns name (withNginxConfig cm text)
        (c.record (.getConfigMap ns name)) with ⟨r, c2⟩
      rw [hu] at hc1
      cases r with
      | none => simp at hc1
      | some e =>
        simp only [Prod.mk.injEq] at hc1
        obtain ⟨_, rfl⟩ := hc1
        obtain ⟨hcm, hfa⟩ := clientUpdateConfigMap_rejected ns name _ _ _ e hu
        have hget1 : c2.faults (.getConfigMap ns name) = none := by
          rw [hfa]
          exact hget
        have hex1 : assocGet c2.configMaps (ns, name) = some cm := by
          rw [hcm]
          exact hexists
        exact ⟨hcm, hw, UpdateConfig_writes_update G ns name jwksName endpoint text c2 cm
          hname hjwks hgen hget1 hex1 heq⟩
  · intro heq
    have hres : UpdateConfig G ns name jwksName endpoint c
        = (none, c.record (.getConfigMap ns name)) := by
      rw [hU]
      simp [heq]
    refine ⟨hres, ?_⟩
    rw [hres, newOps_append c _ [.getConfigMap ns name] rfl]
    simp [writeOps, List.filter_cons, hg]
  · intro hne
    rw [newOps_append c _ _ (hdiff hne)]
    simp [writeOps, List.filter_cons, hg, StoreOp.isWrite]
  · intro c1 hc1
    by_cases heq : storedNginxConfig cm = text
    · have hres : UpdateConfig G ns name jwksName endpoint c
          = (none, c.record (.getConfigMap ns name)) := by
        rw [hU]
        simp [heq]
      rw [hres] at hc1
      have hc : c1 = c.record (.getConfigMap ns name) := (Prod.mk.inj hc1).2.symm
      subst hc
      have hU1 := UpdateConfig_existing G ns name jwksName endpoint text
        (c.record (.getConfigMap ns name)) cm hname hjwks hgen hget hexists
      constructor
      · rw [hU1]
        simp only [ne_eq, heq, not_true_eq_false, if_false]
        rw [newOps_append _ _ [.getConfigMap ns name] rfl]
        simp [writeOps, List.filter_cons, hg]
      · rw [newOps_append c _ [.getConfigMap ns name] rfl]
        simp [writeOps, List.filter_cons, hg]
    · have hlog := hdiff heq
      rw [hU, if_pos heq] at hc1
      rcases hu : clientUpdateConfigMap ns name (withNginxConfig cm text)
        (c.record (.getConfigMap ns name)) with ⟨r, c2⟩
      rw [hu] at hc1
      cases r with
      | some err => simp at hc1
      | none =>
        simp only [Prod.mk.injEq, true_and] at hc1
        subst hc1
        obtain ⟨hcm, hfa⟩ := clientUpdateConfigMap_ok ns name _ _ _ hu
        have hget1 : c2.faults (.getConfigMap ns name) = none := by
          rw [hfa]
          exact hget
        have hex1 : assocGet c2.configMaps (ns, name) = some (withNginxConfig cm text) := by
          rw [hcm]
          exact assocGet_assocSet _ _ _
        have hU1 := UpdateConfig_existing G ns name jwksName endpoint text c2
          (withNginxConfig cm text) hname hjwks hgen hget1 hex1
        constructor
        · rw [hU1]
          simp only [ne_eq, storedNginxConfig_with, not_true_eq_false, if_false]
          rw [newOps_append _ _ [.getConfigMap ns name] rfl]
          simp [writeOps, List.filter_cons, hg]
        · have hlog2 : c2.log = c.log ++
              [.getConfigMap ns name, .updateConfigMap ns name (withNginxConfig cm text)] := by
            have := hlog
            rw [hU, if_pos heq, hu] at this
            exact this
          rw [newOps_append c _ _ hlog2]
          simp [writeOps, List.filter_cons, hg, StoreOp.isWrite]

/-- Witness for C20: the stored text is outdated; the first call issues one update, the
second none. -/
theorem C20_UpdateConfig_gating_witness :
    writeOps (newOps staleNginxCluster
        (UpdateConfig plainGenerator "default" "nginx-cm" "jwks-cm" "/jwks.json"
          staleNginxCluster).2)
      = [.updateConfigMap "default" "nginx-cm"
          (withNginxConfig ⟨some [("default.conf", "old")], none⟩
            "serve jwks-cm at /jwks.json")] :=
  (C20_UpdateConfig_gating plainGenerator "default" "nginx-cm" "jwks-cm" "/jwks.json"
    "serve jwks-cm at /jwks.json" staleNginxCluster ⟨some [("default.conf", "old")], none⟩
    (by decide) (by decide) (by decide) rfl (by decide)).2.1 (by decide)

/-! ## Claim C13: the rolling strategy and the keep-old-keys flag -/

theorem clientCreateConfigMap_faults (ns name : String) (obj : ConfigMap) (c : Cluster) :
    (clientCreateConfigMap ns name obj c).2.faults = c.faults := by
  unfold clientCreateConfigMap
  cases c.faults (.createConfigMap ns name obj) with
  | some e => rfl
  | none => cases assocGet c.configMaps (ns, name) <;> rfl

theorem clientUpdateConfigMap_faults (ns name : String) (obj : ConfigMap) (c : Cluster) :
    (clientUpdateConfigMap ns name obj c).2.faults = c.faults := by
  unfold clientUpdateConfigMap
  cases c.faults (.updateConfigMap ns name obj) with
  | some e => rfl
  | none => cases assocGet c.configMaps (ns, name) <;> rfl

theorem clientCreateConfigMap_ok (ns name : String) (obj : ConfigMap) (c c2 : Cluster)
    (h : clientCreateConfigMap ns name obj c = (none, c2)) :
    c2.configMaps = assocSet c.configMaps (ns, name) obj := by
  unfold clientCreateConfigMap at h
  cases hf : c.faults (.createConfigMap ns name obj) with
  | some e => simp [hf] at h
  | none =>
    cases hl : assocGet c.configMaps (ns, name) with
    | some cm => simp [hf, hl] at h
    | none =>
      simp only [hf, hl, Prod.mk.injEq, true_and] at h
      subst h
      rfl

/-- On a readable store `UpdateJWKS` of a key set that marshals to `b` issues one read and
the write `keySetWrite`, keeps the fault plan, and on success leaves the object holding
the document `b`. -/
theorem UpdateJWKS_full (J : JsonCodec) (ns name : String) (X : JWKS) (b : List Byte)
    (c : Cluster) (hget : c.faults (.getConfigMap ns name) = none)
    (hb : J.marshalIndent X = .ok b) :
    (UpdateJWKS J ns name (some X) c).2.log =
        c.log ++ [.getConfigMap ns name, keySetWrite c ns name b] ∧
      (UpdateJWKS J ns name (some X) c).2.faults = c.faults ∧
      ((UpdateJWKS J ns name (some X) c).1 = none →
        ∃ obj, assocGet (UpdateJWKS J ns name (some X) c).2.configMaps (ns, name) = some obj ∧
          obj.jwksDocument = some b) := by
  refine ⟨UpdateJWKS_log J ns name X b c hget hb, ?_, ?_⟩
  · have h1 := clientGetConfigMap_fst ns name c hget
    have h2 := clientGetConfigMap_snd ns name c
    unfold UpdateJWKS
    simp only [ToJSON, hb]
    rcases hg : clientGetConfigMap ns name c with ⟨g, c1⟩
    rw [hg] at h1 h2
    simp only at h1 h2
    subst h2
    cases g with
    | notFound => simp only [clientCreateConfigMap_faults, record_faults]
    | failed e => rfl
    | found cm => simp only [clientUpdateConfigMap_faults, record_faults]
  · have h1 := clientGetConfigMap_fst ns name c hget
    have h2 := clientGetConfigMap_snd ns name c
    unfold UpdateJWKS
    simp only [ToJSON, hb]
    rcases hg : clientGetConfigMap ns name c with ⟨g, c1⟩
    rw [hg] at h1 h2
    simp only at h1 h2
    subst h2
    cases g with
    | failed e => simp
    | notFound =>
      simp only
      intro hr
      rcases hc : clientCreateConfigMap ns name ⟨none, some [("jwks.json", b)]⟩
        (c.record (.getConfigMap ns name)) with ⟨r, c2⟩
      rw [hc] at hr
      simp only at hr
      subst hr
      have := clientCreateConfigMap_ok ns name _ _ _ hc
      refine ⟨⟨none, some [("jwks.json", b)]⟩, ?_, ?_⟩
      · simp only [this]
        exact assocGet_assocSet _ _ _
      · simp [ConfigMap.jwksDocument, assocGet]
    | found cm =>
      simp only
      intro hr
      rcases hc : clientUpdateConfigMap ns name
        { cm with BinaryData := some (assocSet
          (match cm.BinaryData with
           | none => []
           | some m => m) "jwks.json" b) }
        (c.record (.getConfigMap ns name)) with ⟨r, c2⟩
      rw [hc] at hr
      simp only at hr
      subst hr
      have := (clientUpdateConfigMap_ok ns name _ _ _ hc).1
      refine ⟨{ cm with BinaryData := some (assocSet
          (match cm.BinaryData with
           | none => []
           | some m => m) "jwks.json" b) }, ?_, ?_⟩
      · simp only [this]
        exact assocGet_assocSet _ _ _
      · simp [ConfigMap.jwksDocument, assocGet_assocSet]

theorem shouldKeepOldKeys_eq (cfg : Config) (jwks : v1alpha1.JWKS) :
    shouldKeepOldKeys cfg jwks = (jwks.Spec.KeepOldKeys || cfg.DefaultKeepOldKeys) := by
  unfold shouldKeepOldKeys
  cases jwks.Spec.KeepOldKeys <;> simp

theorem mem_writeOps (op : StoreOp) (ops : List StoreOp) :
    op ∈ writeOps ops ↔ op ∈ ops ∧ op.isWrite = true := by
  simp [writeOps, List.mem_filter]

/-- C13 (the code at the failing input): under the default configuration (keep-old-keys
default true) a target with keepOldKeys false and the rolling strategy, whose key-set object
holds kid 1, gets the document of kids 1, 2 written in phase 3 when the new key set is
kid 2: the stored key is carried over, and the document of the new key set alone is not
what is written. -/
theorem C13_default_keeps_old_keys :
    rollingTarget.Spec.KeepOldKeys = false ∧
      getUpdateStrategy DefaultConfig rollingTarget = "rolling" ∧
      kidCodec.marshalIndent ⟨[kidOnly "2"]⟩ = .ok [50, 0] ∧
      kidCodec.marshalIndent ⟨[kidOnly "1", kidOnly "2"]⟩ = .ok [49, 0, 50, 0] ∧
      (phase3UpdateConfigMap DefaultConfig kidCodec rollingTarget ⟨[kidOnly "2"]⟩
        oneKeyCluster).1 = none ∧
      writeOps (phase3UpdateConfigMap DefaultConfig kidCodec rollingTarget ⟨[kidOnly "2"]⟩
        oneKeyCluster).2.log
        = [.updateConfigMap "default" "jwks-cm" ⟨none, some [("jwks.json", [49, 0, 50, 0])]⟩] := by
  decide

/-- With keepOldKeys false in the spec and in the configuration and the rolling strategy,
phase 3 is the check of the object followed by `UpdateJWKS` of the new key set. -/
theorem phase3_rolling_no_keep (cfg : Config) (J : JsonCodec) (jwks : v1alpha1.JWKS)
    (N : JWKS) (c1 : Cluster) (hspec : jwks.Spec.KeepOldKeys = false)
    (hdef : cfg.DefaultKeepOldKeys = false) (hstrat : getUpdateStrategy cfg jwks = "rolling") :
    Apply J jwks.Namespace jwks.Spec.ConfigMapName (some N) (getUpdateStrategy cfg jwks)
        (shouldKeepOldKeys cfg jwks) c1
      = UpdateJWKS J jwks.Namespace jwks.Spec.ConfigMapName (some N) c1 := by
  rw [hstrat, shouldKeepOldKeys_eq, hspec, hdef]
  simp [Apply, applyRollingStrategy]

/-- The effective keep-old-keys flag is the target's flag or the operator-wide default.  For
every target with keepOldKeys false whose effective strategy is rolling, when the
operator-wide default is false too, every write that phase 3 issues goes to the key-set
object and carries the document of the newly generated key set, and after a successful
phase 3 the object holds exactly that document. -/
theorem phase3_writes_new_key_set (cfg : Config) (J : JsonCodec) (jwks : v1alpha1.JWKS)
    (N : JWKS) (b : List Byte) (c : Cluster)
    (hspec : jwks.Spec.KeepOldKeys = false) (hdef : cfg.DefaultKeepOldKeys = false)
    (hstrat : getUpdateStrategy cfg jwks = "rolling")
    (hget : c.faults (.getConfigMap jwks.Namespace jwks.Spec.ConfigMapName) = none)
    (hb : J.marshalIndent N = .ok b) :
    shouldKeepOldKeys cfg jwks = (jwks.Spec.KeepOldKeys || cfg.DefaultKeepOldKeys) ∧
    (∀ op ∈ writeOps (newOps c (phase3UpdateConfigMap cfg J jwks N c).2),
      op.jwksPayload = some b ∧ op.target = (jwks.Namespace, jwks.Spec.ConfigMapName)) ∧
    ((phase3UpdateConfigMap cfg J jwks N c).1 = none →
      ∃ obj, assocGet (phase3UpdateConfigMap cfg J jwks N c).2.configMaps
          (jwks.Namespace, jwks.Spec.ConfigMapName) = some obj ∧
        obj.jwksDocument = some b) := by
  refine ⟨shouldKeepOldKeys_eq cfg jwks, ?_⟩
  have hg : (StoreOp.getConfigMap jwks.Namespace jwks.Spec.ConfigMapName).isWrite = false := rfl
  have h1 := clientGetConfigMap_fst jwks.Namespace jwks.Spec.ConfigMapName c hget
  have h2 := clientGetConfigMap_snd jwks.Namespace jwks.Spec.ConfigMapName c
  have hget1 : (c.record (.getConfigMap jwks.Namespace jwks.Spec.ConfigMapName)).faults
      (.getConfigMap jwks.Namespace jwks.Spec.ConfigMapName) = none := hget
  unfold phase3UpdateConfigMap ensureJWKSConfigMap EnsureConfigMapExists CreateConfigMap
  rcases hgc : clientGetConfigMap jwks.Namespace jwks.Spec.ConfigMapName c with ⟨g, c1⟩
  rw [hgc] at h1 h2
  simp only at h1 h2
  subst h2
  cases hl : assocGet c.configMaps (jwks.Namespace, jwks.Spec.ConfigMapName) with
  | some cm =>
    rw [hl] at h1
    subst h1
    simp only [phase3_rolling_no_keep cfg J jwks N _ hspec hdef hstrat]
    obtain ⟨hlog, -, hok⟩ := UpdateJWKS_full J jwks.Namespace jwks.Spec.ConfigMapName N b
      (c.record (.getConfigMap jwks.Namespace jwks.Spec.ConfigMapName)) hget1 hb
    rcases hu : UpdateJWKS J jwks.Namespace jwks.Spec.ConfigMapName (some N)
      (c.record (.getConfigMap jwks.Namespace jwks.Spec.ConfigMapName)) with ⟨r, c2⟩
    rw [hu] at hlog hok
    simp only [record_log, List.append_assoc, List.cons_append, List.nil_append] at hlog
    have hpay := keySetWrite_payload
      (c.record (.getConfigMap jwks.Namespace jwks.Spec.ConfigMapName))
      jwks.Namespace jwks.Spec.ConfigMapName b
    have hwrites : ∀ op ∈ writeOps (newOps c c2),
        op.jwksPayload = some b ∧ op.target = (jwks.Namespace, jwks.Spec.ConfigMapName) := by
      intro op hop
      rw [newOps_append c _ _ hlog, mem_writeOps] at hop
      obtain ⟨hmem, hw⟩ := hop
      simp only [List.mem_cons, List.mem_singleton, List.not_mem_nil, or_false] at hmem
      rcases hmem with rfl | rfl | rfl
      · rw [hg] at hw; cases hw
      · rw [hg] at hw; cases hw
      · exact ⟨hpay.1, hpay.2.1⟩
    cases r with
    | some err => exact ⟨hwrites, by simp⟩
    | none => exact ⟨hwrites, fun _ => hok rfl⟩
  | none =>
    rw [hl] at h1
    subst h1
    simp only
    obtain ⟨hlog, hfaults, hok⟩ := UpdateJWKS_full J jwks.Namespace jwks.Spec.ConfigMapName N b
      (c.record (.getConfigMap jwks.Namespace jwks.Spec.ConfigMapName)) hget1 hb
    rcases hu : UpdateJWKS J jwks.Namespace jwks.Spec.ConfigMapName (some N)
      (c.record (.getConfigMap jwks.Namespace jwks.Spec.ConfigMapName)) with ⟨r, c2⟩
    rw [hu] at hlog hok hfaults
    simp only [record_log, List.append_assoc, List.cons_append, List.nil_append] at hlog
    have hpay := keySetWrite_payload
      (c.record (.getConfigMap jwks.Namespace jwks.Spec.ConfigMapName))
      jwks.Namespace jwks.Spec.ConfigMapName b
    cases r with
    | some err =>
      simp only
      constructor
      · intro op hop
        rw [newOps_append c _ _ hlog, mem_writeOps] at hop
        obtain ⟨hmem, hw⟩ := hop
        simp only [List.mem_cons, List.mem_singleton, List.not_mem_nil, or_false] at hmem
        rcases hmem with rfl | rfl | rfl
        · rw [hg] at hw; cases hw
        · rw [hg] at hw; cases hw
        · exact ⟨hpay.1, hpay.2.1⟩
      · simp
    | none =>
      simp only [phase3_rolling_no_keep cfg J jwks N _ hspec hdef hstrat]
      have hget2 : c2.faults (.getConfigMap jwks.Namespace jwks.Spec.ConfigMapName) = none := by
        simp only at hfaults
        rw [hfaults]
        exact hget
      obtain ⟨hlog2, -, hok2⟩ := UpdateJWKS_full J jwks.Namespace jwks.Spec.ConfigMapName N b
        c2 hget2 hb
      rcases hu2 : UpdateJWKS J jwks.Namespace jwks.Spec.ConfigMapName (some N) c2
        with ⟨r2, c3⟩
      rw [hu2] at hlog2 hok2
      simp only at hlog hlog2
      rw [hlog] at hlog2
      simp only [List.append_assoc, List.cons_append, List.nil_append] at hlog2
      have hpay2 := keySetWrite_payload c2 jwks.Namespace jwks.Spec.ConfigMapName b
      have hwrites : ∀ op ∈ writeOps (newOps c c3),
          op.jwksPayload = some b ∧ op.target = (jwks.Namespace, jwks.Spec.ConfigMapName) := by
        intro op hop
        rw [newOps_append c _ _ hlog2, mem_writeOps] at hop
        obtain ⟨hmem, hw⟩ := hop
        simp only [List.mem_cons, List.mem_singleton, List.not_mem_nil, or_false] at hmem
        rcases hmem with rfl | rfl | rfl | rfl | rfl
        · rw [hg] at hw; cases hw
        · rw [hg] at hw; cases hw
        · exact ⟨hpay.1, hpay.2.1⟩
        · rw [hg] at hw; cases hw
        · exact ⟨hpay2.1, hpay2.2.1⟩
      cases r2 with
      | some err => exact ⟨hwrites, by simp⟩
      | none => exact ⟨hwrites, fun _ => hok2 rfl⟩

/-- An instance of `phase3_writes_new_key_set`: the default configuration with the
keep-old-keys default switched off; the object held kid 1 and holds the document of kid 2
after phase 3. -/
theorem phase3_writes_new_key_set_example :
    ∃ obj, assocGet (phase3UpdateConfigMap { DefaultConfig with DefaultKeepOldKeys := false }
          kidCodec rollingTarget ⟨[kidOnly "2"]⟩ oneKeyCluster).2.configMaps
          ("default", "jwks-cm") = some obj ∧
        obj.jwksDocument = some [50, 0] :=
  (phase3_writes_new_key_set { DefaultConfig with DefaultKeepOldKeys := false } kidCodec
    rollingTarget ⟨[kidOnly "2"]⟩ [50, 0] oneKeyCluster rfl rfl (by decide) rfl
    (by decide)).2.2 (by decide)

/-! ## Claims C15, C16: the full pass -/

theorem phase7VerifyJWKS_fst (cfg : Config) (parseDuration : DurationParser)
    (V : Verification) (now : Nanos) (jwks : v1alpha1.JWKS) (secret : Secret) (c : Cluster) :
    (phase7VerifyJWKS cfg parseDuration V now jwks secret c).1 = none := by
  by_cases h1 : jwks.Spec.NginxConfigMapName = ""
  · simp [phase7VerifyJWKS, h1]
  · rcases hw : V.waitForServiceEndpoints jwks.Namespace jwks.Name c with ⟨r, c1⟩
    cases hs : shouldVerifyJWKS cfg parseDuration now jwks (computeForceVerification jwks)
    · simp [phase7VerifyJWKS, h1, hs]
    · cases r with
      | some e => simp [phase7VerifyJWKS, h1, hs, hw]
      | none =>
        cases hv : V.retryVerify jwks.Namespace jwks.Name secret <;>
          simp [phase7VerifyJWKS, h1, hs, hw, hv]

theorem find_replaceCondition (cond : Condition) (conds l : List Condition)
    (h : replaceCondition cond conds = some l) :
    l.find? (fun c => c.Type_ == cond.Type_) = some cond := by
  induction conds generalizing l with
  | nil => simp [replaceCondition] at h
  | cons c rest ih =>
    by_cases hc : c.Type_ = cond.Type_
    · simp only [replaceCondition, hc, if_true, Option.some.injEq] at h
      subst h
      simp
    · simp only [replaceCondition, hc, if_false, Option.map_eq_some'] at h
      obtain ⟨l2, hl2, rfl⟩ := h
      simp [List.find?_cons, hc, ih l2 hl2]

theorem find_of_replaceCondition_none (cond : Condition) (conds : List Condition)
    (h : replaceCondition cond conds = none) :
    (conds ++ [cond]).find? (fun c => c.Type_ == cond.Type_) = some cond := by
  induction conds with
  | nil => simp
  | cons c rest ih =>
    by_cases hc : c.Type_ = cond.Type_
    · simp [replaceCondition, hc] at h
    · simp only [replaceCondition, hc, if_false, Option.map_eq_none'] at h
      simp [List.find?_cons, hc, ih h]

/-- After `SetCondition` for the type Ready, the Ready condition of the target is the one
that was set, with the generation of the target as observed generation. -/
theorem readyConditionOf_SetCondition (jwks : v1alpha1.JWKS) (status reason message : String) :
    readyConditionOf (SetCondition jwks "Ready" status reason message) =
      some ⟨"Ready", status, jwks.Generation, reason, message⟩ := by
  unfold readyConditionOf SetCondition
  cases h : replaceCondition ⟨"Ready", status, jwks.Generation, reason, message⟩
      jwks.Status.Conditions with
  | some l =>
    simp only [h]
    exact find_replaceCondition _ _ _ h
  | none =>
    simp only [h]
    exact find_of_replaceCondition_none _ _ h

theorem readyConditionOf_SetReady (now : Nanos) (jwks : v1alpha1.JWKS) (message : String) :
    readyConditionOf (SetReady now jwks message) =
      some ⟨"Ready", "True", jwks.Generation, "Reconciled", message⟩ := by
  have := readyConditionOf_SetCondition jwks "True" "Reconciled" message
  unfold readyConditionOf at this ⊢
  unfold SetReady
  exact this

theorem phase2_ok_lastKeyID (H : Hashes) (D : CertDecoders) (s : Option Secret) (n : JWKS)
    (h : phase2GenerateJWKS H D s = .ok n) : ∃ kid, executeLastKeyID n = some kid := by
  unfold phase2GenerateJWKS at h
  cases hg : GenerateFromSecret H D s with
  | error e => simp [hg] at h
  | ok j2 =>
    have hlen := GenerateFromSecret_ok H D s j2 hg
    simp only [hg, hlen, Nat.succ_ne_zero, if_false, Except.ok.injEq] at h
    subst h
    obtain ⟨keys⟩ := j2
    simp only at hlen
    match keys, hlen with
    | [key], _ => exact ⟨key.Kid, rfl⟩

/-- C15: a full pass on a non-nil target returns a nil error if and only if the six phases
before verification all succeed (`sixPhasesSucceed`), and it never panics.  When phase k is
the first to fail,
the pass returns that error, the store is left as phase k left it (no later phase issues a
call), and the Ready condition is False with the reason of phase k: SecretNotFound,
JWKSGenerationFailed, ConfigMapUpdateFailed, NginxConfigUpdateFailed, NginxDeploymentFailed,
NginxServiceFailed.  `phase7VerifyJWKS` returns nil on every path, and replacing the
verification collaborator never changes what the pass returns. -/
theorem C15_Execute_error_propagation (E : PassEnv) (j : v1alpha1.JWKS) (c : Cluster) :
    ((Execute E (some j) c).1 = GoReturn.returned none ↔
      sixPhasesSucceed E j c) ∧
    (Execute E (some j) c).1 ≠ GoReturn.panicked ∧
    (∀ err c1, phase1GetSecret j c = (.error err, c1) →
      Execute E (some j) c = failedPass j "SecretNotFound" "Failed to get secret: " err c1) ∧
    (∀ s c1 e, phase1GetSecret j c = (.ok s, c1) →
      phase2GenerateJWKS E.hashes E.decoders (some s) = .error e →
      Execute E (some j) c
        = failedPass j "JWKSGenerationFailed" "Failed to generate JWKS: " (.plain e) c1) ∧
    (∀ s c1 n err c3, phase1GetSecret j c = (.ok s, c1) →
      phase2GenerateJWKS E.hashes E.decoders (some s) = .ok n →
      phase3UpdateConfigMap E.cfg E.json j n c1 = (some err, c3) →
      Execute E (some j) c
        = failedPass j "ConfigMapUpdateFailed" "Failed to update ConfigMap: " err c3) ∧
    (∀ s c1 n c3 err j4 c4, phase1GetSecret j c = (.ok s, c1) →
      phase2GenerateJWKS E.hashes E.decoders (some s) = .ok n →
      phase3UpdateConfigMap E.cfg E.json j n c1 = (none, c3) →
      phase4UpdateNginxConfig E.generateConfig E.now j c3 = (some err, j4, c4) →
      Execute E (some j) c
        = failedPass j4 "NginxConfigUpdateFailed" "Failed to update nginx config: " err c4) ∧
    (∀ s c1 n c3 j4 c4 err c5, phase1GetSecret j c = (.ok s, c1) →
      phase2GenerateJWKS E.hashes E.decoders (some s) = .ok n →
      phase3UpdateConfigMap E.cfg E.json j n c1 = (none, c3) →
      phase4UpdateNginxConfig E.generateConfig E.now j c3 = (none, j4, c4) →
      phase5EnsureNginxDeployment E.workload j4 c4 = (some err, c5) →
      Execute E (some j) c
        = failedPass j4 "NginxDeploymentFailed" "Failed to ensure nginx deployment: " err c5) ∧
    (∀ s c1 n c3 j4 c4 c5 err c6, phase1GetSecret j c = (.ok s, c1) →
      phase2GenerateJWKS E.hashes E.decoders (some s) = .ok n →
      phase3UpdateConfigMap E.cfg E.json j n c1 = (none, c3) →
      phase4UpdateNginxConfig E.generateConfig E.now j c3 = (none, j4, c4) →
      phase5EnsureNginxDeployment E.workload j4 c4 = (none, c5) →
      phase6EnsureNginxService E.workload j4 c5 = (some err, c6) →
      Execute E (some j) c
        = failedPass j4 "NginxServiceFailed" "Failed to ensure nginx service: " err c6) ∧
    (∀ (t : v1alpha1.JWKS) (reason msgStart : String) (err : GoError) (c0 : Cluster),
      (failedPass t reason msgStart err c0).2.1.bind readyConditionOf
        = some ⟨"Ready", "False", t.Generation, reason, msgStart ++ err.Error⟩) ∧
    (∀ (t : v1alpha1.JWKS) (s : Secret) (c0 : Cluster),
      (phase7VerifyJWKS E.cfg E.parseDuration E.verification E.now t s c0).1 = none) ∧
    (∀ V : Verification,
      (Execute { E with verification := V } (some j) c).1 = (Execute E (some j) c).1) := by
  have hfail : ∀ (t : v1alpha1.JWKS) (reason msgStart : String) (err : GoError) (c0 : Cluster),
      (failedPass t reason msgStart err c0).1 ≠ GoReturn.returned none ∧
      (failedPass t reason msgStart err c0).1 ≠ GoReturn.panicked := by
    intro t reason msgStart err c0
    simp [failedPass]
  have hB1 : ∀ err c1, phase1GetSecret j c = (.error err, c1) →
      ∀ E2 : PassEnv, Execute E2 (some j) c
        = failedPass j "SecretNotFound" "Failed to get secret: " err c1 := by
    intro err c1 h1 E2
    simp only [Execute, h1, failedPass]
  have hB2 : ∀ s c1 e, phase1GetSecret j c = (.ok s, c1) →
      ∀ E2 : PassEnv, phase2GenerateJWKS E2.hashes E2.decoders (some s) = .error e →
      Execute E2 (some j) c
        = failedPass j "JWKSGenerationFailed" "Failed to generate JWKS: " (.plain e) c1 := by
    intro s c1 e h1 E2 h2
    simp only [Execute, h1, h2, failedPass, GoError.Error]
  have hB3 : ∀ s c1 n err c3, phase1GetSecret j c = (.ok s, c1) →
      ∀ E2 : PassEnv, phase2GenerateJWKS E2.hashes E2.decoders (some s) = .ok n →
      phase3UpdateConfigMap E2.cfg E2.json j n c1 = (some err, c3) →
      Execute E2 (some j) c
        = failedPass j "ConfigMapUpdateFailed" "Failed to update ConfigMap: " err c3 := by
    intro s c1 n err c3 h1 E2 h2 h3
    simp only [Execute, h1, h2, h3, failedPass]
  have hB4 : ∀ s c1 n c3 err j4 c4, phase1GetSecret j c = (.ok s, c1) →
      ∀ E2 : PassEnv, phase2GenerateJWKS E2.hashes E2.decoders (some s) = .ok n →
      phase3UpdateConfigMap E2.cfg E2.json j n c1 = (none, c3) →
      phase4UpdateNginxConfig E2.generateConfig E2.now j c3 = (some err, j4, c4) →
      Execute E2 (some j) c
        = failedPass j4 "NginxConfigUpdateFailed" "Failed to update nginx config: " err c4 := by
    intro s c1 n c3 err j4 c4 h1 E2 h2 h3 h4
    simp only [Execute, h1, h2, h3, h4, failedPass]
  have hB5 : ∀ s c1 n c3 j4 c4 err c5, phase1GetSecret j c = (.ok s, c1) →
      ∀ E2 : PassEnv, phase2GenerateJWKS E2.hashes E2.decoders (some s) = .ok n →
      phase3UpdateConfigMap E2.cfg E2.json j n c1 = (none, c3) →
      phase4UpdateNginxConfig E2.generateConfig E2.now j c3 = (none, j4, c4) →
      phase5EnsureNginxDeployment E2.workload j4 c4 = (some err, c5) →
      Execute E2 (some j) c
        = failedPass j4 "NginxDeploymentFailed" "Failed to ensure nginx deployment: " err c5 := by
    intro s c1 n c3 j4 c4 err c5 h1 E2 h2 h3 h4 h5
    simp only [Execute, h1, h2, h3, h4, h5, failedPass]
  have hB6 : ∀ s c1 n c3 j4 c4 c5 err c6, phase1GetSecret j c = (.ok s, c1) →
      ∀ E2 : PassEnv, phase2GenerateJWKS E2.hashes E2.decoders (some s) = .ok n →
      phase3UpdateConfigMap E2.cfg E2.json j n c1 = (none, c3) →
      phase4UpdateNginxConfig E2.generateConfig E2.now j c3 = (none, j4, c4) →
      phase5EnsureNginxDeployment E2.workload j4 c4 = (none, c5) →
      phase6EnsureNginxService E2.workload j4 c5 = (some err, c6) →
      Execute E2 (some j) c
        = failedPass j4 "NginxServiceFailed" "Failed to ensure nginx service: " err c6 := by
    intro s c1 n c3 j4 c4 c5 err c6 h1 E2 h2 h3 h4 h5 h6
    simp only [Execute, h1, h2, h3, h4, h5, h6, failedPass]
  have hOK : ∀ s c1 n c3 j4 c4 c5 c6, phase1GetSecret j c = (.ok s, c1) →
      ∀ E2 : PassEnv, phase2GenerateJWKS E2.hashes E2.decoders (some s) = .ok n →
      phase3UpdateConfigMap E2.cfg E2.json j n c1 = (none, c3) →
      phase4UpdateNginxConfig E2.generateConfig E2.now j c3 = (none, j4, c4) →
      phase5EnsureNginxDeployment E2.workload j4 c4 = (none, c5) →
      phase6EnsureNginxService E2.workload j4 c5 = (none, c6) →
      (Execute E2 (some j) c).1 = GoReturn.returned none := by
    intro s c1 n c3 j4 c4 c5 c6 h1 E2 h2 h3 h4 h5 h6
    obtain ⟨kid, hkid⟩ := phase2_ok_lastKeyID _ _ _ _ h2
    simp only [Execute, h1, h2, h3, h4, h5, h6, hkid]
  -- the case analysis over the six phases, for the environment `E` and for a second one
  -- that differs in the verification collaborator only
  have hcases : ∀ V : Verification,
      ((Execute E (some j) c).1 = GoReturn.returned none ↔
        sixPhasesSucceed E j c) ∧
      (Execute E (some j) c).1 ≠ GoReturn.panicked ∧
      (Execute { E with verification := V } (some j) c).1 = (Execute E (some j) c).1 := by
    intro V
    have hback : sixPhasesSucceed E j c →
        (Execute E (some j) c).1 = GoReturn.returned none := by
      rintro ⟨s, c1, n, c3, j4, c4, c5, c6, h1, h2, h3, h4, h5, h6⟩
      exact hOK s c1 n c3 j4 c4 c5 c6 h1 E h2 h3 h4 h5 h6
    -- a failed pass: the same result in both environments, not nil and not a panic
    have hbad : ∀ (t : v1alpha1.JWKS) (reason msgStart : String) (err : GoError)
        (c0 : Cluster), Execute E (some j) c = failedPass t reason msgStart err c0 →
        Execute { E with verification := V } (some j) c
          = failedPass t reason msgStart err c0 →
        ((Execute E (some j) c).1 = GoReturn.returned none ↔
          sixPhasesSucceed E j c) ∧
        (Execute E (some j) c).1 ≠ GoReturn.panicked ∧
        (Execute { E with verification := V } (some j) c).1 = (Execute E (some j) c).1 := by
      intro t reason msgStart err c0 hE hEV
      have hne : (Execute E (some j) c).1 ≠ GoReturn.returned none := by
        rw [hE]
        exact (hfail _ _ _ _ _).1
      refine ⟨⟨fun h => absurd h hne, fun h => absurd (hback h) hne⟩, ?_, ?_⟩
      · rw [hE]
        exact (hfail _ _ _ _ _).2
      · rw [hE, hEV]
    rcases h1 : phase1GetSecret j c with ⟨r1, c1⟩
    cases r1 with
    | error err =>
      exact hbad _ _ _ _ _ (hB1 err c1 h1 E) (hB1 err c1 h1 { E with verification := V })
    | ok s =>
      cases h2 : phase2GenerateJWKS E.hashes E.decoders (some s) with
      | error e =>
        exact hbad _ _ _ _ _ (hB2 s c1 e h1 E h2) (hB2 s c1 e h1 { E with verification := V } h2)
      | ok n =>
        rcases h3 : phase3UpdateConfigMap E.cfg E.json j n c1 with ⟨r3, c3⟩
        cases r3 with
        | some err =>
          exact hbad _ _ _ _ _ (hB3 s c1 n err c3 h1 E h2 h3)
            (hB3 s c1 n err c3 h1 { E with verification := V } h2 h3)
        | none =>
          rcases h4 : phase4UpdateNginxConfig E.generateConfig E.now j c3 with ⟨r4, j4, c4⟩
          cases r4 with
          | some err =>
            exact hbad _ _ _ _ _ (hB4 s c1 n c3 err j4 c4 h1 E h2 h3 h4)
              (hB4 s c1 n c3 err j4 c4 h1 { E with verification := V } h2 h3 h4)
          | none =>
            rcases h5 : phase5EnsureNginxDeployment E.workload j4 c4 with ⟨r5, c5⟩
            cases r5 with
            | some err =>
              exact hbad _ _ _ _ _ (hB5 s c1 n c3 j4 c4 err c5 h1 E h2 h3 h4 h5)
                (hB5 s c1 n c3 j4 c4 err c5 h1 { E with verification := V } h2 h3 h4 h5)
            | none =>
              rcases h6 : phase6EnsureNginxService E.workload j4 c5 with ⟨r6, c6⟩
              cases r6 with
              | some err =>
                exact hbad _ _ _ _ _ (hB6 s c1 n c3 j4 c4 c5 err c6 h1 E h2 h3 h4 h5 h6)
                  (hB6 s c1 n c3 j4 c4 c5 err c6 h1 { E with verification := V } h2 h3 h4 h5 h6)
              | none =>
                have hok := hOK s c1 n c3 j4 c4 c5 c6 h1 E h2 h3 h4 h5 h6
                have hokV := hOK s c1 n c3 j4 c4 c5 c6 h1 { E with verification := V }
                  h2 h3 h4 h5 h6
                refine ⟨⟨fun _ => ⟨s, c1, n, c3, j4, c4, c5, c6, h1, h2, h3, h4, h5, h6⟩,
                  fun _ => hok⟩, ?_, ?_⟩
                · rw [hok]
                  intro h
                  cases h
                · rw [hok, hokV]
  refine ⟨(hcases E.verification).1, (hcases E.verification).2.1,
    fun err c1 h1 => hB1 err c1 h1 E, fun s c1 e h1 h2 => hB2 s c1 e h1 E h2,
    fun s c1 n err c3 h1 h2 h3 => hB3 s c1 n err c3 h1 E h2 h3,
    fun s c1 n c3 err j4 c4 h1 h2 h3 h4 => hB4 s c1 n c3 err j4 c4 h1 E h2 h3 h4,
    fun s c1 n c3 j4 c4 err c5 h1 h2 h3 h4 h5 => hB5 s c1 n c3 j4 c4 err c5 h1 E h2 h3 h4 h5,
    fun s c1 n c3 j4 c4 c5 err c6 h1 h2 h3 h4 h5 h6 =>
      hB6 s c1 n c3 j4 c4 c5 err c6 h1 E h2 h3 h4 h5 h6,
    ?_, ?_, fun V => (hcases V).2.2⟩
  · intro t reason msgStart err c0
    simp only [failedPass, Option.some_bind, SetNotReady]
    exact readyConditionOf_SetCondition t "False" reason (msgStart ++ err.Error)
  · intro t s c0
    exact phase7VerifyJWKS_fst _ _ _ _ _ _ _

/-- Witness for C15: the source secret does not exist; phase 1 fails and the pass ends with
the reason SecretNotFound after the one read of the secret. -/
theorem C15_Execute_error_propagation_witness :
    Execute failingVerifyEnv (some (blankTarget "t")) emptyCluster =
      failedPass (blankTarget "t") "SecretNotFound" "Failed to get secret: "
        (.plain "failed to get secret tls-secret: not found")
        (emptyCluster.record (.getSecret "default" "tls-secret")) :=
  (C15_Execute_error_propagation failingVerifyEnv (blankTarget "t") emptyCluster).2.2.1
    (.plain "failed to get secret tls-secret: not found")
    (emptyCluster.record (.getSecret "default" "tls-secret")) rfl

theorem SetCondition_Generation (jwks : v1alpha1.JWKS) (t status reason message : String) :
    (SetCondition jwks t status reason message).Generation = jwks.Generation := by
  unfold SetCondition
  cases h : replaceCondition ⟨t, status, jwks.Generation, reason, message⟩
    jwks.Status.Conditions <;> simp only [h]

theorem phase4_Generation (G : ConfigGenerator) (now : Nanos) (jwks : v1alpha1.JWKS)
    (c : Cluster) : (phase4UpdateNginxConfig G now jwks c).2.1.Generation = jwks.Generation := by
  unfold phase4UpdateNginxConfig
  split
  · rfl
  · simp only
    rcases ensureNginxConfigMap G jwks (getEndpoint jwks) c with ⟨r, c1⟩
    cases r with
    | some e => rfl
    | none =>
      simp only
      rcases UpdateConfig G jwks.Namespace jwks.Spec.NginxConfigMapName jwks.Spec.ConfigMapName
        (getEndpoint jwks) c1 with ⟨r2, c2⟩
      cases r2 <;> rfl

theorem phase7_Generation (cfg : Config) (parseDuration : DurationParser) (V : Verification)
    (now : Nanos) (jwks : v1alpha1.JWKS) (secret : Secret) (c : Cluster) :
    (phase7VerifyJWKS cfg parseDuration V now jwks secret c).2.1.Generation
      = jwks.Generation := by
  by_cases h1 : jwks.Spec.NginxConfigMapName = ""
  · simp [phase7VerifyJWKS, h1]
  · rcases hw : V.waitForServiceEndpoints jwks.Namespace jwks.Name c with ⟨r, c1⟩
    cases hs : shouldVerifyJWKS cfg parseDuration now jwks (computeForceVerification jwks)
    · simp [phase7VerifyJWKS, h1, hs]
    · cases r with
      | some e => simp [phase7VerifyJWKS, h1, hs, hw]
      | none =>
        cases hv : V.retryVerify jwks.Namespace jwks.Name secret
        · simp [phase7VerifyJWKS, h1, hs, hw, hv, UpdateJWKSVerified]
        · simp [phase7VerifyJWKS, h1, hs, hw, hv, SetNotReady, SetCondition_Generation]

/-- Whenever a full pass returns a nil error, the Ready condition it leaves on the target is
True with reason Reconciled, whatever verification did. -/
theorem Execute_success_ready (E : PassEnv) (j : v1alpha1.JWKS) (c : Cluster)
    (h : (Execute E (some j) c).1 = GoReturn.returned none) :
    (Execute E (some j) c).2.1.bind readyConditionOf =
      some ⟨"Ready", "True", j.Generation, "Reconciled", "JWKS successfully updated"⟩ := by
  rcases h1 : phase1GetSecret j c with ⟨r1, c1⟩
  cases r1 with
  | error err => simp [Execute, h1] at h
  | ok s =>
    cases h2 : phase2GenerateJWKS E.hashes E.decoders (some s) with
    | error e => simp [Execute, h1, h2] at h
    | ok n =>
      rcases h3 : phase3UpdateConfigMap E.cfg E.json j n c1 with ⟨r3, c3⟩
      cases r3 with
      | some err => simp [Execute, h1, h2, h3] at h
      | none =>
        have hg4 := phase4_Generation E.generateConfig E.now j c3
        rcases h4 : phase4UpdateNginxConfig E.generateConfig E.now j c3 with ⟨r4, j4, c4⟩
        rw [h4] at hg4
        simp only at hg4
        cases r4 with
        | some err => simp [Execute, h1, h2, h3, h4] at h
        | none =>
          rcases h5 : phase5EnsureNginxDeployment E.workload j4 c4 with ⟨r5, c5⟩
          cases r5 with
          | some err => simp [Execute, h1, h2, h3, h4, h5] at h
          | none =>
            rcases h6 : phase6EnsureNginxService E.workload j4 c5 with ⟨r6, c6⟩
            cases r6 with
            | some err => simp [Execute, h1, h2, h3, h4, h5, h6] at h
            | none =>
              have hg7 := phase7_Generation E.cfg E.parseDuration E.verification E.now j4 s c6
              rcases h7 : phase7VerifyJWKS E.cfg E.parseDuration E.verification E.now j4 s c6
                with ⟨r7, j7, c7⟩
              rw [h7] at hg7
              simp only at hg7
              cases hk : executeLastKeyID n with
              | none => simp [Execute, h1, h2, h3, h4, h5, h6, h7, hk] at h
              | some kid =>
                simp only [Execute, h1, h2, h3, h4, h5, h6, h7, hk, Option.some_bind]
                rw [readyConditionOf_SetReady]
                simp only [UpdateKeyCount, UpdateLastKeyID, hg7, hg4]

/-- C16 (the code at the failing input): a serving-enabled target whose source secret exists,
a workload that is ready and a verification that fails after all attempts.  Phase 7 sets the
Ready condition to False with reason JWKSVerificationFailed, but the pass, which returns no
error, ends with the Ready condition True with reason Reconciled. -/
theorem C16_verification_failure_overwritten :
    sixPhasesSucceed failingVerifyEnv servingTarget secretOnlyCluster ∧
      failingVerification.retryVerify "default" "t" ⟨[("tls.crt", [1, 2, 3])]⟩
        = some (.plain "failed after 3 attempts: bad status") ∧
      (phase7VerifyJWKS DefaultConfig (fun _ => none) failingVerification (100 * Minute)
          servingTarget ⟨[("tls.crt", [1, 2, 3])]⟩ secretOnlyCluster).2.1.Status.Conditions
        = [⟨"Ready", "False", 1, "JWKSVerificationFailed",
            "Failed to verify JWKS from nginx: failed after 3 attempts: bad status"⟩] ∧
      (Execute failingVerifyEnv (some servingTarget) secretOnlyCluster).1
        = GoReturn.returned none ∧
      (Execute failingVerifyEnv (some servingTarget) secretOnlyCluster).2.1.bind
          readyConditionOf
        = some ⟨"Ready", "True", 1, "Reconciled", "JWKS successfully updated"⟩ := by
  refine ⟨⟨_, _, _, _, _, _, _, _, rfl, rfl, rfl, rfl, rfl, rfl⟩, rfl, by decide, by decide,
    by decide⟩

/-! ## Merging twice -/

/-- Every key of the new key set has its kid among the kids of the merged sequence. -/
theorem kid_mem_mergeSpec (oldKeys newKeys : List JWK) (k : JWK) (hk : k ∈ newKeys) :
    k.Kid ∈ kidsOf (mergeSpec oldKeys newKeys) := by
  by_cases h : k.Kid ∈ kidsOf oldKeys
  · unfold mergeSpec kidsOf
    rw [List.map_append, List.mem_append]
    exact Or.inl h
  · have hmem : k ∈ newKeys.filter (fun k => decide (k.Kid ∉ kidsOf oldKeys)) :=
      List.mem_filter.mpr ⟨hk, by simpa using h⟩
    unfold mergeSpec
    have hsplit : kidsOf (oldKeys ++ newKeys.filter (fun k => decide (k.Kid ∉ kidsOf oldKeys)))
        = kidsOf oldKeys ++ kidsOf (newKeys.filter (fun k => decide (k.Kid ∉ kidsOf oldKeys))) := by
      simp [kidsOf]
    rw [hsplit, List.mem_append]
    exact Or.inr (List.mem_map.mpr ⟨k, hmem, rfl⟩)

/-- Merging the new keys into a merged sequence adds nothing. -/
theorem mergeSpec_idem (oldKeys newKeys : List JWK) :
    mergeSpec (mergeSpec oldKeys newKeys) newKeys = mergeSpec oldKeys newKeys := by
  have h : newKeys.filter
      (fun k => decide (k.Kid ∉ kidsOf (mergeSpec oldKeys newKeys))) = [] := by
    rw [List.filter_eq_nil_iff]
    intro k hk
    simp [kid_mem_mergeSpec oldKeys newKeys k hk]
  have e : mergeSpec (mergeSpec oldKeys newKeys) newKeys
      = mergeSpec oldKeys newKeys ++ newKeys.filter
          (fun k => decide (k.Kid ∉ kidsOf (mergeSpec oldKeys newKeys))) := rfl
  rw [e, h, List.append_nil]

/-- The merged sequence has a key when the new key set has one. -/
theorem mergeSpec_ne_nil (oldKeys newKeys : List JWK) (hn : newKeys ≠ []) :
    mergeSpec oldKeys newKeys ≠ [] := by
  cases oldKeys with
  | nil =>
    simpa [mergeSpec, kidsOf] using hn
  | cons o os => simp [mergeSpec]

/-- Merging the result of a merge with the same new key set returns that result. -/
theorem MergeJWKS_idem (old : Option JWKS) (new : JWKS) (hnew : new.Keys ≠ []) :
    ∃ m, MergeJWKS old (some new) = .ok m ∧ m.Keys = mergeSpec (keysOrNil old) new.Keys ∧
      MergeJWKS (some m) (some new) = .ok m := by
  obtain ⟨m, hm, hkeys⟩ := MergeJWKS_keys old new hnew
  refine ⟨m, hm, hkeys, ?_⟩
  have hne : m.Keys ≠ [] := by
    rw [hkeys]
    exact mergeSpec_ne_nil _ _ hnew
  rw [MergeJWKS_cons m new hne hnew]
  have : mergeSpec m.Keys new.Keys = m.Keys := by
    rw [hkeys]
    exact mergeSpec_idem _ _
  rw [this]

/-- C28: for every old key set (nil included) and every new key set with at least one key,
`MergeJWKS(old, new)` succeeds with a key set `m`, and `MergeJWKS(m, new)` succeeds with a
key set that has exactly the key sequence of `m`.  Hence a rolling pass with keep-old-keys
on a store whose key-set object holds `m` writes the document of `m` again. -/
theorem C28_MergeJWKS_idempotent (old : Option JWKS) (new : JWKS) (hnew : new.Keys ≠ []) :
    ∃ m, MergeJWKS old (some new) = .ok m ∧
      (∃ m2, MergeJWKS (some m) (some new) = .ok m2 ∧ m2.Keys = m.Keys) ∧
      ∀ (J : JsonCodec) (ns name : String) (c : Cluster) (b : List Byte),
        c.faults (.getConfigMap ns name) = none →
        (GetJWKS J ns name c).1 = .ok (some m) →
        J.marshalIndent m = .ok b →
        newOps c (Apply J ns name (some new) "rolling" true c).2 =
          [.getConfigMap ns name, .getConfigMap ns name, keySetWrite c ns name b] := by
  obtain ⟨m, hm, _, hidem⟩ := MergeJWKS_idem old new hnew
  refine ⟨m, hm, ⟨m, hidem, rfl⟩, ?_⟩
  intro J ns name c b hget hstored hb
  have hlog := applyRolling_keep_log J ns name new m b c hget hb (Or.inr ⟨m, hstored, hidem⟩)
  have happly : Apply J ns name (some new) "rolling" true c
      = applyRollingStrategy J ns name new true c := by
    simp [Apply]
  rw [happly]
  exact newOps_append _ _ _ hlog

theorem C28_MergeJWKS_idempotent_witness :
    ∃ m, MergeJWKS (some ⟨[kidOnly "1"]⟩) (some ⟨[kidOnly "2"]⟩) = .ok m ∧
      (∃ m2, MergeJWKS (some m) (some ⟨[kidOnly "2"]⟩) = .ok m2 ∧ m2.Keys = m.Keys) ∧
      ∀ (J : JsonCodec) (ns name : String) (c : Cluster) (b : List Byte),
        c.faults (.getConfigMap ns name) = none →
        (GetJWKS J ns name c).1 = .ok (some m) →
        J.marshalIndent m = .ok b →
        newOps c (Apply J ns name (some ⟨[kidOnly "2"]⟩) "rolling" true c).2 =
          [.getConfigMap ns name, .getConfigMap ns name, keySetWrite c ns name b] :=
  C28_MergeJWKS_idempotent (some ⟨[kidOnly "1"]⟩) ⟨[kidOnly "2"]⟩ (by decide)

/-! ## Bounded retry -/

theorem attemptsFrom_le (fn : Nat → Option GoError) (i remaining : Nat) :
    attemptsFrom fn i remaining ≤ remaining := by
  induction remaining generalizing i with
  | zero => simp [attemptsFrom]
  | succ r ih =>
    cases h : fn i with
    | none => simp [attemptsFrom, h]
    | some e =>
      have := ih (i + 1)
      simp only [attemptsFrom, h]
      omega

/-- The events of an iteration before the call, without the callback: one wait when the
iteration is not the first. -/
theorem withoutCallbacks_waited (config : RetryConfig) (i : Nat) (lastErr : Option GoError) :
    withoutCallbacks (retryWaited config i lastErr)
      = (if i > 0 then [RetryEvent.slept config.Delay] else []) ∧
    callCount (retryWaited config i lastErr) = 0 := by
  unfold retryWaited
  by_cases hi : i > 0
  · cases config.OnRetry <;> cases lastErr <;> simp [withoutCallbacks, callCount, hi]
  · simp [withoutCallbacks, callCount, hi]

theorem withoutCallbacks_append (a b : List RetryEvent) :
    withoutCallbacks (a ++ b) = withoutCallbacks a ++ withoutCallbacks b := by
  simp [withoutCallbacks]

theorem callCount_append (a b : List RetryEvent) :
    callCount (a ++ b) = callCount a + callCount b := by
  simp [callCount]

/-- One step of the loop under a context that is never cancelled. -/
theorem retryLoop_succ (ctxDone : Nat → Option String) (hctx : ∀ k, ctxDone k = none)
    (config : RetryConfig) (fn : Nat → Option GoError) (remaining i : Nat)
    (lastErr : Option GoError) :
    retryLoop ctxDone config fn (remaining + 1) i lastErr =
      (match fn i with
       | none => (none, retryWaited config i lastErr ++ [RetryEvent.called])
       | some err =>
         ((retryLoop ctxDone config fn remaining (i + 1) (some err)).1,
          retryWaited config i lastErr ++ [RetryEvent.called]
            ++ (retryLoop ctxDone config fn remaining (i + 1) (some err)).2)) := by
  simp only [retryLoop, hctx]
  simp

/-- The events of the loop from an iteration that is not the first: a wait and a call per
attempt. -/
theorem retryLoop_events (ctxDone : Nat → Option String) (hctx : ∀ k, ctxDone k = none)
    (config : RetryConfig) (fn : Nat → Option GoError) (remaining i : Nat)
    (lastErr : Option GoError) (hi : 0 < i) :
    withoutCallbacks (retryLoop ctxDone config fn remaining i lastErr).2
        = (List.replicate (attemptsFrom fn i remaining)
            [RetryEvent.slept config.Delay, RetryEvent.called]).flatten ∧
      callCount (retryLoop ctxDone config fn remaining i lastErr).2
        = attemptsFrom fn i remaining := by
  induction remaining generalizing i lastErr with
  | zero => simp [retryLoop, attemptsFrom, withoutCallbacks, callCount]
  | succ r ih =>
    have hw := withoutCallbacks_waited config i lastErr
    rw [if_pos hi] at hw
    rw [retryLoop_succ ctxDone hctx]
    cases h : fn i with
    | none =>
      simp only [attemptsFrom, h, withoutCallbacks_append, callCount_append, hw.1, hw.2]
      simp [withoutCallbacks, callCount]
    | some err =>
      have ih2 := ih (i + 1) (some err) (Nat.succ_pos i)
      simp only [attemptsFrom, h, withoutCallbacks_append, callCount_append, hw.1, hw.2,
        ih2.1, ih2.2]
      constructor
      · rw [Nat.add_comm 1, List.replicate_succ]
        simp [withoutCallbacks]
      · simp [callCount]

/-- The returned error of the loop under a context that is never cancelled. -/
theorem retryLoop_result (ctxDone : Nat → Option String) (hctx : ∀ k, ctxDone k = none)
    (config : RetryConfig) (fn : Nat → Option GoError) (remaining i : Nat)
    (lastErr : Option GoError) :
    ((∃ k, k < remaining ∧ fn (i + k) = none) →
      (retryLoop ctxDone config fn remaining i lastErr).1 = none) ∧
    ((∀ k, k < remaining → fn (i + k) ≠ none) →
      (retryLoop ctxDone config fn remaining i lastErr).1 =
        some (.plain ("failed after " ++ toString config.MaxAttempts ++ " attempts: " ++
          wrappedText (if remaining = 0 then lastErr else fn (i + remaining - 1))))) := by
  induction remaining generalizing i lastErr with
  | zero => simp [retryLoop]
  | succ r ih =>
    rw [retryLoop_succ ctxDone hctx]
    cases h : fn i with
    | none =>
      refine ⟨fun _ => rfl, fun hall => ?_⟩
      exact absurd h (by simpa using hall 0 (Nat.succ_pos r))
    | some err =>
      have ih2 := ih (i + 1) (some err)
      simp only
      constructor
      · rintro ⟨k, hk, hfk⟩
        cases k with
        | zero => simp [h] at hfk
        | succ k =>
          apply ih2.1
          refine ⟨k, by omega, ?_⟩
          rw [← hfk]
          congr 1
          omega
      · intro hall
        rw [ih2.2 (fun k hk => by
          have := hall (k + 1) (by omega)
          rwa [show i + (k + 1) = i + 1 + k by omega] at this)]
        by_cases hr : r = 0
        · subst hr
          simp [h]
        · simp only [hr, if_false, Nat.succ_ne_zero]
          rw [show i + 1 + r - 1 = i + (r + 1) - 1 by omega]

/-- The number of attempts: up to the first success, or all of them. -/
theorem attemptsFrom_spec (fn : Nat → Option GoError) (i remaining : Nat) :
    (∀ k, k < remaining → fn (i + k) = none → (∀ j, j < k → fn (i + j) ≠ none) →
      attemptsFrom fn i remaining = k + 1) ∧
    ((∀ k, k < remaining → fn (i + k) ≠ none) → attemptsFrom fn i remaining = remaining) := by
  induction remaining generalizing i with
  | zero => simp [attemptsFrom]
  | succ r ih =>
    have ih2 := ih (i + 1)
    cases h : fn i with
    | none =>
      constructor
      · intro k hk hfk hbefore
        cases k with
        | zero => simp [attemptsFrom, h]
        | succ k => exact absurd h (by simpa using hbefore 0 (Nat.succ_pos k))
      · intro hall
        exact absurd h (by simpa using hall 0 (Nat.succ_pos r))
    | some err =>
      simp only [attemptsFrom, h]
      constructor
      · intro k hk hfk hbefore
        cases k with
        | zero => simp [h] at hfk
        | succ k =>
          have := ih2.1 k (by omega) (by rwa [show i + 1 + k = i + (k + 1) by omega])
            (fun j hj => by
              have := hbefore (j + 1) (by omega)
              rwa [show i + (j + 1) = i + 1 + j by omega] at this)
          omega
      · intro hall
        have := ih2.2 (fun k hk => by
          have := hall (k + 1) (by omega)
          rwa [show i + (k + 1) = i + 1 + k by omega] at this)
        omega

/-- The number of calls of the loop, from any iteration. -/
theorem retryLoop_callCount (ctxDone : Nat → Option String) (hctx : ∀ k, ctxDone k = none)
    (config : RetryConfig) (fn : Nat → Option GoError) (remaining i : Nat)
    (lastErr : Option GoError) :
    callCount (retryLoop ctxDone config fn remaining i lastErr).2
      = attemptsFrom fn i remaining := by
  induction remaining generalizing i lastErr with
  | zero => simp [retryLoop, attemptsFrom, callCount]
  | succ r ih =>
    have hw := withoutCallbacks_waited config i lastErr
    rw [retryLoop_succ ctxDone hctx]
    cases h : fn i with
    | none =>
      simp only [attemptsFrom, h, callCount_append, hw.2]
      simp [callCount]
    | some err =>
      simp only [attemptsFrom, h, callCount_append, hw.2, ih (i + 1) (some err)]
      simp [callCount]

theorem intersperse_replicate_succ {α : Type} (s c : α) (a : Nat) :
    List.intersperse s (List.replicate (a + 1) c) = c :: (List.replicate a [s, c]).flatten := by
  induction a with
  | zero => simp
  | succ a ih =>
    rw [List.replicate_succ, List.replicate_succ, List.intersperse_cons_cons,
      ← List.replicate_succ, ih, List.replicate_succ]
    simp

/-- The events of the whole loop without the callbacks: the calls with one wait between two
consecutive calls. -/
theorem retryLoop_trace_first (ctxDone : Nat → Option String) (hctx : ∀ k, ctxDone k = none)
    (config : RetryConfig) (fn : Nat → Option GoError) (m : Nat) (lastErr : Option GoError) :
    withoutCallbacks (retryLoop ctxDone config fn (m + 1) 0 lastErr).2
      = List.intersperse (RetryEvent.slept config.Delay)
          (List.replicate (attemptsFrom fn 0 (m + 1)) RetryEvent.called) := by
  have hw := withoutCallbacks_waited config 0 lastErr
  rw [retryLoop_succ ctxDone hctx]
  cases h : fn 0 with
  | none =>
    simp only [attemptsFrom, h, withoutCallbacks_append, hw.1]
    simp [withoutCallbacks]
  | some err =>
    have hev := (retryLoop_events ctxDone hctx config fn m 1 (some err) Nat.one_pos).1
    simp only [attemptsFrom, h, withoutCallbacks_append, hw.1, Nat.zero_add, hev]
    rw [Nat.add_comm 1, intersperse_replicate_succ]
    simp [withoutCallbacks]

/-- C30: for a context that is never cancelled.  With `MaxAttempts <= 0` the function
`RetryWithDelay` returns a non-nil error and does nothing else (the operation is not called).
With `MaxAttempts = n >= 1` it calls the operation at least once and at most `n` times; its
events besides the callbacks are the calls with exactly one wait of `Delay` between two
consecutive calls (none before the first, none after the last); when call `k` is the first
one that returns nil it returns nil after `k + 1` calls; when all `n` calls fail it makes
`n` calls and returns the error `failed after n attempts:` followed by the text of the error
of the last call; and it returns a non-nil error if and only if all `n` calls fail. -/
theorem C30_RetryWithDelay_bounded (ctxDone : Nat → Option String) (config : RetryConfig)
    (fn : Nat → Option GoError) (hctx : ∀ k, ctxDone k = none) :
    (config.MaxAttempts ≤ 0 →
      (RetryWithDelay ctxDone config fn).1 ≠ none ∧
        (RetryWithDelay ctxDone config fn).2 = []) ∧
    (1 ≤ config.MaxAttempts →
      1 ≤ callCount (RetryWithDelay ctxDone config fn).2 ∧
      callCount (RetryWithDelay ctxDone config fn).2 ≤ config.MaxAttempts.toNat ∧
      withoutCallbacks (RetryWithDelay ctxDone config fn).2
        = List.intersperse (RetryEvent.slept config.Delay)
            (List.replicate (callCount (RetryWithDelay ctxDone config fn).2)
              RetryEvent.called) ∧
      (∀ k, k < config.MaxAttempts.toNat → fn k = none → (∀ j, j < k → fn j ≠ none) →
        (RetryWithDelay ctxDone config fn).1 = none ∧
          callCount (RetryWithDelay ctxDone config fn).2 = k + 1) ∧
      ((∀ k, k < config.MaxAttempts.toNat → fn k ≠ none) →
        callCount (RetryWithDelay ctxDone config fn).2 = config.MaxAttempts.toNat ∧
        ∃ last, fn (config.MaxAttempts.toNat - 1) = some last ∧
          (RetryWithDelay ctxDone config fn).1 =
            some (.plain ("failed after " ++ toString config.MaxAttempts ++ " attempts: "
              ++ last.Error))) ∧
      ((RetryWithDelay ctxDone config fn).1 ≠ none ↔
        ∀ k, k < config.MaxAttempts.toNat → fn k ≠ none)) := by
  constructor
  · intro hn
    have h0 : config.MaxAttempts.toNat = 0 := by omega
    simp [RetryWithDelay, h0, retryLoop]
  · intro hn
    obtain ⟨m, hm⟩ : ∃ m, config.MaxAttempts.toNat = m + 1 := ⟨config.MaxAttempts.toNat - 1, by omega⟩
    have hcount := retryLoop_callCount ctxDone hctx config fn (m + 1) 0 none
    have htrace := retryLoop_trace_first ctxDone hctx config fn m none
    have hres := retryLoop_result ctxDone hctx config fn (m + 1) 0 none
    have hspec := attemptsFrom_spec fn 0 (m + 1)
    simp only [Nat.zero_add] at hres hspec
    have hle := attemptsFrom_le fn 0 (m + 1)
    have hpos : 1 ≤ attemptsFrom fn 0 (m + 1) := by
      cases h : fn 0 <;> simp [attemptsFrom, h]
    unfold RetryWithDelay
    rw [hm, hcount]
    refine ⟨hpos, hle, htrace, ?_, ?_, ?_⟩
    · intro k hk hfk hbefore
      exact ⟨hres.1 ⟨k, hk, hfk⟩, hspec.1 k hk hfk hbefore⟩
    · intro hall
      refine ⟨hspec.2 hall, ?_⟩
      have hlast := hall m (Nat.lt_succ_self m)
      obtain ⟨last, hl⟩ := Option.ne_none_iff_exists'.mp hlast
      refine ⟨last, by simpa using hl, ?_⟩
      rw [hres.2 hall]
      simp [hl, wrappedText]
    · constructor
      · intro hne k hk hfk
        exact hne (hres.1 ⟨k, hk, hfk⟩)
      · intro hall
        rw [hres.2 hall]
        simp

theorem C30_RetryWithDelay_bounded_witness :
    (RetryWithDelay neverDone ⟨3, 2 * Second, false⟩ thirdTimeLucky).1 = none ∧
      callCount (RetryWithDelay neverDone ⟨3, 2 * Second, false⟩ thirdTimeLucky).2 = 2 + 1 :=
  ((C30_RetryWithDelay_bounded neverDone ⟨3, 2 * Second, false⟩ thirdTimeLucky
    (fun _ => rfl)).2 (by decide)).2.2.2.1 2 (by decide) (by decide)
    (by intro j hj; interval_cases j <;> decide)

/-! ## The key that verification checks -/

/-- The verifier reads the first key of the served document: when it returns a key, the kid
it returns is the kid of the first key. -/
theorem extractPublicKeyFromJWKS_kid (first : JWK) (rest : List JWK)
    (r : RSAPublicKey × String)
    (h : extractPublicKeyFromJWKS (.ok ⟨(first :: rest).map JWK.served⟩) = .ok r) :
    r.2 = first.Kid := by
  unfold extractPublicKeyFromJWKS at h
  simp only [List.map_cons, JWK.served] at h
  split at h
  · cases h
  · split at h
    · cases h
    · split at h
      · cases h
      · cases h
        rfl

/-- The merged key set starts with the first stored key. -/
theorem MergeJWKS_head (first : JWK) (rest : List JWK) (N : JWKS) (hN : N.Keys ≠ []) :
    ∃ tail, MergeJWKS (some ⟨first :: rest⟩) (some N) = .ok ⟨first :: tail⟩ := by
  rw [MergeJWKS_cons ⟨first :: rest⟩ N (by simp) hN]
  exact ⟨_, rfl⟩

/-- C26 (the code at the failing input): the stored key set holds the key with kid 1, the
newly generated key set the key with kid 2.  The rolling strategy writes the keys 1, 2 in
this order, and from the served keys the verifier selects the key with kid 1, not the
newly generated one. -/
theorem C26_verifier_selects_first_stored_key :
    MergeJWKS (some ⟨[rsaKeyWithKid "1"]⟩) (some ⟨[rsaKeyWithKid "2"]⟩)
        = .ok ⟨[rsaKeyWithKid "1", rsaKeyWithKid "2"]⟩ ∧
      extractPublicKeyFromJWKS
          (.ok ⟨[rsaKeyWithKid "1", rsaKeyWithKid "2"].map JWK.served⟩)
        = .ok (⟨3233, 17⟩, "1") := by
  decide

/-! ## Validation and the requeue delay -/

/-- The delay in normal mode is the smaller of the two effective intervals. -/
theorem getRequeueInterval_normal_mode_example :
    (getRequeueInterval DefaultConfig (fun _ => none) (100 * Minute) normalModeTarget).1
      = 1 * Minute := by
  decide

/-- C29 (the code at the failing input): a configuration with verification interval 0 is
accepted by `Validate`, and for a target in normal mode `getRequeueInterval` returns the
delay 0; with a negative verification interval the delay is negative. -/
theorem C29_zero_requeue_delay :
    Validate asciiToLower zeroVerificationConfig = none ∧
      (getRequeueInterval zeroVerificationConfig (fun _ => none) (100 * Minute)
        normalModeTarget).1 = 0 ∧
      Validate asciiToLower { zeroVerificationConfig with JWKSVerificationInterval := -Minute }
        = none ∧
      (getRequeueInterval { zeroVerificationConfig with JWKSVerificationInterval := -Minute }
        (fun _ => none) (100 * Minute) normalModeTarget).1 = -Minute := by
  decide

theorem Validate_ReconcileInterval_pos (toLower : String → String) (cfg : Config)
    (hv : Validate toLower cfg = none) : 0 < cfg.ReconcileInterval := by
  unfold Validate at hv
  by_contra hneg
  have hle : cfg.ReconcileInterval ≤ 0 := not_lt.mp hneg
  by_cases hns : cfg.Namespace = ""
  · simp [hns] at hv
  · simp [hns, hle] at hv

theorem getReconcileInterval_pos (cfg : Config) (parseDuration : DurationParser)
    (jwks : v1alpha1.JWKS) (h : 0 < cfg.ReconcileInterval) :
    0 < getReconcileInterval cfg parseDuration jwks := by
  unfold getReconcileInterval
  split
  · split
    · split
      · assumption
      · exact h
    · exact h
  · exact h

theorem getVerificationInterval_pos (cfg : Config) (parseDuration : DurationParser)
    (jwks : v1alpha1.JWKS) (h : 0 < cfg.JWKSVerificationInterval) :
    0 < getVerificationInterval cfg parseDuration jwks := by
  unfold getVerificationInterval
  split
  · split
    · split
      · assumption
      · exact h
    · exact h
  · exact h

/-- With a configuration that `Validate` accepts and whose verification interval is positive
as well, the requeue delay is positive for every target and time. -/
theorem getRequeueInterval_pos (toLower : String → String) (cfg : Config)
    (parseDuration : DurationParser) (now : Nanos) (jwks : v1alpha1.JWKS)
    (hv : Validate toLower cfg = none) (hver : 0 < cfg.JWKSVerificationInterval) :
    0 < (getRequeueInterval cfg parseDuration now jwks).1 := by
  have hr := getReconcileInterval_pos cfg parseDuration jwks
    (Validate_ReconcileInterval_pos toLower cfg hv)
  have hvi := getVerificationInterval_pos cfg parseDuration jwks hver
  have h1 : (0 : Nanos) < firstFastInterval := by decide
  have h2 : (0 : Nanos) < secondFastInterval := by decide
  unfold getRequeueInterval
  simp only
  repeat' split
  all_goals first | exact h1 | exact h2 | exact hvi | exact hr

/-! ## The key count after a pass -/

/-- C24 (the code at the failing input): a full pass under the default settings (rolling,
keep-old-keys) on a store whose key-set object holds the kid 1 of an earlier certificate.
The pass returns no error and leaves two keys in the key-set object, the stored one and the
newly generated one, while `status.KeyCount` is 1; `status.LastKeyID` is the kid of the
newly generated key. -/
theorem C24_KeyCount_counts_generated_keys :
    (Execute readyEnv (some (blankTarget "t")) rotationCluster).1 = GoReturn.returned none ∧
      storedKids (Execute readyEnv (some (blankTarget "t")) rotationCluster).2.2
          "default" "jwks-cm"
        = some (.ok ["1", "0000000000000000"]) ∧
      (Execute readyEnv (some (blankTarget "t")) rotationCluster).2.1.map
          (fun j => (j.Status.KeyCount, j.Status.LastKeyID))
        = some (1, "0000000000000000") := by
  decide

theorem SetCondition_counts (jwks : v1alpha1.JWKS) (t status reason message : String) :
    (SetCondition jwks t status reason message).Status.KeyCount = jwks.Status.KeyCount ∧
      (SetCondition jwks t status reason message).Status.LastKeyID = jwks.Status.LastKeyID := by
  unfold SetCondition
  cases h : replaceCondition ⟨t, status, jwks.Generation, reason, message⟩
    jwks.Status.Conditions <;> simp only [h, and_self]

/-- Whenever a full pass returns a nil error, the key count it leaves in the status is the
number of keys of the key set generated in phase 2, and the last key id is the kid of the
first of them; neither depends on what phase 3 stored. -/
theorem Execute_success_counts (E : PassEnv) (j : v1alpha1.JWKS) (c : Cluster)
    (h : (Execute E (some j) c).1 = GoReturn.returned none) :
    ∃ s c1 n kid, phase1GetSecret j c = (.ok s, c1) ∧
      phase2GenerateJWKS E.hashes E.decoders (some s) = .ok n ∧
      executeLastKeyID n = some kid ∧
      (Execute E (some j) c).2.1.map (fun t => (t.Status.KeyCount, t.Status.LastKeyID))
        = some (Int.ofNat n.Keys.length, kid) := by
  rcases h1 : phase1GetSecret j c with ⟨r1, c1⟩
  cases r1 with
  | error err => simp [Execute, h1] at h
  | ok s =>
    cases h2 : phase2GenerateJWKS E.hashes E.decoders (some s) with
    | error e => simp [Execute, h1, h2] at h
    | ok n =>
      rcases h3 : phase3UpdateConfigMap E.cfg E.json j n c1 with ⟨r3, c3⟩
      cases r3 with
      | some err => simp [Execute, h1, h2, h3] at h
      | none =>
        rcases h4 : phase4UpdateNginxConfig E.generateConfig E.now j c3 with ⟨r4, j4, c4⟩
        cases r4 with
        | some err => simp [Execute, h1, h2, h3, h4] at h
        | none =>
          rcases h5 : phase5EnsureNginxDeployment E.workload j4 c4 with ⟨r5, c5⟩
          cases r5 with
          | some err => simp [Execute, h1, h2, h3, h4, h5] at h
          | none =>
            rcases h6 : phase6EnsureNginxService E.workload j4 c5 with ⟨r6, c6⟩
            cases r6 with
            | some err => simp [Execute, h1, h2, h3, h4, h5, h6] at h
            | none =>
              rcases h7 : phase7VerifyJWKS E.cfg E.parseDuration E.verification E.now j4 s c6
                with ⟨r7, j7, c7⟩
              cases hk : executeLastKeyID n with
              | none => simp [Execute, h1, h2, h3, h4, h5, h6, h7, hk] at h
              | some kid =>
                refine ⟨s, c1, n, kid, rfl, h2, hk, ?_⟩
                have hc := SetCondition_counts (UpdateKeyCount (UpdateLastKeyID j7 kid)
                  (Int.ofNat n.Keys.length)) "Ready" "True" "Reconciled"
                  "JWKS successfully updated"
                simp only [Execute, h1, h2, h3, h4, h5, h6, h7, hk, Option.map_some', SetReady,
                  hc.1, hc.2]
                simp only [UpdateKeyCount, UpdateLastKeyID]

/-! ## The content hash of a ConfigMap -/

set_option maxRecDepth 100000 in
theorem hexPair_injective (a b : Byte) (h : hexPair a = hexPair b) : a = b := by
  have key : ∀ x : Byte,
      hextable.indexOf (hexDigit (x.val / 16)) * 16 + hextable.indexOf (hexDigit (x.val % 16))
        = x.val := by decide
  have h1 : hexDigit (a.val / 16) = hexDigit (b.val / 16) := by
    simp only [hexPair, List.cons.injEq] at h
    exact h.1
  have h2 : hexDigit (a.val % 16) = hexDigit (b.val % 16) := by
    simp only [hexPair, List.cons.injEq] at h
    exact h.2.1
  have ha := key a
  rw [h1, h2, key b] at ha
  exact Fin.ext ha.symm

theorem hexChars_injective (a b : List Byte) (h : hexChars a = hexChars b) : a = b := by
  induction a generalizing b with
  | nil =>
    cases b with
    | nil => rfl
    | cons y ys => simp [hexChars, hexPair] at h
  | cons x xs ih =>
    cases b with
    | nil => simp [hexChars, hexPair] at h
    | cons y ys =>
      simp only [hexChars, hexPair, List.cons_append, List.nil_append, List.cons.injEq] at h
      have hxy : x = y := hexPair_injective x y (by simp [hexPair, h.1, h.2.1])
      rw [hxy, ih ys h.2.2]

/-- Two objects get the same hash exactly when SHA-256 gives the same digest for their
strings `dataStr`. -/
theorem computeConfigMapHash_eq_iff (H : Hashes) (a b : ConfigMap) :
    computeConfigMapHash H (some a) = computeConfigMapHash H (some b) ↔
      H.sha256Sum (configMapDataStr a) = H.sha256Sum (configMapDataStr b) := by
  constructor
  · intro h
    simp only [computeConfigMapHash, hexEncodeToString] at h
    exact Subtype.ext (hexChars_injective _ _ (congrArg String.data h))
  · intro h
    simp only [computeConfigMapHash, h]

/-- The hash of an object is never the empty string. -/
theorem computeConfigMapHash_ne_empty (H : Hashes) (cm : ConfigMap) :
    computeConfigMapHash H (some cm) ≠ "" := by
  intro h
  have hl : (computeConfigMapHash H (some cm)).length = 64 := by
    simp [computeConfigMapHash, hexEncodeToString, String.length, hexChars_length,
      (H.sha256Sum (configMapDataStr cm)).2]
  rw [h] at hl
  simp at hl

/-- C22 (the code at the failing input): the hash is not a faithful fingerprint.  An object
with the one entry a = "1\nb=2" and an object with the two entries a = "1", b = "2" hold
different content and get the same string `dataStr`, hence the same hash under every hash
function; so do an entry of `Data` and the same entry of `BinaryData`.  And one object whose
two entries are visited in the two possible orders gets two different strings `dataStr`, so
its two hashes agree only if SHA-256 collides on them. -/
theorem C22_hash_not_a_faithful_fingerprint :
    joinedEntryMap ≠ splitEntryMap ∧
      configMapDataStr joinedEntryMap = configMapDataStr splitEntryMap ∧
      (∀ H : Hashes, computeConfigMapHash H (some joinedEntryMap)
        = computeConfigMapHash H (some splitEntryMap)) ∧
      textEntryMap ≠ binaryEntryMap ∧
      (∀ H : Hashes, computeConfigMapHash H (some textEntryMap)
        = computeConfigMapHash H (some binaryEntryMap)) ∧
      List.Perm [("a", "1"), ("b", "2")] [("b", "2"), ("a", "1")] ∧
      configMapDataStr splitEntryMap ≠ configMapDataStr swappedEntryMap := by
  have h1 : configMapDataStr joinedEntryMap = configMapDataStr splitEntryMap := by decide
  have h2 : configMapDataStr textEntryMap = configMapDataStr binaryEntryMap := by decide
  refine ⟨by decide, h1, fun H => ?_, by decide, fun H => ?_, ?_, by decide⟩
  · simp only [computeConfigMapHash, h1]
  · simp only [computeConfigMapHash, h2]
  · exact List.Perm.swap _ _ _

/-! ## Content-hash gating of the workload -/

theorem GoMap_get_assocSet (m : GoMap String) (k v k2 : String) :
    GoMap.get (assocSet m k v) k2 = if k2 = k then v else GoMap.get m k2 := by
  induction m with
  | nil =>
    by_cases h : k2 = k
    · simp [assocSet, GoMap.get, List.lookup, h]
    · have hb : (k2 == k) = false := by simpa using h
      simp [assocSet, GoMap.get, List.lookup, h, hb]
  | cons p rest ih =>
    obtain ⟨k0, v0⟩ := p
    unfold GoMap.get at ih ⊢
    by_cases h0 : k0 = k
    · by_cases h : k2 = k
      · simp [assocSet, List.lookup, h0, h]
      · have hb : (k2 == k) = false := by simpa using h
        simp [assocSet, List.lookup, h0, h, hb]
    · by_cases h2 : k2 = k0
      · have h' : ¬ k2 = k := by rw [h2]; exact h0
        simp [assocSet, List.lookup, h0, h2]
      · have hb : (k2 == k0) = false := by simpa using h2
        simp only [assocSet, h0, if_false, List.lookup, hb]
        exact ih

theorem clientGetConfigMap_found (ns name : String) (c : Cluster) (cm : ConfigMap)
    (hf : c.faults (.getConfigMap ns name) = none)
    (hc : assocGet c.configMaps (ns, name) = some cm) :
    clientGetConfigMap ns name c = (.found cm, c.record (.getConfigMap ns name)) := by
  simp [clientGetConfigMap, hf, hc]

/-- A volume whose reference matches the wanted name is left as it is. -/
theorem fixVolume_same (nginxName jwksName : String) (vol : Volume)
    (h : ∀ src, vol.ConfigMap = some src →
      (vol.Name = VolumeNameNginxConfig → src.Name = nginxName) ∧
      (vol.Name = VolumeNameJWKSData → src.Name = jwksName)) :
    fixVolume nginxName jwksName vol = (vol, false) := by
  unfold fixVolume
  cases hc : vol.ConfigMap with
  | none => simp [hc]
  | some src =>
    have h1 := (h src hc).1
    have h2 := (h src hc).2
    have e1 : ¬ (vol.Name = VolumeNameNginxConfig ∧ src.Name ≠ nginxName) :=
      fun hx => hx.2 (h1 hx.1)
    have e2 : ¬ (vol.Name = VolumeNameJWKSData ∧ src.Name ≠ jwksName) :=
      fun hx => hx.2 (h2 hx.1)
    simp [hc, e1, e2]

theorem fixVolume_map_same (nginxName jwksName : String) (vols : List Volume)
    (h : ∀ vol ∈ vols, ∀ src, vol.ConfigMap = some src →
      (vol.Name = VolumeNameNginxConfig → src.Name = nginxName) ∧
      (vol.Name = VolumeNameJWKSData → src.Name = jwksName)) :
    (vols.map (fixVolume nginxName jwksName)).map Prod.fst = vols ∧
      (vols.map (fixVolume nginxName jwksName)).any Prod.snd = false := by
  induction vols with
  | nil => simp
  | cons v vs ih =>
    have hv := fixVolume_same nginxName jwksName v (h v (List.mem_cons_self _ _))
    have ih2 := ih (fun vol hvol => h vol (List.mem_cons_of_mem _ hvol))
    simp only [List.map_cons, hv, List.any_cons, ih2.1, ih2.2, Bool.or_self, and_self]

/-- Containers whose resources match the wanted ones are left as they are. -/
theorem updateContainerResources_same (mconfig : Option NginxConfig)
    (mustParse : String → Option Quantity) (nginxResources : Option NginxResources)
    (containers : List Container)
    (h : nginxResources = none ∨ ∃ container rest want, containers = container :: rest ∧
      buildResourceRequirements mconfig mustParse nginxResources = some want ∧
      resourcesEqual container.Resources want = true) :
    updateContainerResources mconfig mustParse nginxResources containers
      = some (containers, false) := by
  rcases h with h | ⟨container, rest, want, hc, hb, he⟩
  · simp [updateContainerResources, h]
  · cases hr : nginxResources with
    | none => simp [updateContainerResources]
    | some r =>
      rw [hr] at hb
      simp [updateContainerResources, hc, hb, he]

theorem Deployment_withTemplate_self (d : Deployment) :
    d.withTemplate d.Spec.Template.Annotations d.Spec.Template.Spec.Volumes
      d.Spec.Template.Spec.Containers = d := rfl
/-- The call of `updateDeploymentIfNeeded` in closed form, when both ConfigMaps are read and
neither the volumes nor the container resources need a change. -/
theorem updateDeploymentIfNeeded_hashes (H : Hashes) (mustParse : String → Option Quantity)
    (stamp : String) (mconfig : Option NginxConfig) (deployment : Deployment)
    (nginxName jwksName : String) (nginxResources : Option NginxResources) (s : ApiServer)
    (nginxConfigMap jwksConfigMap : ConfigMap)
    (hn1 : s.cluster.faults (.getConfigMap deployment.Namespace nginxName) = none)
    (hn2 : assocGet s.cluster.configMaps (deployment.Namespace, nginxName) = some nginxConfigMap)
    (hj1 : s.cluster.faults (.getConfigMap deployment.Namespace jwksName) = none)
    (hj2 : assocGet s.cluster.configMaps (deployment.Namespace, jwksName) = some jwksConfigMap)
    (hvol : ∀ vol ∈ deployment.Spec.Template.Spec.Volumes, ∀ src, vol.ConfigMap = some src →
      (vol.Name = VolumeNameNginxConfig → src.Name = nginxName) ∧
      (vol.Name = VolumeNameJWKSData → src.Name = jwksName))
    (hres : nginxResources = none ∨ ∃ container rest want,
      deployment.Spec.Template.Spec.Containers = container :: rest ∧
      buildResourceRequirements mconfig mustParse nginxResources = some want ∧
      resourcesEqual container.Resources want = true) :
    updateDeploymentIfNeeded H mustParse stamp mconfig deployment nginxName jwksName
        nginxResources s =
      (let c2 : Cluster :=
         Cluster.record (Cluster.record s.cluster (.getConfigMap deployment.Namespace nginxName))
           (.getConfigMap deployment.Namespace jwksName)
       let s2 : ApiServer := { s with cluster := c2 }
       let nginxHash := computeConfigMapHash H (some nginxConfigMap)
       let jwksHash := computeConfigMapHash H (some jwksConfigMap)
       let annotations0 : GoMap String := deployment.Spec.Template.Annotations.getD []
       let nginxChanged : Bool :=
         decide (GoMap.get annotations0 AnnotationNginxConfigMapHash ≠ nginxHash)
       let annotations1 : GoMap String :=
         if nginxChanged then assocSet annotations0 AnnotationNginxConfigMapHash nginxHash
         else annotations0
       let jwksChanged : Bool :=
         decide (GoMap.get annotations1 AnnotationJWKSConfigMapHash ≠ jwksHash)
       let annotations2 : GoMap String :=
         if jwksChanged then assocSet annotations1 AnnotationJWKSConfigMapHash jwksHash
         else annotations1
       if (nginxChanged || jwksChanged) = true then
         ((GoReturn.returned (apiUpdateDeployment (deployment.withTemplate
             (some (assocSet annotations2 restartedAtKey stamp))
             deployment.Spec.Template.Spec.Volumes deployment.Spec.Template.Spec.Containers)
             s2).1),
           deployment.withTemplate (some (assocSet annotations2 restartedAtKey stamp))
             deployment.Spec.Template.Spec.Volumes deployment.Spec.Template.Spec.Containers,
           (apiUpdateDeployment (deployment.withTemplate
             (some (assocSet annotations2 restartedAtKey stamp))
             deployment.Spec.Template.Spec.Volumes deployment.Spec.Template.Spec.Containers)
             s2).2)
       else
         (GoReturn.returned none,
           deployment.withTemplate (some annotations2) deployment.Spec.Template.Spec.Volumes
             deployment.Spec.Template.Spec.Containers, s2)) := by
  have hg1 := clientGetConfigMap_found deployment.Namespace nginxName s.cluster nginxConfigMap
    hn1 hn2
  have hg2 := clientGetConfigMap_found deployment.Namespace jwksName
    (s.cluster.record (.getConfigMap deployment.Namespace nginxName)) jwksConfigMap hj1 hj2
  have hv := fixVolume_map_same nginxName jwksName deployment.Spec.Template.Spec.Volumes hvol
  have hr := updateContainerResources_same mconfig mustParse nginxResources
    deployment.Spec.Template.Spec.Containers hres
  simp only [updateDeploymentIfNeeded, hg1, hg2, hv.1, hv.2, hr, Bool.or_false]

theorem apiUpdateDeployment_log (d : Deployment) (s : ApiServer) :
    (apiUpdateDeployment d s).2.apiLog = s.apiLog ++ [.updateDeployment d] ∧
      (apiUpdateDeployment d s).2.cluster = s.cluster := by
  unfold apiUpdateDeployment
  cases s.apiFaults (.updateDeployment d) with
  | some e => exact ⟨rfl, rfl⟩
  | none => cases assocGet s.deployments (d.Namespace, d.Name) <;> exact ⟨rfl, rfl⟩

theorem newApiOps_append (s s2 : ApiServer) (ops : List ApiOp)
    (h : s2.apiLog = s.apiLog ++ ops) : newApiOps s s2 = ops := by
  simp [newApiOps, h]

/-- C21: an existing Deployment whose volume references and container resources match the
wanted ones, on a store that answers the reads of the two ConfigMaps.  When a recorded hash
(the pod-template entry, empty when absent) differs from the hash computed from the
ConfigMap, `updateDeploymentIfNeeded` issues exactly one call on workload objects, the update
of this Deployment, which carries both hash entries set to the computed hashes and the
restart marker set to the time stamp, with labels, volumes and containers as before.  When
both recorded hashes equal the computed ones it returns nil, issues no call on workload
objects, and leaves the Deployment in memory and the stored Deployments as they were.  In
both cases its calls on ConfigMaps are the two reads. -/
theorem C21_updateDeploymentIfNeeded_gating (H : Hashes)
    (mustParse : String → Option Quantity) (stamp : String) (mconfig : Option NginxConfig)
    (deployment : Deployment) (nginxName jwksName : String)
    (nginxResources : Option NginxResources) (s : ApiServer)
    (nginxConfigMap jwksConfigMap : ConfigMap)
    (hn1 : s.cluster.faults (.getConfigMap deployment.Namespace nginxName) = none)
    (hn2 : assocGet s.cluster.configMaps (deployment.Namespace, nginxName) = some nginxConfigMap)
    (hj1 : s.cluster.faults (.getConfigMap deployment.Namespace jwksName) = none)
    (hj2 : assocGet s.cluster.configMaps (deployment.Namespace, jwksName) = some jwksConfigMap)
    (hvol : ∀ vol ∈ deployment.Spec.Template.Spec.Volumes, ∀ src, vol.ConfigMap = some src →
      (vol.Name = VolumeNameNginxConfig → src.Name = nginxName) ∧
      (vol.Name = VolumeNameJWKSData → src.Name = jwksName))
    (hres : nginxResources = none ∨ ∃ container rest want,
      deployment.Spec.Template.Spec.Containers = container :: rest ∧
      buildResourceRequirements mconfig mustParse nginxResources = some want ∧
      resourcesEqual container.Resources want = true)
    (out : GoReturn × Deployment × ApiServer)
    (hout : updateDeploymentIfNeeded H mustParse stamp mconfig deployment nginxName jwksName
      nginxResources s = out) :
    newOps s.cluster out.2.2.cluster =
        [.getConfigMap deployment.Namespace nginxName,
         .getConfigMap deployment.Namespace jwksName] ∧
    ((deployment.recordedEntry AnnotationNginxConfigMapHash
          ≠ computeConfigMapHash H (some nginxConfigMap) ∨
        deployment.recordedEntry AnnotationJWKSConfigMapHash
          ≠ computeConfigMapHash H (some jwksConfigMap)) →
      newApiOps s out.2.2 = [.updateDeployment out.2.1] ∧
      (∃ err, out.1 = .returned err) ∧
      out.2.1.recordedEntry AnnotationNginxConfigMapHash
        = computeConfigMapHash H (some nginxConfigMap) ∧
      out.2.1.recordedEntry AnnotationJWKSConfigMapHash
        = computeConfigMapHash H (some jwksConfigMap) ∧
      out.2.1.recordedEntry restartedAtKey = stamp ∧
      out.2.1.Spec.Template.Spec = deployment.Spec.Template.Spec ∧
      out.2.1.Spec.Template.Labels = deployment.Spec.Template.Labels ∧
      out.2.1.Name = deployment.Name ∧ out.2.1.Namespace = deployment.Namespace) ∧
    ((deployment.recordedEntry AnnotationNginxConfigMapHash
          = computeConfigMapHash H (some nginxConfigMap) ∧
        deployment.recordedEntry AnnotationJWKSConfigMapHash
          = computeConfigMapHash H (some jwksConfigMap)) →
      out.1 = .returned none ∧ out.2.1 = deployment ∧ newApiOps s out.2.2 = [] ∧
        out.2.2.deployments = s.deployments) := by
  have hform := updateDeploymentIfNeeded_hashes H mustParse stamp mconfig deployment nginxName
    jwksName nginxResources s nginxConfigMap jwksConfigMap hn1 hn2 hj1 hj2 hvol hres
  rw [hout] at hform
  have hk12 : AnnotationJWKSConfigMapHash ≠ AnnotationNginxConfigMapHash := by decide
  have hk13 : AnnotationNginxConfigMapHash ≠ restartedAtKey := by decide
  have hk23 : AnnotationJWKSConfigMapHash ≠ restartedAtKey := by decide
  simp only at hform
  by_cases hN : deployment.recordedEntry AnnotationNginxConfigMapHash
      = computeConfigMapHash H (some nginxConfigMap)
  · by_cases hJ : deployment.recordedEntry AnnotationJWKSConfigMapHash
        = computeConfigMapHash H (some jwksConfigMap)
    · -- nothing to do
      have hN' := hN
      have hJ' := hJ
      unfold Deployment.recordedEntry at hN' hJ'
      simp only [hN', hJ', ne_eq, not_true_eq_false, decide_False, Bool.false_eq_true,
        if_false, Bool.or_self] at hform
      have hsome : ∃ m, deployment.Spec.Template.Annotations = some m := by
        cases hA : deployment.Spec.Template.Annotations with
        | some m => exact ⟨m, rfl⟩
        | none =>
          rw [hA] at hN'
          exact absurd hN'.symm (computeConfigMapHash_ne_empty H nginxConfigMap)
      obtain ⟨m, hm⟩ := hsome
      have hd : deployment.withTemplate (some (deployment.Spec.Template.Annotations.getD []))
          deployment.Spec.Template.Spec.Volumes deployment.Spec.Template.Spec.Containers
          = deployment := by
        rw [hm]
        have := Deployment_withTemplate_self deployment
        rw [hm] at this
        exact this
      rw [hd] at hform
      subst hform
      refine ⟨by simp [newOps, Cluster.record], fun hne => ?_, fun _ => ?_⟩
      · rcases hne with h | h
        · exact absurd hN h
        · exact absurd hJ h
      · exact ⟨rfl, rfl, by simp [newApiOps], rfl⟩
    · have hN' := hN
      have hJ' := hJ
      unfold Deployment.recordedEntry at hN' hJ'
      simp only [hN', hJ', ne_eq, not_true_eq_false, decide_False, Bool.false_eq_true,
        if_false, not_false_eq_true, decide_True, Bool.or_true, if_true] at hform
      subst hform
      have hlog := apiUpdateDeployment_log
      refine ⟨by simp [newOps, Cluster.record, (hlog _ _).2], fun _ => ?_,
        fun h => absurd h.2 hJ⟩
      refine ⟨newApiOps_append _ _ _ (hlog _ _).1, ⟨_, rfl⟩, ?_, ?_, ?_, rfl, rfl, rfl, rfl⟩
      · simp [Deployment.recordedEntry, Deployment.withTemplate, GoMap_get_assocSet, hk13,
          hk12.symm, hN']
      · simp [Deployment.recordedEntry, Deployment.withTemplate, GoMap_get_assocSet, hk23]
      · simp [Deployment.recordedEntry, Deployment.withTemplate, GoMap_get_assocSet]
  · have hN' := hN
    unfold Deployment.recordedEntry at hN'
    have hget2 : GoMap.get (assocSet (deployment.Spec.Template.Annotations.getD [])
        AnnotationNginxConfigMapHash (computeConfigMapHash H (some nginxConfigMap)))
        AnnotationJWKSConfigMapHash
        = GoMap.get (deployment.Spec.Template.Annotations.getD [])
            AnnotationJWKSConfigMapHash := by
      rw [GoMap_get_assocSet, if_neg hk12]
    have hlog := apiUpdateDeployment_log
    by_cases hJ : deployment.recordedEntry AnnotationJWKSConfigMapHash
        = computeConfigMapHash H (some jwksConfigMap)
    · have hJ' := hJ
      unfold Deployment.recordedEntry at hJ'
      simp only [hN', hget2, hJ', ne_eq, not_true_eq_false, decide_False, Bool.false_eq_true,
        if_false, not_false_eq_true, decide_True, Bool.or_false, if_true] at hform
      subst hform
      refine ⟨by simp [newOps, Cluster.record, (hlog _ _).2], fun _ => ?_,
        fun h => absurd h.1 hN⟩
      refine ⟨newApiOps_append _ _ _ (hlog _ _).1, ⟨_, rfl⟩, ?_, ?_, ?_, rfl, rfl, rfl, rfl⟩
      · simp [Deployment.recordedEntry, Deployment.withTemplate, GoMap_get_assocSet, hk13]
      · simp [Deployment.recordedEntry, Deployment.withTemplate, GoMap_get_assocSet, hk23, hk12,
          hJ']
      · simp [Deployment.recordedEntry, Deployment.withTemplate, GoMap_get_assocSet]
    · have hJ' := hJ
      unfold Deployment.recordedEntry at hJ'
      simp only [hN', hget2, hJ', ne_eq, not_false_eq_true, decide_True, Bool.or_self,
        if_true] at hform
      subst hform
      refine ⟨by simp [newOps, Cluster.record, (hlog _ _).2], fun _ => ?_,
        fun h => absurd h.1 hN⟩
      refine ⟨newApiOps_append _ _ _ (hlog _ _).1, ⟨_, rfl⟩, ?_, ?_, ?_, rfl, rfl, rfl, rfl⟩
      · simp [Deployment.recordedEntry, Deployment.withTemplate, GoMap_get_assocSet, hk13,
          hk12.symm]
      · simp [Deployment.recordedEntry, Deployment.withTemplate, GoMap_get_assocSet, hk23]
      · simp [Deployment.recordedEntry, Deployment.withTemplate, GoMap_get_assocSet]

theorem C21_updateDeploymentIfNeeded_gating_witness :
    newApiOps workloadServer
        (updateDeploymentIfNeeded constHashes (fun _ => none) "2026-01-01T00:00:00Z" none
          bareDeployment "nginx-cm" "jwks-cm" none workloadServer).2.2
      = [.updateDeployment
          (updateDeploymentIfNeeded constHashes (fun _ => none) "2026-01-01T00:00:00Z" none
            bareDeployment "nginx-cm" "jwks-cm" none workloadServer).2.1] :=
  ((C21_updateDeploymentIfNeeded_gating constHashes (fun _ => none) "2026-01-01T00:00:00Z"
    none bareDeployment "nginx-cm" "jwks-cm" none workloadServer
    ⟨some [("default.conf", "old")], none⟩ storedKeySetObject rfl (by decide) rfl (by decide)
    (by decide) (Or.inl rfl) _ rfl).2.1
    (Or.inl (fun h => computeConfigMapHash_ne_empty constHashes _ h.symm))).1

/-! ## The selector of the Service -/

/-- C23 (the code at the failing input): the Service exists with the selector tier = "" and
the workload is found with the app label t.  `selectorsEqual` returns true for this selector
and the expected selector app = t, `EnsureService` returns nil after its two reads without
any write, and the selector of the Service stays tier = "". -/
theorem C23_selector_not_corrected :
    selectorsEqual (some [("tier", "")]) (some [("app", "t")]) = true ∧
      (EnsureService "default" "t" driftedServer).1 = none ∧
      newApiOps driftedServer (EnsureService "default" "t" driftedServer).2
        = [.getService "default" "t", .getDeployment "default" "t"] ∧
      storedSelector (EnsureService "default" "t" driftedServer).2 "default" "t"
        = some (some [("tier", "")]) := by
  decide

/-! ## A failed pass and the stored status -/

/-- The six reasons that a failing pass sets on the Ready condition. -/
theorem SetNotReady_ready (j : v1alpha1.JWKS) (reason message : String) :
    ∃ cond, readyConditionOf (SetNotReady j reason message) = some cond ∧
      cond.Status = "False" ∧ cond.Reason = reason :=
  ⟨_, readyConditionOf_SetCondition j "False" reason message, rfl, rfl⟩

/-- Whenever a full pass returns an error, the in-memory target it leaves has the Ready
condition False with the reason of one of the six phases before verification. -/
theorem Execute_failure_not_ready (E : PassEnv) (j : v1alpha1.JWKS) (c : Cluster)
    (err : GoError) (h : (Execute E (some j) c).1 = GoReturn.returned (some err)) :
    ∃ t cond, (Execute E (some j) c).2.1 = some t ∧ readyConditionOf t = some cond ∧
      cond.Status = "False" ∧
      cond.Reason ∈ ["SecretNotFound", "JWKSGenerationFailed", "ConfigMapUpdateFailed",
        "NginxConfigUpdateFailed", "NginxDeploymentFailed", "NginxServiceFailed"] := by
  rcases h1 : phase1GetSecret j c with ⟨r1, c1⟩
  cases r1 with
  | error e1 =>
    obtain ⟨cond, hc, hs, hr⟩ := SetNotReady_ready j "SecretNotFound"
      ("Failed to get secret: " ++ e1.Error)
    exact ⟨_, cond, by simp only [Execute, h1], hc, hs, by simp [hr]⟩
  | ok s =>
    cases h2 : phase2GenerateJWKS E.hashes E.decoders (some s) with
    | error e2 =>
      obtain ⟨cond, hc, hs, hr⟩ := SetNotReady_ready j "JWKSGenerationFailed"
        ("Failed to generate JWKS: " ++ e2)
      exact ⟨_, cond, by simp only [Execute, h1, h2], hc, hs, by simp [hr]⟩
    | ok n =>
      rcases h3 : phase3UpdateConfigMap E.cfg E.json j n c1 with ⟨r3, c3⟩
      cases r3 with
      | some e3 =>
        obtain ⟨cond, hc, hs, hr⟩ := SetNotReady_ready j "ConfigMapUpdateFailed"
          ("Failed to update ConfigMap: " ++ e3.Error)
        exact ⟨_, cond, by simp only [Execute, h1, h2, h3], hc, hs, by simp [hr]⟩
      | none =>
        rcases h4 : phase4UpdateNginxConfig E.generateConfig E.now j c3 with ⟨r4, j4, c4⟩
        cases r4 with
        | some e4 =>
          obtain ⟨cond, hc, hs, hr⟩ := SetNotReady_ready j4 "NginxConfigUpdateFailed"
            ("Failed to update nginx config: " ++ e4.Error)
          exact ⟨_, cond, by simp only [Execute, h1, h2, h3, h4], hc, hs, by simp [hr]⟩
        | none =>
          rcases h5 : phase5EnsureNginxDeployment E.workload j4 c4 with ⟨r5, c5⟩
          cases r5 with
          | some e5 =>
            obtain ⟨cond, hc, hs, hr⟩ := SetNotReady_ready j4 "NginxDeploymentFailed"
              ("Failed to ensure nginx deployment: " ++ e5.Error)
            exact ⟨_, cond, by simp only [Execute, h1, h2, h3, h4, h5], hc, hs, by simp [hr]⟩
          | none =>
            rcases h6 : phase6EnsureNginxService E.workload j4 c5 with ⟨r6, c6⟩
            cases r6 with
            | some e6 =>
              obtain ⟨cond, hc, hs, hr⟩ := SetNotReady_ready j4 "NginxServiceFailed"
                ("Failed to ensure nginx service: " ++ e6.Error)
              exact ⟨_, cond, by simp only [Execute, h1, h2, h3, h4, h5, h6], hc, hs,
                by simp [hr]⟩
            | none =>
              rcases h7 : phase7VerifyJWKS E.cfg E.parseDuration E.verification E.now j4 s c6
                with ⟨r7, j7, c7⟩
              cases hk : executeLastKeyID n with
              | none => simp [Execute, h1, h2, h3, h4, h5, h6, h7, hk] at h
              | some kid => simp [Execute, h1, h2, h3, h4, h5, h6, h7, hk] at h

/-- C27: when a full pass is due and `Execute` returns an error (which happens exactly when
one of the phases 1-6 fails), `Reconcile` returns that error and issues no call on the
targets: no status update is logged and the stored targets, with their status, are what they
were.  The Ready condition False with the reason of the failing phase is on the in-memory
target only. -/
theorem C27_failed_pass_writes_no_status (E : PassEnv) (j : v1alpha1.JWKS) (s : ApiServer)
    (err : GoError)
    (hdue : shouldReconcile E.cfg E.parseDuration s.reads E.now j = true)
    (hfail : (Execute E (some j) s.cluster).1 = GoReturn.returned (some err)) :
    (Reconcile E (some j) s).1 = GoReturn.returned (some err) ∧
      newApiOps s (Reconcile E (some j) s).2.2 = [] ∧
      (Reconcile E (some j) s).2.2.targets = s.targets ∧
      (Reconcile E (some j) s).2.2.cluster = (Execute E (some j) s.cluster).2.2 ∧
      ∃ t cond, (Reconcile E (some j) s).2.1 = some t ∧ readyConditionOf t = some cond ∧
        cond.Status = "False" ∧
        cond.Reason ∈ ["SecretNotFound", "JWKSGenerationFailed", "ConfigMapUpdateFailed",
          "NginxConfigUpdateFailed", "NginxDeploymentFailed", "NginxServiceFailed"] := by
  obtain ⟨t, cond, ht, hc, hs, hr⟩ := Execute_failure_not_ready E j s.cluster err hfail
  rcases hx : Execute E (some j) s.cluster with ⟨r, j2, c2⟩
  rw [hx] at hfail ht
  simp only at hfail ht
  subst hfail
  subst ht
  have hrec : Reconcile E (some j) s
      = (GoReturn.returned (some err), some t, { s with cluster := c2 }) := by
    simp [Reconcile, hdue, hx]
  rw [hrec]
  exact ⟨rfl, by simp [newApiOps], rfl, rfl, t, cond, rfl, hc, hs, hr⟩

theorem C27_failed_pass_writes_no_status_witness :
    (Reconcile readyEnv (some (blankTarget "t")) targetOnlyServer).1
        = GoReturn.returned (some (.plain "failed to get secret tls-secret: not found")) ∧
      newApiOps targetOnlyServer (Reconcile readyEnv (some (blankTarget "t"))
        targetOnlyServer).2.2 = [] ∧
      (Reconcile readyEnv (some (blankTarget "t")) targetOnlyServer).2.2.targets
        = targetOnlyServer.targets :=
  have h := C27_failed_pass_writes_no_status readyEnv (blankTarget "t") targetOnlyServer
    (.plain "failed to get secret tls-secret: not found") (by decide) (by decide)
  ⟨h.1, h.2.1, h.2.2.1⟩

/-! ## What `EnsureService` guarantees -/

theorem GoMap_get_single (k v k2 : String) :
    GoMap.get [(k, v)] k2 = if k2 = k then v else "" := by
  by_cases hk : k2 = k
  · simp [GoMap.get, List.lookup, hk]
  · have hb : (k2 == k) = false := by simpa using hk
    simp [GoMap.get, List.lookup, hk, hb]

/-- When `selectorsEqual` accepts a selector against a one-entry selector: the selector has
one entry, which is that entry or an entry of another key with an empty value. -/
theorem selectorsEqual_single (sel : Option (GoMap String)) (k v : String) :
    selectorsEqual sel (some [(k, v)]) = true ↔
      ∃ k2 v2, sel = some [(k2, v2)] ∧ ((k2 = k ∧ v2 = v) ∨ (k2 ≠ k ∧ v2 = "")) := by
  unfold selectorsEqual
  cases sel with
  | none => simp
  | some m =>
    match m with
    | [] => simp
    | [(k2, v2)] =>
      simp only [Option.getD_some, List.length_singleton, ne_eq, not_true_eq_false, if_false,
        List.all_cons, List.all_nil, Bool.and_true, decide_eq_true_eq, GoMap_get_single,
        Option.some.injEq, List.cons.injEq, Prod.mk.injEq, and_true]
      constructor
      · intro h
        refine ⟨k2, v2, ⟨rfl, rfl⟩, ?_⟩
        by_cases hk : k2 = k
        · left
          rw [if_pos hk] at h
          exact ⟨hk, h.symm⟩
        · right
          rw [if_neg hk] at h
          exact ⟨hk, h.symm⟩
      · rintro ⟨a, b, ⟨rfl, rfl⟩, h⟩
        rcases h with ⟨hk, hv⟩ | ⟨hk, hv⟩
        · rw [if_pos hk, hv]
        · rw [if_neg hk, hv]
    | _ :: _ :: _ => simp

theorem apiGetDeployment_snd (ns name : String) (s : ApiServer) :
    (apiGetDeployment ns name s).2 = s.record (.getDeployment ns name) := by
  unfold apiGetDeployment
  cases s.apiFaults (.getDeployment ns name) with
  | some e => rfl
  | none => cases assocGet s.deployments (ns, name) <;> rfl

theorem findDeployment_services (ns name : String) (s : ApiServer) :
    (findDeployment ns name s).2.services = s.services ∧
      (findDeployment ns name s).2.apiFaults = s.apiFaults := by
  have h1 := apiGetDeployment_snd ns name s
  have h2 := apiGetDeployment_snd ns ("nginx-" ++ name) (s.record (.getDeployment ns name))
  unfold findDeployment
  rcases hg1 : apiGetDeployment ns name s with ⟨g1, s1⟩
  rw [hg1] at h1
  simp only at h1
  subst h1
  rcases hg2 : apiGetDeployment ns ("nginx-" ++ name) (s.record (.getDeployment ns name))
    with ⟨g2, s2⟩
  rw [hg2] at h2
  simp only at h2
  subst h2
  cases g1 <;> cases g2 <;> first | exact ⟨rfl, rfl⟩ | (simp only [hg2]; exact ⟨rfl, rfl⟩)

theorem apiUpdateService_ok (svc : Service) (s : ApiServer)
    (h : (apiUpdateService svc s).1 = none) :
    assocGet (apiUpdateService svc s).2.services (svc.Namespace, svc.Name) = some svc := by
  unfold apiUpdateService at h ⊢
  cases hfault : s.apiFaults (.updateService svc) with
  | some e => simp [hfault] at h
  | none =>
    cases hl : assocGet s.services (svc.Namespace, svc.Name) with
    | none => simp [hfault, hl] at h
    | some old => simp [hfault, hl, ApiServer.record, assocGet_assocSet]

/-- What `EnsureService` guarantees for a Service that exists, when it returns nil: the
stored selector afterwards is the expected one, or it is the one the Service had and
`selectorsEqual` accepts it against the expected one. -/
theorem EnsureService_existing (ns name : String) (s : ApiServer) (svc : Service)
    (hf : s.apiFaults (.getService ns name) = none)
    (hs : assocGet s.services (ns, name) = some svc)
    (hname : svc.Namespace = ns ∧ svc.Name = name)
    (hret : (EnsureService ns name s).1 = none) :
    ∃ deployment,
      storedSelector (EnsureService ns name s).2 ns name
          = some (some (expectedSelector name deployment)) ∨
        (selectorsEqual svc.Spec.Selector (some (expectedSelector name deployment)) = true ∧
          storedSelector (EnsureService ns name s).2 ns name = some svc.Spec.Selector) := by
  obtain ⟨rfl, rfl⟩ := hname
  have hget : apiGetService svc.Namespace svc.Name s
      = (.found svc, s.record (.getService svc.Namespace svc.Name)) := by
    simp [apiGetService, hf, hs]
  have hfd := findDeployment_services svc.Namespace svc.Name (s.record (.getService svc.Namespace svc.Name))
  rcases hd : findDeployment svc.Namespace svc.Name (s.record (.getService svc.Namespace svc.Name)) with ⟨deployment, s2⟩
  rw [hd] at hfd
  simp only at hfd
  have hs2 : assocGet s2.services (svc.Namespace, svc.Name) = some svc := by
    rw [hfd.1]
    exact hs
  refine ⟨deployment, ?_⟩
  unfold EnsureService at hret ⊢
  simp only [hget, hd] at hret ⊢
  by_cases heq : selectorsEqual svc.Spec.Selector (some (expectedSelector svc.Name deployment))
      = true
  · right
    simp only [heq, Bool.not_true, Bool.false_eq_true, if_false]
    exact ⟨trivial, by simp [storedSelector, hs2]⟩
  · left
    have heq' : selectorsEqual svc.Spec.Selector (some (expectedSelector svc.Name deployment))
        = false := by simpa using heq
    simp only [heq', Bool.not_false, if_true] at hret ⊢
    have hok := apiUpdateService_ok
      { svc with Spec := { svc.Spec with Selector := some (expectedSelector svc.Name deployment) } }
      s2 hret
    simp [storedSelector, hok]

/-! ## Key-set convergence from any prior state of the object -/

theorem jwksJSONOf_of_document (obj : ConfigMap) (b : List Byte)
    (h : obj.jwksDocument = some b) : jwksJSONOf obj = b := by
  unfold ConfigMap.jwksDocument at h
  unfold jwksJSONOf
  cases hb : obj.BinaryData with
  | none => simp [hb] at h
  | some m =>
    simp only [hb, Option.some_bind] at h
    simp [h]

/-- On a store without faults, `UpdateJWKS` of a key set that marshals succeeds and leaves
the object carrying the document. -/
theorem UpdateJWKS_nofault (J : JsonCodec) (ns name : String) (X : JWKS) (b : List Byte)
    (c : Cluster) (hf : ∀ op, c.faults op = none) (hb : J.marshalIndent X = .ok b) :
    (UpdateJWKS J ns name (some X) c).1 = none ∧
      (∀ op, (UpdateJWKS J ns name (some X) c).2.faults op = none) ∧
      ∃ obj, assocGet (UpdateJWKS J ns name (some X) c).2.configMaps (ns, name) = some obj ∧
        obj.jwksDocument = some b := by
  have hfull := UpdateJWKS_full J ns name X b c (hf _) hb
  have h1 : (UpdateJWKS J ns name (some X) c).1 = none := by
    unfold UpdateJWKS
    simp only [ToJSON, hb]
    cases hl : assocGet c.configMaps (ns, name) with
    | none => simp [clientGetConfigMap, clientCreateConfigMap, hf, hl, Cluster.record]
    | some cm => simp [clientGetConfigMap, clientUpdateConfigMap, hf, hl, Cluster.record]
  refine ⟨h1, ?_, hfull.2.2 h1⟩
  intro op
  rw [hfull.2.1]
  exact hf op

theorem ensureJWKSConfigMap_present (J : JsonCodec) (jwks : v1alpha1.JWKS) (N : JWKS)
    (c : Cluster) (cm : ConfigMap)
    (hf : c.faults (.getConfigMap jwks.Namespace jwks.Spec.ConfigMapName) = none)
    (hc : assocGet c.configMaps (jwks.Namespace, jwks.Spec.ConfigMapName) = some cm) :
    ensureJWKSConfigMap J jwks N c
      = (none, c.record (.getConfigMap jwks.Namespace jwks.Spec.ConfigMapName)) := by
  simp [ensureJWKSConfigMap, EnsureConfigMapExists, clientGetConfigMap, hf, hc]

theorem ensureJWKSConfigMap_absent (J : JsonCodec) (jwks : v1alpha1.JWKS) (N : JWKS)
    (c : Cluster)
    (hf : c.faults (.getConfigMap jwks.Namespace jwks.Spec.ConfigMapName) = none)
    (hc : assocGet c.configMaps (jwks.Namespace, jwks.Spec.ConfigMapName) = none) :
    ensureJWKSConfigMap J jwks N c
      = UpdateJWKS J jwks.Namespace jwks.Spec.ConfigMapName (some N)
          (c.record (.getConfigMap jwks.Namespace jwks.Spec.ConfigMapName)) := by
  simp [ensureJWKSConfigMap, EnsureConfigMapExists, clientGetConfigMap, hf, hc,
    CreateConfigMap]

theorem applyRolling_keep_error (J : JsonCodec) (ns name : String) (N : JWKS) (c : Cluster)
    (e : GoError) (h : (GetJWKS J ns name c).1 = .error e) :
    applyRollingStrategy J ns name N true c
      = (some (.plain ("failed to get current JWKS: " ++ e.Error)),
          c.record (.getConfigMap ns name)) := by
  have h2 := GetJWKS_snd J ns name c
  rcases hg : GetJWKS J ns name c with ⟨r, c1⟩
  rw [hg] at h h2
  simp only at h h2
  subst h
  subst h2
  simp [applyRollingStrategy, hg]

theorem applyRolling_keep_merge (J : JsonCodec) (ns name : String) (N S M : JWKS)
    (c : Cluster) (h : (GetJWKS J ns name c).1 = .ok (some S))
    (hm : MergeJWKS (some S) (some N) = .ok M) :
    applyRollingStrategy J ns name N true c
      = UpdateJWKS J ns name (some M) (c.record (.getConfigMap ns name)) := by
  have h2 := GetJWKS_snd J ns name c
  rcases hg : GetJWKS J ns name c with ⟨r, c1⟩
  rw [hg] at h h2
  simp only at h h2
  subst h
  subst h2
  simp [applyRollingStrategy, hg, hm]

/-- Phase 3 under the rolling strategy with keep-old-keys, after the object was found. -/
theorem phase3_rolling_keep_present (cfg : Config) (J : JsonCodec) (jwks : v1alpha1.JWKS)
    (N : JWKS) (c : Cluster) (cm : ConfigMap)
    (hstrat : getUpdateStrategy cfg jwks = "rolling")
    (hkeep : shouldKeepOldKeys cfg jwks = true)
    (hf : c.faults (.getConfigMap jwks.Namespace jwks.Spec.ConfigMapName) = none)
    (hc : assocGet c.configMaps (jwks.Namespace, jwks.Spec.ConfigMapName) = some cm) :
    phase3UpdateConfigMap cfg J jwks N c =
      ((applyRollingStrategy J jwks.Namespace jwks.Spec.ConfigMapName N true
          (c.record (.getConfigMap jwks.Namespace jwks.Spec.ConfigMapName))).1.map
          (fun err => GoError.plain ("failed to update ConfigMap: " ++ err.Error)),
        (applyRollingStrategy J jwks.Namespace jwks.Spec.ConfigMapName N true
          (c.record (.getConfigMap jwks.Namespace jwks.Spec.ConfigMapName))).2) := by
  simp only [phase3UpdateConfigMap, ensureJWKSConfigMap_present J jwks N c cm hf hc, hstrat,
    hkeep, Apply, if_true]
  rcases applyRollingStrategy J jwks.Namespace jwks.Spec.ConfigMapName N true
    (c.record (.getConfigMap jwks.Namespace jwks.Spec.ConfigMapName)) with ⟨r, c2⟩
  cases r <;> rfl

/-- Phase 3 under the rolling strategy with keep-old-keys on an object that has no readable
key-set document: the phase fails after its two reads and writes nothing. -/
theorem phase3_rolling_keep_unreadable (cfg : Config) (J : JsonCodec) (jwks : v1alpha1.JWKS)
    (N : JWKS) (c : Cluster) (cm : ConfigMap)
    (hstrat : getUpdateStrategy cfg jwks = "rolling")
    (hkeep : shouldKeepOldKeys cfg jwks = true)
    (hf : c.faults (.getConfigMap jwks.Namespace jwks.Spec.ConfigMapName) = none)
    (hc : assocGet c.configMaps (jwks.Namespace, jwks.Spec.ConfigMapName) = some cm)
    (hbad : jwksJSONOf cm = [] ∨ ∃ e, J.unmarshal (jwksJSONOf cm) = .error e) :
    (phase3UpdateConfigMap cfg J jwks N c).1 ≠ none ∧
      newOps c (phase3UpdateConfigMap cfg J jwks N c).2 =
        [.getConfigMap jwks.Namespace jwks.Spec.ConfigMapName,
         .getConfigMap jwks.Namespace jwks.Spec.ConfigMapName] ∧
      (phase3UpdateConfigMap cfg J jwks N c).2.configMaps = c.configMaps := by
  have hget := GetJWKS_fst J jwks.Namespace jwks.Spec.ConfigMapName
    (c.record (.getConfigMap jwks.Namespace jwks.Spec.ConfigMapName)) hf
  have hc' : assocGet (c.record (.getConfigMap jwks.Namespace jwks.Spec.ConfigMapName)).configMaps
      (jwks.Namespace, jwks.Spec.ConfigMapName) = some cm := hc
  rw [hc'] at hget
  simp only at hget
  have herr : ∃ e, (GetJWKS J jwks.Namespace jwks.Spec.ConfigMapName
      (c.record (.getConfigMap jwks.Namespace jwks.Spec.ConfigMapName))).1 = .error e := by
    rcases hbad with h0 | ⟨e, he⟩
    · rw [hget, h0]
      exact ⟨GoError.plain "jwks.json not found in ConfigMap", by simp⟩
    · by_cases hl : (jwksJSONOf cm).length = 0
      · rw [hget, if_pos hl]
        exact ⟨_, rfl⟩
      · rw [hget, if_neg hl, he]
        exact ⟨_, rfl⟩
  obtain ⟨e, he⟩ := herr
  rw [phase3_rolling_keep_present cfg J jwks N c cm hstrat hkeep hf hc,
    applyRolling_keep_error J _ _ N _ e he]
  refine ⟨by simp, ?_, rfl⟩
  simp [newOps, Cluster.record]

/-- The rolling strategy with keep-old-keys on an object that holds a readable key-set
document, on a store without faults: it succeeds and leaves the object carrying the document
of the merged key set. -/
theorem applyRolling_keep_readable (J : JsonCodec) (ns name : String) (N S M : JWKS)
    (b : List Byte) (c : Cluster) (cm : ConfigMap) (hf : ∀ op, c.faults op = none)
    (hc : assocGet c.configMaps (ns, name) = some cm)
    (hne : jwksJSONOf cm ≠ []) (hS : J.unmarshal (jwksJSONOf cm) = .ok S)
    (hM : MergeJWKS (some S) (some N) = .ok M) (hb : J.marshalIndent M = .ok b) :
    (applyRollingStrategy J ns name N true c).1 = none ∧
      ∃ obj, assocGet (applyRollingStrategy J ns name N true c).2.configMaps (ns, name)
          = some obj ∧ obj.jwksDocument = some b := by
  have hget := GetJWKS_fst J ns name c (hf _)
  have hl : ¬ (jwksJSONOf cm).length = 0 := by simpa using hne
  rw [hc] at hget
  simp only [hl, if_false, hS] at hget
  rw [applyRolling_keep_merge J ns name N S M c hget hM]
  have hu := UpdateJWKS_nofault J ns name M b (c.record (.getConfigMap ns name)) hf hb
  exact ⟨hu.1, hu.2.2⟩

/-- Phase 3 under the rolling strategy with keep-old-keys on an object that holds a readable
key-set document, on a store without faults: the phase succeeds and leaves the object
carrying the document of the merged key set. -/
theorem phase3_rolling_keep_readable (cfg : Config) (J : JsonCodec) (jwks : v1alpha1.JWKS)
    (N S M : JWKS) (b : List Byte) (c : Cluster) (cm : ConfigMap)
    (hstrat : getUpdateStrategy cfg jwks = "rolling")
    (hkeep : shouldKeepOldKeys cfg jwks = true)
    (hf : ∀ op, c.faults op = none)
    (hc : assocGet c.configMaps (jwks.Namespace, jwks.Spec.ConfigMapName) = some cm)
    (hne : jwksJSONOf cm ≠ []) (hS : J.unmarshal (jwksJSONOf cm) = .ok S)
    (hM : MergeJWKS (some S) (some N) = .ok M) (hb : J.marshalIndent M = .ok b) :
    (phase3UpdateConfigMap cfg J jwks N c).1 = none ∧
      ∃ obj, assocGet (phase3UpdateConfigMap cfg J jwks N c).2.configMaps
          (jwks.Namespace, jwks.Spec.ConfigMapName) = some obj ∧
        obj.jwksDocument = some b := by
  have hr := applyRolling_keep_readable J jwks.Namespace jwks.Spec.ConfigMapName N S M b
    (c.record (.getConfigMap jwks.Namespace jwks.Spec.ConfigMapName)) cm hf hc hne hS hM hb
  rw [phase3_rolling_keep_present cfg J jwks N c cm hstrat hkeep (hf _) hc]
  exact ⟨by simp [hr.1], hr.2⟩

theorem MergeJWKS_self (N : JWKS) (hN : N.Keys ≠ []) :
    MergeJWKS (some N) (some N) = .ok N := by
  rw [MergeJWKS_cons N N hN hN]
  have : mergeSpec N.Keys N.Keys = N.Keys := by
    unfold mergeSpec
    have hnil : N.Keys.filter (fun k => decide (k.Kid ∉ kidsOf N.Keys)) = [] := by
      rw [List.filter_eq_nil_iff]
      intro k hk
      have : k.Kid ∈ kidsOf N.Keys := List.mem_map.mpr ⟨k, hk, rfl⟩
      simp [this]
    rw [hnil, List.append_nil]
  rw [this]

/-- Phase 3 under the rolling strategy with keep-old-keys when the object is absent, on a
store without faults and with a document of the new key set that reads back as it: the
object is created and the phase succeeds, leaving the document of the new key set. -/
theorem phase3_rolling_keep_absent (cfg : Config) (J : JsonCodec) (jwks : v1alpha1.JWKS)
    (N : JWKS) (b : List Byte) (c : Cluster)
    (hstrat : getUpdateStrategy cfg jwks = "rolling")
    (hkeep : shouldKeepOldKeys cfg jwks = true)
    (hf : ∀ op, c.faults op = none)
    (hc : assocGet c.configMaps (jwks.Namespace, jwks.Spec.ConfigMapName) = none)
    (hN : N.Keys ≠ []) (hb : J.marshalIndent N = .ok b) (hne : b ≠ [])
    (hback : J.unmarshal b = .ok N) :
    (phase3UpdateConfigMap cfg J jwks N c).1 = none ∧
      ∃ obj, assocGet (phase3UpdateConfigMap cfg J jwks N c).2.configMaps
          (jwks.Namespace, jwks.Spec.ConfigMapName) = some obj ∧
        obj.jwksDocument = some b := by
  have hcreate := UpdateJWKS_nofault J jwks.Namespace jwks.Spec.ConfigMapName N b
    (c.record (.getConfigMap jwks.Namespace jwks.Spec.ConfigMapName)) hf hb
  have hens := ensureJWKSConfigMap_absent J jwks N c (hf _) hc
  rcases hu : UpdateJWKS J jwks.Namespace jwks.Spec.ConfigMapName (some N)
    (c.record (.getConfigMap jwks.Namespace jwks.Spec.ConfigMapName)) with ⟨r, c2⟩
  rw [hu] at hcreate hens
  simp only at hcreate
  obtain ⟨hr, hf2, obj, hobj, hdoc⟩ := hcreate
  subst hr
  have hjson := jwksJSONOf_of_document obj b hdoc
  have hr := applyRolling_keep_readable J jwks.Namespace jwks.Spec.ConfigMapName N N N b c2 obj
    hf2 hobj (by rw [hjson]; exact hne) (by rw [hjson]; exact hback) (MergeJWKS_self N hN) hb
  have hphase : phase3UpdateConfigMap cfg J jwks N c
      = ((applyRollingStrategy J jwks.Namespace jwks.Spec.ConfigMapName N true c2).1.map
          (fun err => GoError.plain ("failed to update ConfigMap: " ++ err.Error)),
        (applyRollingStrategy J jwks.Namespace jwks.Spec.ConfigMapName N true c2).2) := by
    simp only [phase3UpdateConfigMap, hens, hstrat, hkeep, Apply, if_true]
    rcases applyRollingStrategy J jwks.Namespace jwks.Spec.ConfigMapName N true c2
      with ⟨r, c3⟩
    cases r <;> rfl
  rw [hphase]
  exact ⟨by simp [hr.1], hr.2⟩

/-- C25 (counterexample): under the default settings (rolling, keep-old-keys) and on a store
without faults, phase 3 fails and leaves the objects as they are when the key-set object is
present without entries, when it holds `jwks.json` only under `Data` while `BinaryData`
holds another entry, when its `jwks.json` entry is empty, and when that entry cannot be
parsed.  And when the object holds a readable key set with a key under the kid of the newly
generated key, phase 3 succeeds and leaves the object with the stored key alone: the newly
generated key is not in it. -/
theorem C25_object_not_healed :
    getUpdateStrategy DefaultConfig (blankTarget "t") = "rolling" ∧
      shouldKeepOldKeys DefaultConfig (blankTarget "t") = true ∧
      (phase3UpdateConfigMap DefaultConfig kidCodec (blankTarget "t") ⟨[kidOnly "2"]⟩
          bareObjectCluster).1
        = some (.plain ("failed to update ConfigMap: failed to get current JWKS: "
            ++ "jwks.json not found in ConfigMap")) ∧
      (phase3UpdateConfigMap DefaultConfig kidCodec (blankTarget "t") ⟨[kidOnly "2"]⟩
          bareObjectCluster).2.configMaps = bareObjectCluster.configMaps ∧
      (phase3UpdateConfigMap DefaultConfig kidCodec (blankTarget "t") ⟨[kidOnly "2"]⟩
          dataOnlyCluster).1
        = some (.plain ("failed to update ConfigMap: failed to get current JWKS: "
            ++ "jwks.json not found in ConfigMap")) ∧
      (phase3UpdateConfigMap DefaultConfig kidCodec (blankTarget "t") ⟨[kidOnly "2"]⟩
          dataOnlyCluster).2.configMaps = dataOnlyCluster.configMaps ∧
      (phase3UpdateConfigMap DefaultConfig kidCodec (blankTarget "t") ⟨[kidOnly "2"]⟩
          emptyDocumentCluster).1
        = some (.plain ("failed to update ConfigMap: failed to get current JWKS: "
            ++ "jwks.json not found in ConfigMap")) ∧
      (phase3UpdateConfigMap DefaultConfig kidCodec (blankTarget "t") ⟨[kidOnly "2"]⟩
          emptyDocumentCluster).2.configMaps = emptyDocumentCluster.configMaps ∧
      (phase3UpdateConfigMap DefaultConfig strictKidCodec (blankTarget "t") ⟨[kidOnly "2"]⟩
          garbledCluster).1
        = some (.plain ("failed to update ConfigMap: failed to get current JWKS: "
            ++ "failed to parse JWKS JSON: unexpected end of JSON input")) ∧
      (phase3UpdateConfigMap DefaultConfig strictKidCodec (blankTarget "t") ⟨[kidOnly "2"]⟩
          garbledCluster).2.configMaps = garbledCluster.configMaps ∧
      storedKeys kidModulusCodec sameKidCluster "default" "jwks-cm"
        = some (.ok [keyWith "1" "old"]) ∧
      (phase3UpdateConfigMap DefaultConfig kidModulusCodec (blankTarget "t")
          ⟨[keyWith "1" "new"]⟩ sameKidCluster).1 = none ∧
      storedKeys kidModulusCodec
          (phase3UpdateConfigMap DefaultConfig kidModulusCodec (blankTarget "t")
            ⟨[keyWith "1" "new"]⟩ sameKidCluster).2 "default" "jwks-cm"
        = some (.ok [keyWith "1" "old"]) ∧
      keyWith "1" "new" ∉ [keyWith "1" "old"] := by
  decide

/-- C25 (amended): under the rolling strategy with keep-old-keys, for a new key set with at
least one key, on a store whose calls all succeed and with a marshaller that never fails.
When the key-set object is absent (and the document of the new key set is not empty and
reads back as the new key set), phase 3 succeeds and leaves the object carrying the document
of the new key set.  When the object holds a `jwks.json` document that is not empty and
parses (in `BinaryData`, or in `Data` when `BinaryData` is nil), phase 3 succeeds and leaves
the object carrying the document of the merged key set: the stored keys, then the new keys
whose kid no stored key has.  So every new key whose kid no stored key has is in it, and for
every other new key the stored key under its kid is.
When the object is present and its document is empty, missing or does not parse, phase 3
fails after two reads, and writes nothing. -/
theorem C25_phase3_heals_absent_or_readable (cfg : Config) (J : JsonCodec)
    (jwks : v1alpha1.JWKS) (N : JWKS) (c : Cluster)
    (hstrat : getUpdateStrategy cfg jwks = "rolling")
    (hkeep : shouldKeepOldKeys cfg jwks = true)
    (hf : ∀ op, c.faults op = none) (hN : N.Keys ≠ [])
    (hmarshal : ∀ X : JWKS, ∃ b, J.marshalIndent X = .ok b) :
    (assocGet c.configMaps (jwks.Namespace, jwks.Spec.ConfigMapName) = none →
      ∀ b, J.marshalIndent N = .ok b → b ≠ [] → J.unmarshal b = .ok N →
        (phase3UpdateConfigMap cfg J jwks N c).1 = none ∧
        ∃ obj, assocGet (phase3UpdateConfigMap cfg J jwks N c).2.configMaps
            (jwks.Namespace, jwks.Spec.ConfigMapName) = some obj ∧
          obj.jwksDocument = some b) ∧
    (∀ cm S, assocGet c.configMaps (jwks.Namespace, jwks.Spec.ConfigMapName) = some cm →
      jwksJSONOf cm ≠ [] → J.unmarshal (jwksJSONOf cm) = .ok S →
        (phase3UpdateConfigMap cfg J jwks N c).1 = none ∧
        ∃ M b obj, MergeJWKS (some S) (some N) = .ok M ∧
          M.Keys = S.Keys ++ N.Keys.filter (fun k => decide (k.Kid ∉ kidsOf S.Keys)) ∧
          (∀ k ∈ N.Keys, k.Kid ∉ kidsOf S.Keys → k ∈ M.Keys) ∧
          (∀ k ∈ N.Keys, k.Kid ∈ kidsOf S.Keys → ∃ o ∈ S.Keys, o.Kid = k.Kid ∧ o ∈ M.Keys) ∧
          (∀ k ∈ N.Keys, k.Kid ∈ kidsOf M.Keys) ∧ J.marshalIndent M = .ok b ∧
          assocGet (phase3UpdateConfigMap cfg J jwks N c).2.configMaps
            (jwks.Namespace, jwks.Spec.ConfigMapName) = some obj ∧
          obj.jwksDocument = some b) ∧
    (∀ cm, assocGet c.configMaps (jwks.Namespace, jwks.Spec.ConfigMapName) = some cm →
      (jwksJSONOf cm = [] ∨ ∃ e, J.unmarshal (jwksJSONOf cm) = .error e) →
        (phase3UpdateConfigMap cfg J jwks N c).1 ≠ none ∧
        newOps c (phase3UpdateConfigMap cfg J jwks N c).2 =
          [.getConfigMap jwks.Namespace jwks.Spec.ConfigMapName,
           .getConfigMap jwks.Namespace jwks.Spec.ConfigMapName] ∧
        (phase3UpdateConfigMap cfg J jwks N c).2.configMaps = c.configMaps) := by
  refine ⟨fun hc b hb hne hback => ?_, fun cm S hc hne hS => ?_, fun cm hc hbad => ?_⟩
  · exact phase3_rolling_keep_absent cfg J jwks N b c hstrat hkeep hf hc hN hb hne hback
  · obtain ⟨M, hM, hkeys⟩ := MergeJWKS_keys (some S) N hN
    obtain ⟨b, hb⟩ := hmarshal M
    have h := phase3_rolling_keep_readable cfg J jwks N S M b c cm hstrat hkeep hf hc hne hS
      hM hb
    obtain ⟨h1, obj, hobj, hdoc⟩ := h
    have hkeys2 : M.Keys = S.Keys ++ N.Keys.filter (fun k => decide (k.Kid ∉ kidsOf S.Keys)) :=
      hkeys
    refine ⟨h1, M, b, obj, hM, hkeys2, ?_, ?_, ?_, hb, hobj, hdoc⟩
    · intro k hk hnot
      rw [hkeys2]
      exact List.mem_append_right _ (List.mem_filter.mpr ⟨hk, by simpa using hnot⟩)
    · intro k _ hin
      obtain ⟨o, ho, hok⟩ := List.mem_map.mp hin
      exact ⟨o, ho, hok, by rw [hkeys2]; exact List.mem_append_left _ ho⟩
    · intro k hk
      rw [hkeys]
      exact kid_mem_mergeSpec _ _ k hk
  · exact phase3_rolling_keep_unreadable cfg J jwks N c cm hstrat hkeep (hf _) hc hbad

theorem C25_phase3_heals_absent_or_readable_witness :
    (phase3UpdateConfigMap DefaultConfig kidCodec (blankTarget "t") ⟨[kidOnly "2"]⟩
        oneKeyCluster).1 = none ∧
      ∃ M b obj, MergeJWKS (some ⟨[kidOnly "1"]⟩) (some ⟨[kidOnly "2"]⟩) = .ok M ∧
        M.Keys = [kidOnly "1"] ++ [kidOnly "2"].filter
          (fun k => decide (k.Kid ∉ kidsOf [kidOnly "1"])) ∧
        (∀ k ∈ [kidOnly "2"], k.Kid ∉ kidsOf [kidOnly "1"] → k ∈ M.Keys) ∧
        (∀ k ∈ [kidOnly "2"], k.Kid ∈ kidsOf [kidOnly "1"] →
          ∃ o ∈ [kidOnly "1"], o.Kid = k.Kid ∧ o ∈ M.Keys) ∧
        (∀ k ∈ [kidOnly "2"], k.Kid ∈ kidsOf M.Keys) ∧ kidCodec.marshalIndent M = .ok b ∧
        assocGet (phase3UpdateConfigMap DefaultConfig kidCodec (blankTarget "t")
          ⟨[kidOnly "2"]⟩ oneKeyCluster).2.configMaps ("default", "jwks-cm") = some obj ∧
        obj.jwksDocument = some b :=
  (C25_phase3_heals_absent_or_readable DefaultConfig kidCodec (blankTarget "t")
    ⟨[kidOnly "2"]⟩ oneKeyCluster (by decide) (by decide) (fun _ => rfl) (by decide)
    (fun X => ⟨_, rfl⟩)).2.1 storedKeySetObject ⟨[kidOnly "1"]⟩ (by decide) (by decide)
    (by decide)

end JwksOperator
